import Mathlib

/-!
Well-test plotting: derivative analysis and characteristic-line geometry.

A shallow embedding of the numerical core of the well-test plotting widgets:

* `WT_PlottingWidget::on_btn_Derivative_clicked` (`wt_plottingwidget.cpp`, lines 401-514):
  pressure-drop filtering, the windowed log-time derivative and the moving-average smoothing;
* `ChartWidget::constrainLinePoint` (`chartwidget.cpp`, lines 418-442): the slope-constrained
  stretch of a characteristic line;
* `ChartWidget::addCharacteristicLine`, `calculateLinePoints`, `distToSegment`,
  `onPlotMousePress` and `deleteSelectedItems` (`chartwidget.cpp`): line placement, hit
  testing and deletion of plot items;
* `WT_PlottingWidget::executeExport` and `CurveInfo::toJson` / `fromJson`
  (`wt_plottingwidget.cpp`): data export and persistence of curve records;
* `ParamSelectDialog` (`paramselectdialog.cpp`): the fit / visible check boxes.

Conventions of the embedding.

* A C++ `double` is an element of an arbitrary linearly ordered field `α`; every definition is
  computable and can be evaluated at `α = ℚ`.  Rounding, infinities and NaN are not modelled.
* `std::log`, `log10`, `pow` and `std::sqrt` are parameters (`ln`, `log10`, `pw`, `sqrt`) of the
  definitions that call them.  Theorems that need nothing about them are stated for every such
  function; the theorems that depend on what they compute are stated over `ℝ` with the real
  functions.
* `int` values are `Int` (or `Nat` for indices that the code keeps non-negative); no claim
  treated here depends on 32-bit overflow.
* `QVector<double>` is `List α`; `v[i]` is `v.getD i 0`.
-/

namespace WT

/-! ## Data model -/

/-- A `QColor`: validity flag and the four 8-bit channels. -/
structure QColor where
  valid : Bool
  red : Nat
  green : Nat
  blue : Nat
  alpha : Nat
deriving DecidableEq, Repr

/-- The default-constructed `QColor()`, which is invalid. -/
def QColor.invalid : QColor := ⟨false, 0, 0, 0, 255⟩

/-- The `CurveInfo` struct of `wt_plottingwidget.h` (lines 21-54), field for field.
Enumerations (`ScatterShape`, `PenStyle`) are kept as their integer codes. -/
structure CurveInfo (α : Type) where
  name : String
  legendName : String
  type : Int
  xCol : Int
  yCol : Int
  xData : List α
  yData : List α
  pointShape : Int
  pointColor : QColor
  lineStyle : Int
  lineColor : QColor
  x2Col : Int
  y2Col : Int
  x2Data : List α
  y2Data : List α
  prodLegendName : String
  prodGraphType : Int
  prodColor : QColor
  testType : Int
  initialPressure : α
  LSpacing : α
  isSmooth : Bool
  smoothFactor : Int
  derivData : List α
  derivShape : Int
  derivPointColor : QColor
  derivLineStyle : Int
  derivLineColor : QColor
deriving DecidableEq

/-- The values read from an executed `PlottingDialog3` (the class is declared in
`plottingdialog3.h`; each field is the result of the getter of the same name, `accepted` is
`exec() == QDialog::Accepted`). -/
structure PlottingDialog3 (α : Type) where
  accepted : Bool
  getCurveName : String
  getPressLegend : String
  getDerivLegend : String
  getTimeColumn : Nat
  getPressureColumn : Nat
  getTestType : Int
  getInitialPressure : α
  getLSpacing : α
  isSmoothEnabled : Bool
  getSmoothFactor : Int
  getPressShape : Int
  getPressPointColor : QColor
  getPressLineStyle : Int
  getPressLineColor : QColor
  getDerivShape : Int
  getDerivPointColor : QColor
  getDerivLineStyle : Int
  getDerivLineColor : QColor
  isNewWindow : Bool

/-- One `QCPGraph`: its legend name and its key/value data. -/
structure Graph (α : Type) where
  name : String
  keys : List α
  values : List α
deriving DecidableEq

/-- The part of the `WT_PlottingWidget` state that `on_btn_Derivative_clicked` reads or writes.
`m_dataModel` is `none` for a null pointer and otherwise the table of cell values (each cell
already converted by `text().toDouble()`); `m_curves` is the `QMap<QString, CurveInfo>` as an
association list; `customPlot` lists the graphs of the embedded chart, `m_openedWindows` the
title and graphs of every detached chart window. -/
structure Widget (α : Type) where
  m_dataModel : Option (List (List α))
  m_curves : List (String × CurveInfo α)
  m_currentDisplayedCurve : String
  listWidget_Curves : List String
  customPlot : List (Graph α)
  m_openedWindows : List (String × List (Graph α))
deriving DecidableEq

/-- What the user sees of one run of the handler. -/
inductive Outcome where
  /-- No data model, or the dialog was cancelled: the handler returns silently. -/
  | ignored
  /-- The warning box of line 433 was shown and the handler returned (InsufficientDataError). -/
  | insufficientData
  /-- A curve record was built and stored. -/
  | created
deriving DecidableEq, Repr

/-- The lookup `QMap::value` / `QMap::contains` on the association list. -/
def mapFind {β : Type} (m : List (String × β)) (key : String) : Option β :=
  (m.find? (fun e => e.1 == key)).map Prod.snd

/-- The method `QMap::insert`: replace the value of an existing key, otherwise add the entry. -/
def mapInsert {β : Type} (m : List (String × β)) (key : String) (v : β) : List (String × β) :=
  if (m.any (fun e => e.1 == key)) then m.map (fun e => if e.1 == key then (key, v) else e)
  else m ++ [(key, v)]

section Engine

variable {α : Type} [LinearOrderedField α]

/-! ## The derivative engine (`on_btn_Derivative_clicked`) -/

/-- The cell access `m_dataModel->item(i, col)->text().toDouble()` on row `i`. -/
def cell (row : List α) (col : Nat) : α := row.getD col 0

/-- Lines 420-423: the shut-in pressure is the pressure cell of row 0, or 0 for an empty table. -/
def shutIn (tbl : List (List α)) (yCol : Nat) : α :=
  match tbl with
  | [] => 0
  | row :: _ => cell row yCol

/-- Line 428: the pressure drop of one sample. -/
def pressureDrop (testType : Int) (initialPressure p_shutin p : α) : α :=
  if testType = 0 then |initialPressure - p| else |p - p_shutin|

/-- Lines 426-429: the body of the filtering loop for one row, on the pair
`(info.xData, info.yData)`. -/
def collectRow (testType : Int) (initialPressure p_shutin : α) (xCol yCol : Nat)
    (acc : List α × List α) (row : List α) : List α × List α :=
  let t := cell row xCol
  let p := cell row yCol
  let dp := pressureDrop testType initialPressure p_shutin p
  if 0 < t ∧ 0 < dp then (acc.1 ++ [t], acc.2 ++ [dp]) else acc

/-- Lines 420-430 (`computePressureDrop` in the specification): the filtering loop over all
rows, returning `(info.xData, info.yData)`. -/
def computePressureDrop (testType : Int) (initialPressure : α) (xCol yCol : Nat)
    (tbl : List (List α)) : List α × List α :=
  tbl.foldl (collectRow testType initialPressure (shutIn tbl yCol) xCol yCol) ([], [])

/-- Line 442: `while (l > 0 && log(xData[l]) > logT - LSpacing) l--;` started at `l`,
with `lo = logT - LSpacing`. -/
def scanLeft (ln : α → α) (xData : List α) (lo : α) : Nat → Nat
  | 0 => 0
  | l + 1 => if ln (xData.getD (l + 1) 0) > lo then scanLeft ln xData lo l else l + 1

/-- Line 443: `while (r < size-1 && log(xData[r]) < logT + LSpacing) r++;` started at `r`,
with `hi = logT + LSpacing`; `fuel` bounds the number of iterations. -/
def scanRight (ln : α → α) (xData : List α) (hi : α) : Nat → Nat → Nat
  | 0, r => r
  | fuel + 1, r =>
    if (r : Int) < (xData.length : Int) - 1 ∧ ln (xData.getD r 0) < hi then
      scanRight ln xData hi fuel (r + 1)
    else r

/-- The left end `l` of the window of index `i` (lines 440-442). -/
def windowLeft (ln : α → α) (xData : List α) (LSpacing : α) (i : Nat) : Nat :=
  scanLeft ln xData (ln (xData.getD i 0) - LSpacing) i

/-- The right end `r` of the window of index `i` (lines 440-443); `xData.length` iterations
always suffice (`scanRight_stops`). -/
def windowRight (ln : α → α) (xData : List α) (LSpacing : α) (i : Nat) : Nat :=
  scanRight ln xData (ln (xData.getD i 0) + LSpacing) xData.length i

/-- Lines 439-446: the derivative value appended for index `i`. -/
def derivAt (ln : α → α) (xData yData : List α) (LSpacing : α) (i : Nat) : α :=
  let l := windowLeft ln xData LSpacing i
  let r := windowRight ln xData LSpacing i
  let num := yData.getD r 0 - yData.getD l 0
  let den := ln (xData.getD r 0) - ln (xData.getD l 0)
  if |den| > 1 / 1000000 then num / den else 0

/-- Lines 437-447 (`computeLogDerivative` in the specification): the loop that fills
`derData`. -/
def computeLogDerivative (ln : α → α) (xData yData : List α) (LSpacing : α) : List α :=
  (List.range xData.length).foldl (fun derData i => derData ++ [derivAt ln xData yData LSpacing i]) []

/-- Lines 453-456: the inner loop of the smoothing for index `i`, returning `(sum, cnt)`.
The loop variable `j` runs from `i - half` to `i + half`. -/
def smoothWindow (derData : List α) (half : Int) (i : Nat) : α × Int :=
  (List.range (2 * half + 1).toNat).foldl
    (fun (acc : α × Int) (k : Nat) =>
      let j : Int := (i : Int) - half + (k : Int)
      if 0 ≤ j ∧ j < (derData.length : Int) then (acc.1 + derData.getD j.toNat 0, acc.2 + 1)
      else acc)
    (0, 0)

/-- Lines 450-458 (`smooth` in the specification, for a width that passed the `> 1` test):
the loop that fills `smoothed`. -/
def smoothLoop (derData : List α) (smoothFactor : Int) : List α :=
  let half := Int.tdiv smoothFactor 2
  (List.range derData.length).foldl
    (fun smoothed i =>
      let sc := smoothWindow derData half i
      smoothed ++ [sc.1 / (sc.2 : α)])
    []

/-- Lines 449-462: the value assigned to `info.derivData`. -/
def smooth (isSmooth : Bool) (smoothFactor : Int) (derData : List α) : List α :=
  if isSmooth = true ∧ smoothFactor > 1 then smoothLoop derData smoothFactor else derData

/-- Lines 408-468: the record `info` as it stands when it is inserted into `m_curves`.
The fields that the handler never assigns keep the value of a default-constructed
`CurveInfo` (empty vectors and strings, invalid colours; the unassigned `int`s are
indeterminate in C++ and are 0 here). -/
def buildInfo (ln : α → α) (dlg : PlottingDialog3 α) (tbl : List (List α)) : CurveInfo α :=
  let xy := computePressureDrop dlg.getTestType dlg.getInitialPressure
    dlg.getTimeColumn dlg.getPressureColumn tbl
  let derData := computeLogDerivative ln xy.1 xy.2 dlg.getLSpacing
  { name := dlg.getCurveName
    legendName := dlg.getPressLegend
    type := 2
    xCol := dlg.getTimeColumn
    yCol := dlg.getPressureColumn
    xData := xy.1
    yData := xy.2
    pointShape := dlg.getPressShape
    pointColor := dlg.getPressPointColor
    lineStyle := dlg.getPressLineStyle
    lineColor := dlg.getPressLineColor
    x2Col := 0
    y2Col := 0
    x2Data := []
    y2Data := []
    prodLegendName := dlg.getDerivLegend
    prodGraphType := 0
    prodColor := QColor.invalid
    testType := dlg.getTestType
    initialPressure := dlg.getInitialPressure
    LSpacing := dlg.getLSpacing
    isSmooth := dlg.isSmoothEnabled
    smoothFactor := dlg.getSmoothFactor
    derivData := smooth dlg.isSmoothEnabled dlg.getSmoothFactor derData
    derivShape := dlg.getDerivShape
    derivPointColor := dlg.getDerivPointColor
    derivLineStyle := dlg.getDerivLineStyle
    derivLineColor := dlg.getDerivLineColor }

/-- The two graphs that lines 484-498 and `drawDerivativePlot` add for a record. -/
def derivativeGraphs (info : CurveInfo α) : List (Graph α) :=
  [⟨info.legendName, info.xData, info.yData⟩, ⟨info.prodLegendName, info.xData, info.derivData⟩]

/-- The slot `WT_PlottingWidget::on_btn_Derivative_clicked` (lines 401-514) as a transition of
the widget state, together with what the user is shown. -/
def on_btn_Derivative_clicked (ln : α → α) (w : Widget α) (dlg : PlottingDialog3 α) :
    Widget α × Outcome :=
  match w.m_dataModel with
  | none => (w, Outcome.ignored)
  | some tbl =>
    if dlg.accepted = true then
      let info := buildInfo ln dlg tbl
      if info.xData.length < 3 then (w, Outcome.insufficientData)
      else
        let w1 := { w with
          m_curves := mapInsert w.m_curves info.name info
          listWidget_Curves := w.listWidget_Curves ++ [info.name] }
        if dlg.isNewWindow = true then
          ({ w1 with m_openedWindows := w1.m_openedWindows ++ [(info.name, derivativeGraphs info)] },
            Outcome.created)
        else
          ({ w1 with
              customPlot := w1.customPlot ++ derivativeGraphs info
              m_currentDisplayedCurve := info.name },
            Outcome.created)
    else (w, Outcome.ignored)

/-- The retention test of line 429 on one row. -/
def keepRow (testType : Int) (initialPressure p_shutin : α) (xCol yCol : Nat)
    (row : List α) : Bool :=
  decide (0 < cell row xCol ∧ 0 < pressureDrop testType initialPressure p_shutin (cell row yCol))

/-- The specification of the left end of the log-time window of index `i`: `l` is reached
from `i` by decrementing while `l > 0` and `ln t[l] > ln t[i] - halfWidth`. -/
def IsWindowLeft (ln : α → α) (t : List α) (halfWidth : α) (i l : Nat) : Prop :=
  l ≤ i ∧ (∀ j, l < j → j ≤ i → ln (t.getD j 0) > ln (t.getD i 0) - halfWidth) ∧
    ¬ (0 < l ∧ ln (t.getD l 0) > ln (t.getD i 0) - halfWidth)

/-- The specification of the right end of the log-time window of index `i`: `r` is reached
from `i` by incrementing while `r < n - 1` and `ln t[r] < ln t[i] + halfWidth`. -/
def IsWindowRight (ln : α → α) (t : List α) (halfWidth : α) (i r : Nat) : Prop :=
  i ≤ r ∧ (∀ j, i ≤ j → j < r → j + 1 < t.length ∧ ln (t.getD j 0) < ln (t.getD i 0) + halfWidth) ∧
    ¬ (r + 1 < t.length ∧ ln (t.getD r 0) < ln (t.getD i 0) + halfWidth)

/-! ## Characteristic lines (`ChartWidget`) -/

/-- A `QCPItemLine` carrying the dynamic properties of a characteristic line: the plot
coordinates of its two positions `start` and `end`, and the properties `fixedSlope` and
`isLogLog` set by `addCharacteristicLine`. -/
structure QCPItemLine (α : Type) where
  start : α × α
  end_ : α × α
  fixedSlope : α
  isLogLog : Bool

/-- The method `ChartWidget::constrainLinePoint` (`chartwidget.cpp`, lines 418-442).  `rangeX`
and `rangeY` are the sizes of the visible ranges of the bottom and left axes of the active
axis rect (lines 432-434); `mouseY` is unused, as in the source. -/
def constrainLinePoint (pw : α → α → α) (rangeX rangeY : α) (line : QCPItemLine α)
    (isMovingStart : Bool) (mouseX _mouseY : α) : QCPItemLine α :=
  let k := line.fixedSlope
  let xFixed := if isMovingStart = true then line.end_.1 else line.start.1
  let yFixed := if isMovingStart = true then line.end_.2 else line.start.2
  let xNew := mouseX
  let p : α × α :=
    if line.isLogLog = true then
      let xFixed := if xFixed ≤ 0 then 1 / 100000 else xFixed
      let xNew := if xNew ≤ 0 then 1 / 100000 else xNew
      (xNew, yFixed * pw (xNew / xFixed) k)
    else
      let scaleFactor := rangeY / rangeX
      (xNew, yFixed + (k * scaleFactor) * (xNew - xFixed))
  if isMovingStart = true then { line with start := p } else { line with end_ := p }

/-- The scale type of a `QCPAxis`. -/
inductive ScaleType where
  | stLinear
  | stLogarithmic
deriving DecidableEq, Repr

/-- The part of a `QCPAxis` that the line placement reads: the visible range and the scale
type. -/
structure QCPAxis (α : Type) where
  lower : α
  upper : α
  scaleType : ScaleType

/-- The method `QCPRange::size`. -/
def QCPAxis.size (a : QCPAxis α) : α := a.upper - a.lower

/-- A `QCPAxisRect` with its bottom axis (`axis(QCPAxis::atBottom)`) and its left axis
(`axis(QCPAxis::atLeft)`). -/
structure QCPAxisRect (α : Type) where
  bottom : QCPAxis α
  left : QCPAxis α

/-- The enumeration `ChartWidget::ChartMode`. -/
inductive ChartMode where
  | Mode_Single
  | Mode_Stacked
deriving DecidableEq, Repr

/-- The axis layout of a `ChartWidget`: `m_chartMode`, `m_topRect` (`none` for a null pointer)
and the rect returned by `m_plot->axisRect()`. -/
structure ChartLayout (α : Type) where
  m_chartMode : ChartMode
  m_topRect : Option (QCPAxisRect α)
  axisRect : QCPAxisRect α

/-- The rect selected by `(m_chartMode == Mode_Stacked && m_topRect) ? m_topRect :
m_plot->axisRect()` (lines 148-149, 194 and 432). -/
def ChartLayout.activeRect (c : ChartLayout α) : QCPAxisRect α :=
  match c.m_chartMode, c.m_topRect with
  | ChartMode.Mode_Stacked, some r => r
  | _, _ => c.axisRect

/-- The method `ChartWidget::calculateLinePoints` (lines 181-220), returning
`(x1, y1, x2, y2)`; `pw` stands for `pow`. -/
def calculateLinePoints (pw : α → α → α) (c : ChartLayout α) (slope centerX centerY : α)
    (isLogX isLogY : Bool) : α × α × α × α :=
  if isLogX = true ∧ isLogY = true then
    let span : α := 3
    let x1 := centerX / span
    let x2 := centerX * span
    let y1 := centerY * pw (x1 / centerX) slope
    let y2 := centerY * pw (x2 / centerX) slope
    (x1, y1, x2, y2)
  else if isLogX = false ∧ isLogY = false then
    let rect := c.activeRect
    let rangeX := rect.bottom.size
    let rangeY := rect.left.size
    let dx := rangeX * (15 / 100)
    let scaleFactor := rangeY / rangeX
    let dy := slope * dx * scaleFactor
    let dxy : α × α :=
      if |dy| > rangeY * (5 / 10) then
        let dy := rangeY * (2 / 10) * (if slope ≥ 0 then 1 else -1)
        if |slope| > 1 / 1000000000 then (dy / (slope * scaleFactor), dy)
        else (rangeX * (2 / 10), dy)
      else (dx, dy)
    (centerX - dxy.1 / 2, centerY - dxy.2 / 2, centerX + dxy.1 / 2, centerY + dxy.2 / 2)
  else
    let rect := c.axisRect
    (rect.bottom.lower, centerY, rect.bottom.upper, centerY)

/-- The method `ChartWidget::addCharacteristicLine` (lines 146-179): the line item it creates
(which it also marks `isCharacteristic`); `pw` stands for `pow`, `log10` for `log10`. -/
def addCharacteristicLine (pw : α → α → α) (log10 : α → α) (c : ChartLayout α) (slope : α) :
    QCPItemLine α :=
  let rect := c.activeRect
  let lowerX := rect.bottom.lower
  let upperX := rect.bottom.upper
  let lowerY := rect.left.lower
  let upperY := rect.left.upper
  let isLogX := decide (rect.bottom.scaleType = ScaleType.stLogarithmic)
  let isLogY := decide (rect.left.scaleType = ScaleType.stLogarithmic)
  let centerX := if isLogX = true then pw 10 ((log10 lowerX + log10 upperX) / 2)
    else (lowerX + upperX) / 2
  let centerY := if isLogY = true then pw 10 ((log10 lowerY + log10 upperY) / 2)
    else (lowerY + upperY) / 2
  let pts := calculateLinePoints pw c slope centerX centerY isLogX isLogY
  { start := (pts.1, pts.2.1)
    end_ := (pts.2.2.1, pts.2.2.2)
    fixedSlope := slope
    isLogLog := isLogX && isLogY }

/-- The method `ChartWidget::distToSegment` (lines 224-232); `sqrt` stands for `std::sqrt`. -/
def distToSegment (sqrt : α → α) (p s e : α × α) : α :=
  let l2 := (s.1 - e.1) * (s.1 - e.1) + (s.2 - e.2) * (s.2 - e.2)
  if l2 = 0 then sqrt ((p.1 - s.1) * (p.1 - s.1) + (p.2 - s.2) * (p.2 - s.2))
  else
    let t := ((p.1 - s.1) * (e.1 - s.1) + (p.2 - s.2) * (e.2 - s.2)) / l2
    let t := max 0 (min 1 t)
    let proj : α × α := (s.1 + t * (e.1 - s.1), s.2 + t * (e.2 - s.2))
    sqrt ((p.1 - proj.1) * (p.1 - proj.1) + (p.2 - proj.2) * (p.2 - proj.2))

/-! ## Data export (`WT_PlottingWidget::executeExport`) -/

/-- A default-constructed `CurveInfo` (empty strings and vectors, invalid colours; the
scalar members, which C++ leaves indeterminate, are 0 and `false` here). -/
def CurveInfo.fresh : CurveInfo α :=
  { name := "", legendName := "", type := 0, xCol := 0, yCol := 0, xData := [], yData := []
    pointShape := 0, pointColor := QColor.invalid, lineStyle := 0, lineColor := QColor.invalid
    x2Col := 0, y2Col := 0, x2Data := [], y2Data := [], prodLegendName := ""
    prodGraphType := 0, prodColor := QColor.invalid
    testType := 0, initialPressure := 0, LSpacing := 0, isSmooth := false, smoothFactor := 0
    derivData := [], derivShape := 0, derivPointColor := QColor.invalid, derivLineStyle := 0
    derivLineColor := QColor.invalid }

/-- The method `WT_PlottingWidget::getProductionValueAt` (lines 748-752). -/
def getProductionValueAt (_t : α) (info : CurveInfo α) : α :=
  if info.y2Data.isEmpty = true then 0 else info.y2Data.getLastD 0

/-- What `executeExport` writes to the stream: the header line, the separator and the cells
of every data row, in the order written. -/
structure ExportFile (α : Type) where
  header : String
  sep : String
  rows : List (List α)

/-- Lines 720-727: the row loop of the stacked branch. -/
def exportRowsStacked (fullRange : Bool) (start end_ : α) (info : CurveInfo α) :
    List (List α) :=
  (List.range info.xData.length).foldl
    (fun (rows : List (List α)) (i : Nat) =>
      let t := info.xData.getD i 0
      if fullRange = false ∧ (t < start ∨ t > end_) then rows
      else
        let p := info.yData.getD i 0
        let q := getProductionValueAt t info
        if fullRange = true then rows ++ [[t, p, q]] else rows ++ [[t - start, p, q, t]])
    []

/-- Lines 730-736: the row loop of the single-chart branch. -/
def exportRowsSingle (fullRange : Bool) (start end_ : α) (info : CurveInfo α) :
    List (List α) :=
  (List.range info.xData.length).foldl
    (fun (rows : List (List α)) (i : Nat) =>
      let t := info.xData.getD i 0
      if fullRange = false ∧ (t < start ∨ t > end_) then rows
      else
        let val := info.yData.getD i 0
        if fullRange = true then rows ++ [[t, val]] else rows ++ [[t - start, val, t]])
    []

/-- The method `WT_PlottingWidget::executeExport` (lines 705-746).  `file` is the path returned
by the save dialog, `opened` the result of `f.open`, `mode` the value of
`ui->customPlot->getChartMode()`.  The access `m_curves[m_currentDisplayedCurve]` inserts a
default record when the key is absent. -/
def executeExport (w : Widget α) (file : String) (opened : Bool) (mode : ChartMode)
    (fullRange : Bool) (start end_ : α) : Widget α × Option (ExportFile α) :=
  if file.isEmpty = true then (w, none)
  else if opened = false then (w, none)
  else
    let sep := if file.endsWith ".txt" = true ∨ file.endsWith ".xls" = true then "\t" else ","
    let w1 : Widget α :=
      match mapFind w.m_curves w.m_currentDisplayedCurve with
      | some _ => w
      | none =>
        { w with m_curves := mapInsert w.m_curves w.m_currentDisplayedCurve CurveInfo.fresh }
    let info := (mapFind w.m_curves w.m_currentDisplayedCurve).getD CurveInfo.fresh
    if mode = ChartMode.Mode_Stacked then
      (w1, some { header := if fullRange = true then "Time,P,Q\n" else "AdjTime,P,Q,OrigTime\n"
                  sep := sep
                  rows := exportRowsStacked fullRange start end_ info })
    else
      (w1, some { header := if fullRange = true then "Time,Value\n" else "AdjTime,Value,OrigTime\n"
                  sep := sep
                  rows := exportRowsSingle fullRange start end_ info })

/-! ## The fit-parameter dialog (`ParamSelectDialog`) -/

/-- The members of `FitParameter` (declared in `fittingparameterchart.h`) that the dialog reads
or writes. -/
structure FitParameter (α : Type) where
  name : String
  displayName : String
  value : α
  isVisible : Bool
  isFit : Bool
  min : α
  max : α

/-- The editable widgets of one table row: the "visible" check box (checked, enabled), the
"fit" check box, and the three spin boxes. -/
structure ParamRow (α : Type) where
  chkVisChecked : Bool
  chkVisEnabled : Bool
  chkFitChecked : Bool
  spinVal : α
  spinMin : α
  spinMax : α

/-- The state of a `ParamSelectDialog`: the copy `m_params` and the rows of the table widget. -/
structure ParamSelectDialog (α : Type) where
  m_params : List (FitParameter α)
  rows : List (ParamRow α)

/-- Lines 51-123 of `initTable` for one parameter: both boxes are set from the parameter
before the signal is connected, then a fit parameter forces the "visible" box checked and
disabled (lines 107-110).  The rounding of the spin boxes is not modelled. -/
def initRow (p : FitParameter α) : ParamRow α :=
  { chkVisChecked := if p.isFit = true then true else p.isVisible
    chkVisEnabled := if p.isFit = true then false else true
    chkFitChecked := p.isFit
    spinVal := p.value
    spinMin := p.min
    spinMax := p.max }

/-- The constructor of `ParamSelectDialog` with `initTable` (lines 18-36, 43-127). -/
def ParamSelectDialog.init (params : List (FitParameter α)) : ParamSelectDialog α :=
  { m_params := params, rows := params.map initRow }

/-- What the user can do to a row of the open dialog. -/
inductive DialogAction (α : Type) where
  /-- Click the "fit" check box of row `i`. -/
  | clickFit (i : Nat)
  /-- Click the "visible" check box of row `i`. -/
  | clickVis (i : Nat)
  /-- Edit the value, lower-bound or upper-bound spin box of row `i`. -/
  | editValue (i : Nat) (v : α)
  | editMin (i : Nat) (v : α)
  | editMax (i : Nat) (v : α)

/-- Apply `f` to row `i` of the table (no row: nothing happens). -/
def updateRow (f : ParamRow α → ParamRow α) : Nat → List (ParamRow α) → List (ParamRow α)
  | _, [] => []
  | 0, r :: rs => f r :: rs
  | i + 1, r :: rs => r :: updateRow f i rs

/-- A click on the "fit" box toggles it and runs the slot of lines 97-104 with the new state:
checked forces the "visible" box checked and disabled, unchecked enables it again. -/
def clickFitRow (r : ParamRow α) : ParamRow α :=
  if r.chkFitChecked = false then
    { r with chkFitChecked := true, chkVisChecked := true, chkVisEnabled := false }
  else
    { r with chkFitChecked := false, chkVisEnabled := true }

/-- A click on the "visible" box toggles it, unless the box is disabled. -/
def clickVisRow (r : ParamRow α) : ParamRow α :=
  if r.chkVisEnabled = true then { r with chkVisChecked := !r.chkVisChecked } else r

/-- One user action on the dialog. -/
def ParamSelectDialog.step (d : ParamSelectDialog α) : DialogAction α → ParamSelectDialog α
  | DialogAction.clickFit i => { d with rows := updateRow clickFitRow i d.rows }
  | DialogAction.clickVis i => { d with rows := updateRow clickVisRow i d.rows }
  | DialogAction.editValue i v => { d with rows := updateRow (fun r => { r with spinVal := v }) i d.rows }
  | DialogAction.editMin i v => { d with rows := updateRow (fun r => { r with spinMin := v }) i d.rows }
  | DialogAction.editMax i v => { d with rows := updateRow (fun r => { r with spinMax := v }) i d.rows }

/-- The loop of `collectData` (lines 131-150): row `i` is copied into `m_params[i]` while both
exist. -/
def collectLoop : List (FitParameter α) → List (ParamRow α) → List (FitParameter α)
  | [], _ => []
  | ps, [] => ps
  | p :: ps, r :: rs =>
    { p with isVisible := r.chkVisChecked, value := r.spinVal, isFit := r.chkFitChecked
             min := r.spinMin, max := r.spinMax } :: collectLoop ps rs

/-- The method `ParamSelectDialog::collectData` (lines 129-151). -/
def ParamSelectDialog.collectData (d : ParamSelectDialog α) : ParamSelectDialog α :=
  { d with m_params := collectLoop d.m_params d.rows }

/-- The slot `ParamSelectDialog::onConfirm` (lines 159-163); `accept()` closes the dialog. -/
def ParamSelectDialog.onConfirm (d : ParamSelectDialog α) : ParamSelectDialog α :=
  d.collectData

/-- The method `ParamSelectDialog::getUpdatedParams` (lines 153-156). -/
def ParamSelectDialog.getUpdatedParams (d : ParamSelectDialog α) : List (FitParameter α) :=
  d.m_params

/-! ## Plot items and mouse interaction (`ChartWidget`) -/

/-- A `QCPItemText`: the plot coordinates of its position and its text. -/
structure QCPItemText (α : Type) where
  position : α × α
  text : String

/-- The dynamic type of a plot item as `qobject_cast` sees it.  A line item carries whether
its property `isCharacteristic` is valid (set by `addCharacteristicLine` only). -/
inductive ItemKind (α : Type) where
  | text (t : QCPItemText α)
  | line (l : QCPItemLine α) (isCharacteristic : Bool)
  | other

/-- An item of the plot; `id` stands for its address and `selected` for `selected()`. -/
structure PlotItem (α : Type) where
  id : Nat
  selected : Bool
  kind : ItemKind α

/-- The struct `ChartAnnotation` (`chartwidget.h`, lines 24-27); `none` is `nullptr`. -/
structure ChartAnnotation where
  textItem : Option Nat
  arrowItem : Option Nat
deriving DecidableEq, Repr

/-- The enumeration `ChartWidget::InteractionMode` (`chartwidget.h`, lines 102-110). -/
inductive InteractionMode where
  | Mode_None
  | Mode_Dragging_Line
  | Mode_Dragging_Start
  | Mode_Dragging_End
  | Mode_Dragging_Text
  | Mode_Dragging_ArrowStart
  | Mode_Dragging_ArrowEnd
deriving DecidableEq, Repr

/-- The interaction state of a `ChartWidget`: the items of `m_plot` in item order, the
interaction flags of `m_plot` (0 is `QCP::Interaction(0)`), the annotation map in key order,
and the members `m_interMode`, `m_activeLine`, `m_activeText`, `m_activeArrow`,
`m_lastMousePos`. -/
structure ChartWidget (α : Type) where
  items : List (PlotItem α)
  interactions : Nat
  m_annotations : List (Nat × ChartAnnotation)
  m_interMode : InteractionMode
  m_activeLine : Option Nat
  m_activeText : Option Nat
  m_activeArrow : Option Nat
  m_lastMousePos : α × α

/-- The flags `QCP::iRangeDrag | QCP::iRangeZoom | QCP::iSelectItems` (0x01, 0x02, 0x40). -/
def defaultInteractions : Nat := 67

/-- What the handlers take from QCustomPlot and the C library: `std::sqrt`, the
coordinate-to-pixel maps of `m_plot->xAxis` and `m_plot->yAxis`, and
`QCPItemText::selectTest(pos, false)`. -/
structure PlotEnv (α : Type) where
  sqrt : α → α
  coordToPixelX : α → α
  coordToPixelY : α → α
  selectTest : QCPItemText α → α × α → α

/-- The buttons of a mouse event. -/
inductive MouseButton where
  | LeftButton
  | RightButton
  | MiddleButton
deriving DecidableEq, Repr

/-- A `QMouseEvent`: `button()` and `pos()`. -/
structure QMouseEvent (α : Type) where
  button : MouseButton
  pos : α × α

/-- The method `QCustomPlot::deselectAll` on the items. -/
def deselectAll (items : List (PlotItem α)) : List (PlotItem α) :=
  items.map (fun it => { it with selected := false })

/-- The call `item->setSelected(true)` for the item of address `id`. -/
def setSelected (id : Nat) (items : List (PlotItem α)) : List (PlotItem α) :=
  items.map (fun it => if it.id = id then { it with selected := true } else it)

/-- The pixel distance of lines 274, 280, 303 and 306 between the cursor and the position
with plot coordinates `c`. -/
def pixelDist (env : PlotEnv α) (pos c : α × α) : α :=
  env.sqrt ((pos.1 - env.coordToPixelX c.1) ^ 2 + (pos.2 - env.coordToPixelY c.2) ^ 2)

/-- The pixel position of plot coordinates `c` (lines 265-272, 294-301). -/
def toPixel (env : PlotEnv α) (c : α × α) : α × α :=
  (env.coordToPixelX c.1, env.coordToPixelY c.2)

/-- Lines 247-259: the loop over the text items; the address of the first one hit. -/
def findTextHit (env : PlotEnv α) (pos : α × α) : List (PlotItem α) → Option Nat
  | [] => none
  | it :: rest =>
    match it.kind with
    | ItemKind.text t =>
      if env.selectTest t pos < 8 then some it.id else findTextHit env pos rest
    | _ => findTextHit env pos rest

/-- Lines 262-287: the loop over the lines without the `isCharacteristic` property; the mode
and the address of the first one with an endpoint hit. -/
def findArrowHit (env : PlotEnv α) (pos : α × α) :
    List (PlotItem α) → Option (InteractionMode × Nat)
  | [] => none
  | it :: rest =>
    match it.kind with
    | ItemKind.line l false =>
      if pixelDist env pos l.start < 8 then
        some (InteractionMode.Mode_Dragging_ArrowStart, it.id)
      else if pixelDist env pos l.end_ < 8 then
        some (InteractionMode.Mode_Dragging_ArrowEnd, it.id)
      else findArrowHit env pos rest
    | _ => findArrowHit env pos rest

/-- Lines 290-321: the loop over the characteristic lines; start, end and body of a line are
tested before the next line is looked at. -/
def findLineHit (env : PlotEnv α) (pos : α × α) :
    List (PlotItem α) → Option (InteractionMode × Nat)
  | [] => none
  | it :: rest =>
    match it.kind with
    | ItemKind.line l true =>
      if pixelDist env pos l.start < 8 then
        some (InteractionMode.Mode_Dragging_Start, it.id)
      else if pixelDist env pos l.end_ < 8 then
        some (InteractionMode.Mode_Dragging_End, it.id)
      else if distToSegment env.sqrt pos (toPixel env l.start) (toPixel env l.end_) < 8 then
        some (InteractionMode.Mode_Dragging_Line, it.id)
      else findLineHit env pos rest
    | _ => findLineHit env pos rest

/-- The slot `ChartWidget::onPlotMousePress` (lines 234-326). -/
def onPlotMousePress (env : PlotEnv α) (w : ChartWidget α) (event : QMouseEvent α) :
    ChartWidget α :=
  if event.button ≠ MouseButton.LeftButton then w
  else
    let w0 : ChartWidget α :=
      { w with m_interMode := InteractionMode.Mode_None, m_activeLine := none
               m_activeText := none, m_activeArrow := none, m_lastMousePos := event.pos }
    match findTextHit env event.pos w0.items with
    | some id =>
      { w0 with m_interMode := InteractionMode.Mode_Dragging_Text, m_activeText := some id
                items := setSelected id (deselectAll w0.items), interactions := 0 }
    | none =>
      match findArrowHit env event.pos w0.items with
      | some (mode, id) =>
        { w0 with m_interMode := mode, m_activeArrow := some id, interactions := 0 }
      | none =>
        match findLineHit env event.pos w0.items with
        | some (mode, id) =>
          { w0 with m_interMode := mode, m_activeLine := some id
                    items := setSelected id (deselectAll w0.items), interactions := 0 }
        | none =>
          { w0 with interactions := defaultInteractions, items := deselectAll w0.items }

/-- The hit test of stage 1 on one item: a text within the tolerance of 8 pixels. -/
def isTextHit (env : PlotEnv α) (pos : α × α) (it : PlotItem α) : Bool :=
  match it.kind with
  | ItemKind.text t => decide (env.selectTest t pos < 8)
  | _ => false

/-- An endpoint of a line item within the tolerance; `characteristic` selects the
characteristic lines or the free-standing arrows. -/
def isEndpointHit (env : PlotEnv α) (pos : α × α) (characteristic : Bool) (it : PlotItem α) :
    Bool :=
  match it.kind with
  | ItemKind.line l c =>
    decide (c = characteristic ∧ (pixelDist env pos l.start < 8 ∨ pixelDist env pos l.end_ < 8))
  | _ => false

/-- The body of a characteristic line within the tolerance. -/
def isBodyHit (env : PlotEnv α) (pos : α × α) (it : PlotItem α) : Bool :=
  match it.kind with
  | ItemKind.line l true =>
    decide (distToSegment env.sqrt pos (toPixel env l.start) (toPixel env l.end_) < 8)
  | _ => false

/-- The mode that stage 3 of the press handler gives for a characteristic line that is hit:
its start before its end before its body. -/
def lineMode (env : PlotEnv α) (pos : α × α) (it : PlotItem α) : InteractionMode :=
  match it.kind with
  | ItemKind.line l _ =>
    if pixelDist env pos l.start < 8 then InteractionMode.Mode_Dragging_Start
    else if pixelDist env pos l.end_ < 8 then InteractionMode.Mode_Dragging_End
    else InteractionMode.Mode_Dragging_Line
  | _ => InteractionMode.Mode_None

/-- The call `m_plot->removeItem(item)` for the item of address `id` (nothing happens when the
plot has no such item). -/
def removeItem (id : Nat) (items : List (PlotItem α)) : List (PlotItem α) :=
  items.filter (fun it => it.id != id)

/-- The guarded call `if (ptr) m_plot->removeItem(ptr)`. -/
def removeItemOpt (ptr : Option Nat) (items : List (PlotItem α)) : List (PlotItem α) :=
  match ptr with
  | none => items
  | some id => removeItem id items

/-- The lookup `m_annotations.value(line)`; `none` when `contains(line)` is false. -/
def annFind (m : List (Nat × ChartAnnotation)) (line : Nat) : Option ChartAnnotation :=
  (m.find? (fun e => e.1 == line)).map Prod.snd

/-- The map without the entry of key `line` (`take(line)`, and `i.remove()` at the entry of
that key). -/
def annErase (m : List (Nat × ChartAnnotation)) (line : Nat) : List (Nat × ChartAnnotation) :=
  m.filter (fun e => e.1 != line)

/-- Lines 533-551: the body of the loop of `deleteSelectedItems` for one pointer `item` of the
list captured at entry, on the pair (items of the plot, `m_annotations`).  The casts of lines
533 and 540 read the object behind the pointer, so the body has no defined result (`none`)
when an earlier iteration has already removed, and with it deleted, that item.  The calls
`removeItem` and the comparison of line 544 only compare addresses. -/
def deleteStep (st : List (PlotItem α) × List (Nat × ChartAnnotation)) (item : PlotItem α) :
    Option (List (PlotItem α) × List (Nat × ChartAnnotation)) :=
  if st.1.any (fun it => it.id == item.id) = true then
    let st1 : List (PlotItem α) × List (Nat × ChartAnnotation) :=
      match item.kind with
      | ItemKind.line _ _ =>
        match annFind st.2 item.id with
        | some note =>
          (removeItemOpt note.arrowItem (removeItemOpt note.textItem st.1), annErase st.2 item.id)
        | none => st
      | _ => st
    let st2 : List (PlotItem α) × List (Nat × ChartAnnotation) :=
      match item.kind with
      | ItemKind.text _ =>
        match st1.2.find? (fun e => e.2.textItem == some item.id) with
        | some e => (removeItemOpt e.2.arrowItem st1.1, annErase st1.2 e.1)
        | none => st1
      | _ => st1
    some (removeItem item.id st2.1, st2.2)
  else none

/-- Line 532: the loop over the captured list; it has a result when every iteration has. -/
def deleteLoop :
    List (PlotItem α) → List (PlotItem α) × List (Nat × ChartAnnotation) →
      Option (List (PlotItem α) × List (Nat × ChartAnnotation))
  | [], st => some st
  | item :: rest, st =>
    match deleteStep st item with
    | some st1 => deleteLoop rest st1
    | none => none

/-- The method `ChartWidget::deleteSelectedItems` (lines 529-554): the loop runs over the
list returned by `m_plot->selectedItems()` at entry.  The result is `none` when the loop
reaches an item that it has itself deleted before.  The plot never has the interaction
`iMultiSelect` and the press handler selects an item only after `deselectAll` (lines 252-253,
315-316), so the states the widget reaches have at most one selected item. -/
def deleteSelectedItems (w : ChartWidget α) : Option (ChartWidget α) :=
  let items := w.items.filter (fun it => it.selected)
  match deleteLoop items (w.items, w.m_annotations) with
  | some st => some { w with items := st.1, m_annotations := st.2 }
  | none => none

/-! ## Persistence (`CurveInfo::toJson`, `CurveInfo::fromJson`) -/

/-- A `QJsonValue` that is not a container: undefined (a missing key) or null, a Boolean, a
number (kept as the integer or the double it was built from), or a string. -/
inductive QJsonScalar (α : Type) where
  | undefined
  | null
  | bool (b : Bool)
  | int (n : Int)
  | double (d : α)
  | string (s : String)

/-- A `QJsonValue`: a scalar or a `QJsonArray` of scalars (nested containers do not occur in
the curve records). -/
inductive QJsonValue (α : Type) where
  | scalar (v : QJsonScalar α)
  | array (a : List (QJsonScalar α))

/-- A `QJsonObject` as the list of its members; `obj[key]` is `mapFind`, a missing key reads
as undefined. -/
def jsonAt (obj : List (String × QJsonValue α)) (key : String) : QJsonValue α :=
  (mapFind obj key).getD (QJsonValue.scalar QJsonScalar.undefined)

/-- The method `QJsonValue::toString`: the string, or the null string for any other type. -/
def QJsonValue.toString : QJsonValue α → String
  | QJsonValue.scalar (QJsonScalar.string s) => s
  | _ => ""

/-- The method `QJsonValue::toBool`. -/
def QJsonValue.toBool : QJsonValue α → Bool
  | QJsonValue.scalar (QJsonScalar.bool b) => b
  | _ => false

/-- The method `QJsonValue::toDouble(defaultValue)` on a scalar. -/
def QJsonScalar.toDouble (defaultValue : α) : QJsonScalar α → α
  | QJsonScalar.double d => d
  | QJsonScalar.int n => (n : α)
  | _ => defaultValue

/-- The method `QJsonValue::toDouble(defaultValue)`. -/
def QJsonValue.toDouble (defaultValue : α) : QJsonValue α → α
  | QJsonValue.scalar v => v.toDouble defaultValue
  | _ => defaultValue

/-- The method `QJsonValue::toInt(defaultValue)`: the number when it is whole, otherwise the
default (the 32-bit range check is not modelled). -/
def QJsonValue.toInt [FloorRing α] (defaultValue : Int) : QJsonValue α → Int
  | QJsonValue.scalar (QJsonScalar.int n) => n
  | QJsonValue.scalar (QJsonScalar.double d) =>
    if ((Int.floor d : Int) : α) = d then Int.floor d else defaultValue
  | _ => defaultValue

/-- The method `QJsonValue::toArray`. -/
def QJsonValue.toArray : QJsonValue α → List (QJsonScalar α)
  | QJsonValue.array a => a
  | _ => []

/-- The helper `vectorToJson` (lines 39-43). -/
def vectorToJson (vec : List α) : QJsonValue α :=
  QJsonValue.array (vec.foldl (fun (arr : List (QJsonScalar α)) (v : α) =>
    arr ++ [QJsonScalar.double v]) [])

/-- The helper `jsonToVector` (lines 45-49). -/
def jsonToVector (arr : List (QJsonScalar α)) : List α :=
  arr.foldl (fun (vec : List α) (val : QJsonScalar α) => vec ++ [val.toDouble 0]) []

/-- The value of a hexadecimal digit, in either case. -/
def hexVal (ch : Char) : Option Nat :=
  if '0' ≤ ch ∧ ch ≤ '9' then some (ch.toNat - '0'.toNat)
  else if 'a' ≤ ch ∧ ch ≤ 'f' then some (ch.toNat - 'a'.toNat + 10)
  else if 'A' ≤ ch ∧ ch ≤ 'F' then some (ch.toNat - 'A'.toNat + 10)
  else none

/-- The method `QColor::name()` (format `HexRgb`): `#rrggbb` from the 8-bit channels; the
alpha channel and the validity flag are not part of the name. -/
def QColor.name (c : QColor) : String :=
  String.mk ['#', Nat.digitChar (c.red / 16), Nat.digitChar (c.red % 16),
    Nat.digitChar (c.green / 16), Nat.digitChar (c.green % 16),
    Nat.digitChar (c.blue / 16), Nat.digitChar (c.blue % 16)]

/-- The constructor `QColor(const QString&)` on the `#RRGGBB` form, which gives a valid opaque
colour; every other string is mapped to the invalid colour (Qt also reads other hex widths
and SVG colour names, which `name()` never produces). -/
def QColor.fromString (s : String) : QColor :=
  match s.data with
  | ['#', r1, r0, g1, g0, b1, b0] =>
    match hexVal r1, hexVal r0, hexVal g1, hexVal g0, hexVal b1, hexVal b0 with
    | some r1, some r0, some g1, some g0, some b1, some b0 =>
      ⟨true, 16 * r1 + r0, 16 * g1 + g0, 16 * b1 + b0, 255⟩
    | _, _, _, _, _, _ => QColor.invalid
  | _ => QColor.invalid

/-- The method `CurveInfo::toJson` (lines 51-88). -/
def CurveInfo.toJson (info : CurveInfo α) : List (String × QJsonValue α) :=
  [("name", QJsonValue.scalar (QJsonScalar.string info.name)),
   ("legendName", QJsonValue.scalar (QJsonScalar.string info.legendName)),
   ("type", QJsonValue.scalar (QJsonScalar.int info.type)),
   ("xCol", QJsonValue.scalar (QJsonScalar.int info.xCol)),
   ("yCol", QJsonValue.scalar (QJsonScalar.int info.yCol)),
   ("xData", vectorToJson info.xData),
   ("yData", vectorToJson info.yData),
   ("pointShape", QJsonValue.scalar (QJsonScalar.int info.pointShape)),
   ("pointColor", QJsonValue.scalar (QJsonScalar.string info.pointColor.name)),
   ("lineStyle", QJsonValue.scalar (QJsonScalar.int info.lineStyle)),
   ("lineColor", QJsonValue.scalar (QJsonScalar.string info.lineColor.name))] ++
  (if info.type = 1 then
    [("x2Col", QJsonValue.scalar (QJsonScalar.int info.x2Col)),
     ("y2Col", QJsonValue.scalar (QJsonScalar.int info.y2Col)),
     ("x2Data", vectorToJson info.x2Data),
     ("y2Data", vectorToJson info.y2Data),
     ("prodLegendName", QJsonValue.scalar (QJsonScalar.string info.prodLegendName)),
     ("prodGraphType", QJsonValue.scalar (QJsonScalar.int info.prodGraphType)),
     ("prodColor", QJsonValue.scalar (QJsonScalar.string info.prodColor.name))]
  else if info.type = 2 then
    [("testType", QJsonValue.scalar (QJsonScalar.int info.testType)),
     ("initialPressure", QJsonValue.scalar (QJsonScalar.double info.initialPressure)),
     ("LSpacing", QJsonValue.scalar (QJsonScalar.double info.LSpacing)),
     ("isSmooth", QJsonValue.scalar (QJsonScalar.bool info.isSmooth)),
     ("smoothFactor", QJsonValue.scalar (QJsonScalar.int info.smoothFactor)),
     ("derivData", vectorToJson info.derivData),
     ("derivShape", QJsonValue.scalar (QJsonScalar.int info.derivShape)),
     ("derivPointColor", QJsonValue.scalar (QJsonScalar.string info.derivPointColor.name)),
     ("derivLineStyle", QJsonValue.scalar (QJsonScalar.int info.derivLineStyle)),
     ("derivLineColor", QJsonValue.scalar (QJsonScalar.string info.derivLineColor.name)),
     ("prodLegendName", QJsonValue.scalar (QJsonScalar.string info.prodLegendName))]
  else [])

/-- The method `CurveInfo::fromJson` (lines 90-128); the members it does not assign keep the
value of a default-constructed record. -/
def CurveInfo.fromJson [FloorRing α] (json : List (String × QJsonValue α)) : CurveInfo α :=
  let info : CurveInfo α :=
    { (CurveInfo.fresh : CurveInfo α) with
      name := (jsonAt json "name").toString
      legendName := (jsonAt json "legendName").toString
      type := (jsonAt json "type").toInt 0
      xCol := (jsonAt json "xCol").toInt (-1)
      yCol := (jsonAt json "yCol").toInt (-1)
      xData := jsonToVector (jsonAt json "xData").toArray
      yData := jsonToVector (jsonAt json "yData").toArray
      pointShape := (jsonAt json "pointShape").toInt 0
      pointColor := QColor.fromString (jsonAt json "pointColor").toString
      lineStyle := (jsonAt json "lineStyle").toInt 0
      lineColor := QColor.fromString (jsonAt json "lineColor").toString }
  if info.type = 1 then
    { info with
      x2Col := (jsonAt json "x2Col").toInt (-1)
      y2Col := (jsonAt json "y2Col").toInt (-1)
      x2Data := jsonToVector (jsonAt json "x2Data").toArray
      y2Data := jsonToVector (jsonAt json "y2Data").toArray
      prodLegendName := (jsonAt json "prodLegendName").toString
      prodGraphType := (jsonAt json "prodGraphType").toInt 0
      prodColor := QColor.fromString (jsonAt json "prodColor").toString }
  else if info.type = 2 then
    { info with
      testType := (jsonAt json "testType").toInt 0
      initialPressure := (jsonAt json "initialPressure").toDouble 0
      LSpacing := (jsonAt json "LSpacing").toDouble 0
      isSmooth := (jsonAt json "isSmooth").toBool
      smoothFactor := (jsonAt json "smoothFactor").toInt 0
      derivData := jsonToVector (jsonAt json "derivData").toArray
      derivShape := (jsonAt json "derivShape").toInt 0
      derivPointColor := QColor.fromString (jsonAt json "derivPointColor").toString
      derivLineStyle := (jsonAt json "derivLineStyle").toInt 0
      derivLineColor := QColor.fromString (jsonAt json "derivLineColor").toString
      prodLegendName := (jsonAt json "prodLegendName").toString }
  else info

/-- The colour that comes back from its name: valid and opaque, with the same RGB channels. -/
def QColor.solid (c : QColor) : QColor := ⟨true, c.red, c.green, c.blue, 255⟩

/-- The channels of the colour are 8-bit values. -/
def QColor.IsRgb (c : QColor) : Prop := c.red < 256 ∧ c.green < 256 ∧ c.blue < 256

/-! ## Hypotheses on the time series -/

/-- The times of the series are strictly increasing. -/
def StrictlyIncreasing (t : List α) : Prop :=
  ∀ j, j + 1 < t.length → t.getD j 0 < t.getD (j + 1) 0

/-- The times of the series are positive. -/
def AllPositive (t : List α) : Prop :=
  ∀ j, j < t.length → 0 < t.getD j 0

/-- The function `ln` is strictly increasing on the positive numbers, as the logarithm is. -/
def LogMonotone (ln : α → α) : Prop :=
  ∀ a b, 0 < a → a < b → ln a < ln b

/-- The method `ChartWidget::onPlotMouseRelease` (lines 395-401): the event is unused, the mode
returns to `Mode_None`, and the interactions of `m_plot` are set to the default flags when none
of `m_activeLine`, `m_activeText`, `m_activeArrow` is set. -/
def onPlotMouseRelease (w : ChartWidget α) (_event : QMouseEvent α) : ChartWidget α :=
  let w1 := { w with m_interMode := InteractionMode.Mode_None }
  if w1.m_activeLine = none ∧ w1.m_activeText = none ∧ w1.m_activeArrow = none then
    { w1 with interactions := defaultInteractions }
  else w1

end Engine

/-! ## Sample inputs over `ℚ` -/

/-- A table of `ln` at the sample times 2, 4, 8, 16, rounded to one decimal (0 elsewhere). -/
def sampleLn (t : ℚ) : ℚ :=
  if t = 2 then 7 / 10 else if t = 4 then 14 / 10 else if t = 8 then 21 / 10
  else if t = 16 then 28 / 10 else 0

/-- An accepted derivative dialog: drawdown, reference pressure 100, half-width 0.7,
smoothing width 3, columns 0 (time) and 1 (pressure), drawn in the embedded chart. -/
def sampleDialog : PlottingDialog3 ℚ :=
  { accepted := true
    getCurveName := "derivative"
    getPressLegend := "dp"
    getDerivLegend := "dp'"
    getTimeColumn := 0
    getPressureColumn := 1
    getTestType := 0
    getInitialPressure := 100
    getLSpacing := 7 / 10
    isSmoothEnabled := true
    getSmoothFactor := 3
    getPressShape := 4
    getPressPointColor := ⟨true, 255, 0, 0, 255⟩
    getPressLineStyle := 0
    getPressLineColor := ⟨true, 255, 0, 0, 255⟩
    getDerivShape := 6
    getDerivPointColor := ⟨true, 0, 0, 255, 255⟩
    getDerivLineStyle := 0
    getDerivLineColor := ⟨true, 0, 0, 255, 255⟩
    isNewWindow := false }

/-- A widget with the data table `tbl` and no curves. -/
def sampleWidget (tbl : List (List ℚ)) : Widget ℚ :=
  { m_dataModel := some tbl
    m_curves := []
    m_currentDisplayedCurve := ""
    listWidget_Curves := []
    customPlot := []
    m_openedWindows := [] }

/-- Five samples, four of which pass the filter under `sampleDialog`. -/
def longTable : List (List ℚ) := [[1, 100], [2, 98], [4, 95], [8, 90], [16, 82]]

/-- Three samples, one of which passes the filter under `sampleDialog`. -/
def shortTable : List (List ℚ) := [[1, 100], [2, 98], [0, 95]]

/-- A stand-in for `pow` over `ℚ`: exact at exponent 2 (`b * b`), the base itself otherwise. -/
def samplePow (b k : ℚ) : ℚ := if k = 2 then b * b else b

/-- A log-log characteristic line of slope 2 from `(1, 2)` to `(2, 8)`. -/
def sampleLine : QCPItemLine ℚ :=
  { start := (1, 2), end_ := (2, 8), fixedSlope := 2, isLogLog := true }

/-- A stored single-series curve with five samples. -/
def sampleCurve : CurveInfo ℚ :=
  { (CurveInfo.fresh : CurveInfo ℚ) with
    name := "curve", xData := [1, 2, 4, 8, 16], yData := [100, 98, 95, 90, 82] }

/-- A widget displaying `sampleCurve`. -/
def exportWidget : Widget ℚ :=
  { m_dataModel := none
    m_curves := [("curve", sampleCurve)]
    m_currentDisplayedCurve := "curve"
    listWidget_Curves := ["curve"]
    customPlot := []
    m_openedWindows := [] }

/-- A stand-in for `std::sqrt` over `ℚ`, exact at the squares 0, 9, 2500 and 10000 (the
argument itself elsewhere). -/
def sampleSqrt (x : ℚ) : ℚ :=
  if x = 0 then 0 else if x = 9 then 3 else if x = 2500 then 50 else if x = 10000 then 100 else x

/-- An environment over `ℚ` whose axes map plot coordinates to pixels one to one. -/
def sampleEnv : PlotEnv ℚ :=
  { sqrt := sampleSqrt, coordToPixelX := id, coordToPixelY := id
    selectTest := fun t pos => |pos.1 - t.position.1| + |pos.2 - t.position.2| }

/-- Two characteristic lines: the first from `(0, 0)` to `(100, 0)`, the second from `(50, 3)`
to `(50, 100)`. -/
def crossingLines (α : Type) [LinearOrderedField α] : List (PlotItem α) :=
  [⟨1, false, ItemKind.line ⟨(0, 0), (100, 0), 1, true⟩ true⟩,
   ⟨2, false, ItemKind.line ⟨(50, 3), (50, 100), 1, true⟩ true⟩]

/-- An idle chart widget holding `items`. -/
def idleChart {α : Type} [LinearOrderedField α] (items : List (PlotItem α)) : ChartWidget α :=
  { items := items, interactions := defaultInteractions, m_annotations := []
    m_interMode := InteractionMode.Mode_None, m_activeLine := none, m_activeText := none
    m_activeArrow := none, m_lastMousePos := (0, 0) }

/-- A plot with two characteristic lines (items 1 and 2), each annotated by a text (items 11
and 21) and an arrow (items 12 and 22); line 1 is the selected item. -/
def annotatedChart : ChartWidget ℚ :=
  { items :=
      [⟨1, true, ItemKind.line ⟨(0, 0), (100, 0), 1, true⟩ true⟩,
       ⟨2, false, ItemKind.line ⟨(50, 3), (50, 100), 1, true⟩ true⟩,
       ⟨11, false, ItemKind.text ⟨(50, 5), "k=1"⟩⟩,
       ⟨12, false, ItemKind.line ⟨(50, 5), (50, 0), 0, false⟩ false⟩,
       ⟨21, false, ItemKind.text ⟨(60, 50), "k=1"⟩⟩,
       ⟨22, false, ItemKind.line ⟨(60, 50), (50, 50), 0, false⟩ false⟩]
    interactions := defaultInteractions
    m_annotations := [(1, ⟨some 11, some 12⟩), (2, ⟨some 21, some 22⟩)]
    m_interMode := InteractionMode.Mode_None
    m_activeLine := none, m_activeText := none, m_activeArrow := none
    m_lastMousePos := (0, 0) }

/-- A simple curve (type 0) whose point colour is a half-transparent red. -/
def translucentCurve : CurveInfo ℚ :=
  { (CurveInfo.fresh : CurveInfo ℚ) with
    name := "curve", legendName := "p", xData := [1, 2], yData := [100, 98]
    pointColor := ⟨true, 255, 0, 0, 128⟩, lineColor := ⟨true, 0, 0, 255, 255⟩ }

section EngineTheorems
variable {α : Type} [LinearOrderedField α]

/-- A loop that appends one value per element builds the mapped list. -/
theorem foldl_append_singleton {β γ : Type} (f : β → γ) (l : List β) (init : List γ) :
    l.foldl (fun acc x => acc ++ [f x]) init = init ++ l.map f := by
  induction l generalizing init with
  | nil => simp
  | cons x xs ih => simp [ih]

theorem foldl_collectRow (testType : Int) (initialPressure p_shutin : α) (xCol yCol : Nat)
    (tbl : List (List α)) (acc : List α × List α) :
    tbl.foldl (collectRow testType initialPressure p_shutin xCol yCol) acc =
      (acc.1 ++ (tbl.filter (keepRow testType initialPressure p_shutin xCol yCol)).map
          (fun row => cell row xCol),
       acc.2 ++ (tbl.filter (keepRow testType initialPressure p_shutin xCol yCol)).map
          (fun row => pressureDrop testType initialPressure p_shutin (cell row yCol))) := by
  induction tbl generalizing acc with
  | nil => simp
  | cons row rest ih =>
    rw [List.foldl_cons, ih]
    by_cases h : 0 < cell row xCol ∧
        0 < pressureDrop testType initialPressure p_shutin (cell row yCol)
    · simp [collectRow, keepRow, h, List.filter_cons]
    · simp [collectRow, keepRow, h, List.filter_cons]

theorem computePressureDrop_eq (testType : Int) (initialPressure : α) (xCol yCol : Nat)
    (tbl : List (List α)) :
    computePressureDrop testType initialPressure xCol yCol tbl =
      ((tbl.filter (keepRow testType initialPressure (shutIn tbl yCol) xCol yCol)).map
          (fun row => cell row xCol),
       (tbl.filter (keepRow testType initialPressure (shutIn tbl yCol) xCol yCol)).map
          (fun row => pressureDrop testType initialPressure (shutIn tbl yCol) (cell row yCol))) := by
  simp [computePressureDrop, foldl_collectRow]

/-- C1: the filtering loop keeps exactly the rows with `t > 0` and `Δp > 0`, in input order:
`xData` and `yData` are the times and pressure drops of the sub-list of rows passing both
tests, so they have the same length, at most the number of input rows, and every retained
time and pressure drop is positive. -/
theorem computePressureDrop_keeps_positive (testType : Int) (initialPressure : α)
    (xCol yCol : Nat) (tbl : List (List α)) :
    (let out := computePressureDrop testType initialPressure xCol yCol tbl
    let dp := fun row : List α =>
      pressureDrop testType initialPressure (shutIn tbl yCol) (cell row yCol)
    let kept := tbl.filter (fun row => decide (0 < cell row xCol ∧ 0 < dp row))
    kept.Sublist tbl ∧
    out.1 = kept.map (fun row => cell row xCol) ∧
    out.2 = kept.map dp ∧
    out.1.length = out.2.length ∧
    out.1.length ≤ tbl.length ∧
    (∀ row ∈ tbl, (row ∈ kept ↔ 0 < cell row xCol ∧ 0 < dp row)) ∧
    (∀ t ∈ out.1, 0 < t) ∧ (∀ d ∈ out.2, 0 < d)) := by
  intro out dp kept
  have hout : out = (kept.map (fun row => cell row xCol), kept.map dp) :=
    computePressureDrop_eq testType initialPressure xCol yCol tbl
  have hk : ∀ row ∈ kept, 0 < cell row xCol ∧ 0 < dp row := by
    intro row hrow
    simpa using (List.mem_filter.mp hrow).2
  refine ⟨List.filter_sublist tbl, by rw [hout], by rw [hout], by simp [hout], ?_, ?_, ?_, ?_⟩
  · rw [hout]
    simpa using List.length_filter_le _ tbl
  · intro row hrow
    constructor
    · exact hk row
    · intro h
      exact List.mem_filter.mpr ⟨hrow, by simpa using h⟩
  · rw [hout]
    intro t ht
    obtain ⟨row, hrow, rfl⟩ := List.mem_map.mp ht
    exact (hk row hrow).1
  · rw [hout]
    intro d hd
    obtain ⟨row, hrow, rfl⟩ := List.mem_map.mp hd
    exact (hk row hrow).2

/-- After `QMap::insert` the key maps to the inserted value. -/
theorem mapFind_mapInsert {β : Type} (m : List (String × β)) (key : String) (v : β) :
    mapFind (mapInsert m key v) key = some v := by
  unfold mapInsert mapFind
  split
  · rename_i h
    induction m with
    | nil => simp at h
    | cons e rest ih =>
      by_cases he : e.1 = key
      · simp [List.find?_cons, he]
      · have hr : (rest.any fun e => e.1 == key) = true := by
          simpa [List.any_cons, he] using h
        simpa [List.find?_cons, he] using ih hr
  · rename_i h
    have hno : ∀ e ∈ m, ¬ (e.1 == key) = true := by
      intro e he hk
      exact h (List.any_eq_true.mpr ⟨e, he, hk⟩)
    rw [List.find?_append, List.find?_eq_none.mpr hno]
    simp

/-- C2: for a non-empty table the retained samples carry the pressure drop
`|referencePressure - p|` for a drawdown (`testType = 0`) and `|p - p₀|` otherwise, where `p₀` is
the pressure cell of the first row of the unfiltered table; in the second case the output does
not depend on the reference pressure. -/
theorem computePressureDrop_formula (testType : Int) (initialPressure : α) (xCol yCol : Nat)
    (row0 : List α) (rest : List (List α)) :
    (let tbl := row0 :: rest
    let out := computePressureDrop testType initialPressure xCol yCol tbl
    let dp := fun p : α => if testType = 0 then |initialPressure - p| else |p - cell row0 yCol|
    out.1.zip out.2 =
        (tbl.filter (fun row => decide (0 < cell row xCol ∧ 0 < dp (cell row yCol)))).map
          (fun row => (cell row xCol, dp (cell row yCol))) ∧
      (testType ≠ 0 → ∀ otherPressure : α,
        computePressureDrop testType otherPressure xCol yCol tbl = out)) := by
  intro tbl out dp
  have hdp : ∀ ip : α, ∀ p : α, pressureDrop testType ip (shutIn tbl yCol) p =
      if testType = 0 then |ip - p| else |p - cell row0 yCol| := by
    intro ip p
    rfl
  constructor
  · show (computePressureDrop testType initialPressure xCol yCol tbl).1.zip
      (computePressureDrop testType initialPressure xCol yCol tbl).2 = _
    rw [computePressureDrop_eq, List.zip_map']
    simp only [keepRow, hdp]
    rfl
  · intro htt ip
    show _ = computePressureDrop testType initialPressure xCol yCol tbl
    have hk : keepRow testType ip (shutIn tbl yCol) xCol yCol =
        keepRow testType initialPressure (shutIn tbl yCol) xCol yCol := by
      funext row
      simp [keepRow, pressureDrop, htt]
    rw [computePressureDrop_eq, computePressureDrop_eq, hk]
    simp [pressureDrop, htt]

/-- Witness for `computePressureDrop_formula`: a build-up table evaluated with two different
reference pressures. -/
theorem computePressureDrop_formula_witness :
    computePressureDrop 1 (7 : ℚ) 0 1 [[1, 100], [2, 98]] =
      computePressureDrop 1 (100 : ℚ) 0 1 [[1, 100], [2, 98]] :=
  (computePressureDrop_formula 1 (100 : ℚ) 0 1 [1, 100] [[2, 98]]).2 (by decide) 7

theorem computeLogDerivative_eq_map (ln : α → α) (xData yData : List α) (LSpacing : α) :
    computeLogDerivative ln xData yData LSpacing =
      (List.range xData.length).map (derivAt ln xData yData LSpacing) := by
  simp [computeLogDerivative, foldl_append_singleton]

theorem computeLogDerivative_length (ln : α → α) (xData yData : List α) (LSpacing : α) :
    (computeLogDerivative ln xData yData LSpacing).length = xData.length := by
  simp [computeLogDerivative_eq_map]

theorem smoothLoop_eq_map (derData : List α) (smoothFactor : Int) :
    smoothLoop derData smoothFactor =
      (List.range derData.length).map (fun i =>
        (smoothWindow derData (Int.tdiv smoothFactor 2) i).1 /
          ((smoothWindow derData (Int.tdiv smoothFactor 2) i).2 : α)) := by
  simp [smoothLoop, foldl_append_singleton]

theorem smooth_length (isSmooth : Bool) (smoothFactor : Int) (derData : List α) :
    (smooth isSmooth smoothFactor derData).length = derData.length := by
  unfold smooth
  split
  · simp [smoothLoop_eq_map]
  · rfl

theorem computePressureDrop_length (testType : Int) (initialPressure : α) (xCol yCol : Nat)
    (tbl : List (List α)) :
    (computePressureDrop testType initialPressure xCol yCol tbl).2.length =
      (computePressureDrop testType initialPressure xCol yCol tbl).1.length := by
  simp [computePressureDrop_eq]

/-- The handler on a present data model and an accepted dialog. -/
theorem on_btn_Derivative_clicked_accepted (ln : α → α) (w : Widget α) (dlg : PlottingDialog3 α)
    (tbl : List (List α)) (hm : w.m_dataModel = some tbl) (ha : dlg.accepted = true) :
    ((buildInfo ln dlg tbl).xData.length < 3 →
        on_btn_Derivative_clicked ln w dlg = (w, Outcome.insufficientData)) ∧
      (¬ (buildInfo ln dlg tbl).xData.length < 3 →
        (on_btn_Derivative_clicked ln w dlg).2 = Outcome.created ∧
        (on_btn_Derivative_clicked ln w dlg).1.m_curves =
          mapInsert w.m_curves dlg.getCurveName (buildInfo ln dlg tbl)) := by
  constructor
  · intro h
    simp [on_btn_Derivative_clicked, hm, ha, h]
  · intro h
    unfold on_btn_Derivative_clicked
    simp only [hm, ha, h, if_true, if_false]
    split <;> exact ⟨rfl, rfl⟩

/-- Every run of the handler that ends with the warning, or silently, leaves the widget as it
was. -/
theorem on_btn_Derivative_clicked_not_created (ln : α → α) (w : Widget α)
    (dlg : PlottingDialog3 α) (h : (on_btn_Derivative_clicked ln w dlg).2 ≠ Outcome.created) :
    (on_btn_Derivative_clicked ln w dlg).1 = w := by
  unfold on_btn_Derivative_clicked at h ⊢
  cases hm : w.m_dataModel with
  | none => simp
  | some tbl =>
    simp only [hm] at h ⊢
    by_cases ha : dlg.accepted = true
    · by_cases h3 : (buildInfo ln dlg tbl).xData.length < 3
      · simp [ha, h3]
      · by_cases hn : dlg.isNewWindow = true
        · simp [ha, h3, hn] at h
        · simp [ha, h3, hn] at h
    · simp [ha]

theorem buildInfo_xData_length (ln : α → α) (dlg : PlottingDialog3 α) (tbl : List (List α)) :
    (buildInfo ln dlg tbl).xData.length =
      (tbl.filter (fun row => decide (0 < cell row dlg.getTimeColumn ∧
        0 < pressureDrop dlg.getTestType dlg.getInitialPressure
          (shutIn tbl dlg.getPressureColumn) (cell row dlg.getPressureColumn)))).length := by
  simp only [buildInfo, computePressureDrop_eq, List.length_map]
  rfl

/-- C3: on a present data model and an accepted dialog, the handler ends in the warning branch
exactly when fewer than 3 rows pass the `t > 0 ∧ Δp > 0` filter; with 3 or more retained rows it
ends by storing a curve record under the requested name. -/
theorem insufficientData_iff (ln : α → α) (w : Widget α) (dlg : PlottingDialog3 α)
    (tbl : List (List α)) (hm : w.m_dataModel = some tbl) (ha : dlg.accepted = true) :
    (let retained := tbl.filter (fun row => decide (0 < cell row dlg.getTimeColumn ∧
      0 < pressureDrop dlg.getTestType dlg.getInitialPressure
        (shutIn tbl dlg.getPressureColumn) (cell row dlg.getPressureColumn)))
    ((on_btn_Derivative_clicked ln w dlg).2 = Outcome.insufficientData ↔ retained.length < 3) ∧
      (3 ≤ retained.length →
        (on_btn_Derivative_clicked ln w dlg).2 = Outcome.created ∧
        ∃ info, mapFind (on_btn_Derivative_clicked ln w dlg).1.m_curves dlg.getCurveName
            = some info ∧
          info.name = dlg.getCurveName ∧ info.type = 2 ∧
          info.xData = retained.map (fun row => cell row dlg.getTimeColumn))) := by
  intro retained
  have hlen : (buildInfo ln dlg tbl).xData.length = retained.length :=
    buildInfo_xData_length ln dlg tbl
  obtain ⟨h1, h2⟩ := on_btn_Derivative_clicked_accepted ln w dlg tbl hm ha
  rw [hlen] at h1 h2
  refine ⟨⟨?_, ?_⟩, ?_⟩
  · intro hout
    by_contra hge
    rw [(h2 hge).1] at hout
    exact absurd hout (by decide)
  · intro hlt
    rw [h1 hlt]
  · intro hge
    have h := h2 (by omega)
    refine ⟨h.1, buildInfo ln dlg tbl, ?_, rfl, rfl, ?_⟩
    · rw [h.2]
      exact mapFind_mapInsert _ _ _
    · simp only [buildInfo, computePressureDrop_eq]
      rfl

/-- A run that ends with a stored record had a data model, an accepted dialog and at least
three retained samples. -/
theorem on_btn_Derivative_clicked_created (ln : α → α) (w : Widget α) (dlg : PlottingDialog3 α)
    (h : (on_btn_Derivative_clicked ln w dlg).2 = Outcome.created) :
    ∃ tbl, w.m_dataModel = some tbl ∧ dlg.accepted = true ∧
      ¬ (buildInfo ln dlg tbl).xData.length < 3 := by
  cases hm : w.m_dataModel with
  | none => simp [on_btn_Derivative_clicked, hm] at h
  | some tbl =>
    refine ⟨tbl, rfl, ?_, ?_⟩
    · by_contra ha
      simp [on_btn_Derivative_clicked, hm, ha] at h
    · intro h3
      by_cases ha : dlg.accepted = true
      · simp [on_btn_Derivative_clicked, hm, ha, h3] at h
      · simp [on_btn_Derivative_clicked, hm, ha] at h

/-- Witness for `insufficientData_iff`: four of the five sample rows are retained and the
record is stored. -/
theorem insufficientData_iff_witness :
    (on_btn_Derivative_clicked sampleLn (sampleWidget longTable) sampleDialog).2
      = Outcome.created :=
  ((insufficientData_iff sampleLn (sampleWidget longTable) sampleDialog longTable rfl rfl).2
    (by norm_num [longTable, sampleDialog, cell, pressureDrop, shutIn, List.filter])).1

/-- C4: when the handler ends in the warning branch, the widget state is exactly what it was
before the request; in particular the curve map and the currently displayed curve are
unchanged, so no record was inserted, replaced or removed. -/
theorem insufficientData_keeps_state (ln : α → α) (w : Widget α) (dlg : PlottingDialog3 α)
    (h : (on_btn_Derivative_clicked ln w dlg).2 = Outcome.insufficientData) :
    (on_btn_Derivative_clicked ln w dlg).1 = w ∧
      (on_btn_Derivative_clicked ln w dlg).1.m_curves = w.m_curves ∧
      (on_btn_Derivative_clicked ln w dlg).1.m_currentDisplayedCurve
        = w.m_currentDisplayedCurve := by
  have hw : (on_btn_Derivative_clicked ln w dlg).1 = w :=
    on_btn_Derivative_clicked_not_created ln w dlg (by rw [h]; decide)
  exact ⟨hw, by rw [hw], by rw [hw]⟩

/-- Witness for `insufficientData_keeps_state`: a table with one retained sample. -/
theorem insufficientData_keeps_state_witness :
    (on_btn_Derivative_clicked sampleLn (sampleWidget shortTable) sampleDialog).1.m_curves = [] :=
  (insufficientData_keeps_state sampleLn (sampleWidget shortTable) sampleDialog
    (by norm_num [on_btn_Derivative_clicked, sampleWidget, sampleDialog, shortTable, buildInfo,
      computePressureDrop_eq, keepRow, cell, pressureDrop, shutIn, List.filter])).2.1

/-- C5: whenever the handler stores a record, the record found under the requested name has at
least 3 points and its derivative series `derivData` has exactly the length of its primary
series `xData` and `yData`, for every half-width, smoothing flag and smoothing width. -/
theorem derivData_length_eq (ln : α → α) (w : Widget α) (dlg : PlottingDialog3 α)
    (h : (on_btn_Derivative_clicked ln w dlg).2 = Outcome.created) :
    ∃ info, mapFind (on_btn_Derivative_clicked ln w dlg).1.m_curves dlg.getCurveName
        = some info ∧
      info.LSpacing = dlg.getLSpacing ∧ info.isSmooth = dlg.isSmoothEnabled ∧
      info.smoothFactor = dlg.getSmoothFactor ∧
      3 ≤ info.xData.length ∧
      info.yData.length = info.xData.length ∧
      info.derivData.length = info.xData.length := by
  obtain ⟨tbl, hm, ha, h3⟩ := on_btn_Derivative_clicked_created ln w dlg h
  have hc := ((on_btn_Derivative_clicked_accepted ln w dlg tbl hm ha).2 h3).2
  refine ⟨buildInfo ln dlg tbl, ?_, rfl, rfl, rfl, by omega, ?_, ?_⟩
  · rw [hc]
    exact mapFind_mapInsert _ _ _
  · exact computePressureDrop_length _ _ _ _ _
  · show (smooth _ _ (computeLogDerivative ln _ _ _)).length = _
    rw [smooth_length, computeLogDerivative_length]
    rfl

/-- Witness for `derivData_length_eq`: the five-row sample with smoothing width 3. -/
theorem derivData_length_eq_witness :
    ∃ info, mapFind (on_btn_Derivative_clicked sampleLn (sampleWidget longTable)
        sampleDialog).1.m_curves "derivative" = some info ∧
      info.LSpacing = 7 / 10 ∧ info.isSmooth = true ∧ info.smoothFactor = 3 ∧
      3 ≤ info.xData.length ∧
      info.yData.length = info.xData.length ∧
      info.derivData.length = info.xData.length :=
  derivData_length_eq sampleLn (sampleWidget longTable) sampleDialog
    (by norm_num [on_btn_Derivative_clicked, sampleWidget, sampleDialog, longTable, buildInfo,
      computePressureDrop_eq, keepRow, cell, pressureDrop, shutIn, List.filter])

/-- C7: with the smoothing flag off or a smoothing width of at most 1, the smoothing stage is
the identity on every derivative sequence, and the record's `derivData` is the unsmoothed
output of the derivative loop on the record's own `xData`, `yData` and `LSpacing`. -/
theorem smooth_identity (isSmooth : Bool) (smoothFactor : Int)
    (h : isSmooth = false ∨ smoothFactor ≤ 1) :
    (∀ derData : List α, smooth isSmooth smoothFactor derData = derData) ∧
      (∀ (ln : α → α) (dlg : PlottingDialog3 α) (tbl : List (List α)),
        dlg.isSmoothEnabled = isSmooth → dlg.getSmoothFactor = smoothFactor →
        (buildInfo ln dlg tbl).derivData =
          computeLogDerivative ln (buildInfo ln dlg tbl).xData (buildInfo ln dlg tbl).yData
            (buildInfo ln dlg tbl).LSpacing) := by
  have hid : ∀ derData : List α, smooth isSmooth smoothFactor derData = derData := by
    intro derData
    unfold smooth
    rw [if_neg]
    rintro ⟨hs, hf⟩
    rcases h with h | h
    · rw [h] at hs
      exact absurd hs (by decide)
    · omega
  refine ⟨hid, ?_⟩
  intro ln dlg tbl hs hf
  show smooth dlg.isSmoothEnabled dlg.getSmoothFactor _ = _
  rw [hs, hf, hid]
  rfl

/-- Witness for `smooth_identity`: width 1 with the flag on. -/
theorem smooth_identity_witness :
    smooth true 1 ([5, 45 / 7, 65 / 7, 80 / 7] : List ℚ) = [5, 45 / 7, 65 / 7, 80 / 7] :=
  (smooth_identity true 1 (Or.inr (by decide))).1 _

/-- The left scan started at `l` stops at the first index at or below `l`, going down, that is
0 or fails the loop test. -/
theorem scanLeft_spec (ln : α → α) (xData : List α) (lo : α) (l : Nat) :
    scanLeft ln xData lo l ≤ l ∧
      (∀ j, scanLeft ln xData lo l < j → j ≤ l → ln (xData.getD j 0) > lo) ∧
      ¬ (0 < scanLeft ln xData lo l ∧ ln (xData.getD (scanLeft ln xData lo l) 0) > lo) := by
  induction l with
  | zero =>
    refine ⟨le_refl _, ?_, ?_⟩
    · intro j hj hjl
      simp only [scanLeft] at hj
      omega
    · simp [scanLeft]
  | succ l ih =>
    by_cases hc : ln (xData.getD (l + 1) 0) > lo
    · have hs : scanLeft ln xData lo (l + 1) = scanLeft ln xData lo l := by
        rw [scanLeft, if_pos hc]
      rw [hs]
      refine ⟨by omega, ?_, ih.2.2⟩
      intro j hj hjl
      by_cases hjeq : j = l + 1
      · rw [hjeq]
        exact hc
      · exact ih.2.1 j hj (by omega)
    · have hs : scanLeft ln xData lo (l + 1) = l + 1 := by
        rw [scanLeft, if_neg hc]
      rw [hs]
      refine ⟨le_refl _, ?_, ?_⟩
      · intro j hj hjl
        omega
      · intro h
        exact hc h.2

/-- The right scan started at `r` moves up while the loop test holds; with enough fuel it
stops at an index where the loop test fails. -/
theorem scanRight_spec (ln : α → α) (xData : List α) (hi : α) (fuel r : Nat) :
    r ≤ scanRight ln xData hi fuel r ∧
      (∀ j, r ≤ j → j < scanRight ln xData hi fuel r →
        j + 1 < xData.length ∧ ln (xData.getD j 0) < hi) ∧
      (xData.length ≤ r + fuel + 1 →
        ¬ (scanRight ln xData hi fuel r + 1 < xData.length ∧
          ln (xData.getD (scanRight ln xData hi fuel r) 0) < hi)) := by
  induction fuel generalizing r with
  | zero =>
    refine ⟨le_refl _, ?_, ?_⟩
    · intro j hj hjr
      simp only [scanRight] at hjr
      omega
    · intro hn h
      simp only [scanRight] at h
      omega
  | succ fuel ih =>
    by_cases hc : (r : Int) < (xData.length : Int) - 1 ∧ ln (xData.getD r 0) < hi
    · have hs : scanRight ln xData hi (fuel + 1) r = scanRight ln xData hi fuel (r + 1) := by
        simp only [scanRight, hc, and_self, if_true]
      rw [hs]
      obtain ⟨h1, h2, h3⟩ := ih (r + 1)
      refine ⟨by omega, ?_, ?_⟩
      · intro j hj hjr
        by_cases hjeq : j = r
        · rw [hjeq]
          exact ⟨by omega, hc.2⟩
        · exact h2 j (by omega) hjr
      · intro hn
        exact h3 (by omega)
    · have hs : scanRight ln xData hi (fuel + 1) r = r := by
        simp only [scanRight, hc, if_false]
      rw [hs]
      refine ⟨le_refl _, ?_, ?_⟩
      · intro j hj hjr
        omega
      · intro _ h
        exact hc ⟨by omega, h.2⟩

/-- The loop of line 443 always stops within `xData.length` iterations: at its result the
loop test is false. -/
theorem scanRight_stops (ln : α → α) (xData : List α) (LSpacing : α) (i : Nat) :
    ¬ ((windowRight ln xData LSpacing i : Int) < (xData.length : Int) - 1 ∧
      ln (xData.getD (windowRight ln xData LSpacing i) 0) < ln (xData.getD i 0) + LSpacing) := by
  intro h
  unfold windowRight at h
  exact (scanRight_spec ln xData _ xData.length i).2.2 (by omega) ⟨by omega, h.2⟩

theorem windowLeft_isWindowLeft (ln : α → α) (xData : List α) (LSpacing : α) (i : Nat) :
    IsWindowLeft ln xData LSpacing i (windowLeft ln xData LSpacing i) :=
  scanLeft_spec ln xData _ i

theorem windowRight_isWindowRight (ln : α → α) (xData : List α) (LSpacing : α) (i : Nat) :
    IsWindowRight ln xData LSpacing i (windowRight ln xData LSpacing i) := by
  obtain ⟨h1, h2, h3⟩ := scanRight_spec ln xData (ln (xData.getD i 0) + LSpacing) xData.length i
  exact ⟨h1, h2, h3 (by omega)⟩

theorem isWindowLeft_unique (ln : α → α) (t : List α) (halfWidth : α) (i l l' : Nat)
    (h : IsWindowLeft ln t halfWidth i l) (h' : IsWindowLeft ln t halfWidth i l') : l' = l := by
  obtain ⟨h1, h2, h3⟩ := h
  obtain ⟨h1', h2', h3'⟩ := h'
  rcases Nat.lt_trichotomy l l' with hlt | heq | hgt
  · exact absurd ⟨by omega, h2 l' hlt h1'⟩ h3'
  · exact heq.symm
  · exact absurd ⟨by omega, h2' l hgt h1⟩ h3

theorem isWindowRight_unique (ln : α → α) (t : List α) (halfWidth : α) (i r r' : Nat)
    (h : IsWindowRight ln t halfWidth i r) (h' : IsWindowRight ln t halfWidth i r') : r' = r := by
  obtain ⟨h1, h2, h3⟩ := h
  obtain ⟨h1', h2', h3'⟩ := h'
  rcases Nat.lt_trichotomy r r' with hlt | heq | hgt
  · exact absurd (h2' r h1 hlt) h3
  · exact heq.symm
  · exact absurd (h2 r' h1' hgt) h3'

theorem computeLogDerivative_getElem? (ln : α → α) (xData yData : List α) (LSpacing : α)
    (i : Nat) (hi : i < xData.length) :
    (computeLogDerivative ln xData yData LSpacing)[i]? =
      some (derivAt ln xData yData LSpacing i) := by
  rw [computeLogDerivative_eq_map, List.getElem?_map, List.getElem?_range hi]
  rfl

/-- C6: at every index `i` of the series the derivative loop yields
`(Δp[r] - Δp[l]) / (ln t[r] - ln t[l])` when `|ln t[r] - ln t[l]| > 1e-6` and `0` otherwise,
where `l` and `r` are the unique indices reached from `i` by the two window scans: `l` by
decrementing while `l > 0` and `ln t[l] > ln t[i] - halfWidth`, `r` by incrementing while
`r < n - 1` and `ln t[r] < ln t[i] + halfWidth`.  (Positivity of the times is not needed.) -/
theorem computeLogDerivative_spec (ln : α → α) (t dp : List α) (halfWidth : α) (i : Nat)
    (hi : i < t.length) :
    ∃ l r, IsWindowLeft ln t halfWidth i l ∧ IsWindowRight ln t halfWidth i r ∧
      (∀ l' r', IsWindowLeft ln t halfWidth i l' → IsWindowRight ln t halfWidth i r' →
        l' = l ∧ r' = r) ∧
      (computeLogDerivative ln t dp halfWidth)[i]? =
        some (if |ln (t.getD r 0) - ln (t.getD l 0)| > 1 / 1000000
          then (dp.getD r 0 - dp.getD l 0) / (ln (t.getD r 0) - ln (t.getD l 0)) else 0) := by
  refine ⟨windowLeft ln t halfWidth i, windowRight ln t halfWidth i,
    windowLeft_isWindowLeft ln t halfWidth i, windowRight_isWindowRight ln t halfWidth i, ?_, ?_⟩
  · intro l' r' hl hr
    exact ⟨isWindowLeft_unique ln t halfWidth i _ l' (windowLeft_isWindowLeft ln t halfWidth i) hl,
      isWindowRight_unique ln t halfWidth i _ r' (windowRight_isWindowRight ln t halfWidth i) hr⟩
  · rw [computeLogDerivative_getElem? ln t dp halfWidth i hi]
    rfl

/-- Witness for `computeLogDerivative_spec`: index 1 of the retained sample series. -/
theorem computeLogDerivative_spec_witness :
    ∃ l r, IsWindowLeft sampleLn [2, 4, 8, 16] (7 / 10) 1 l ∧
      IsWindowRight sampleLn [2, 4, 8, 16] (7 / 10) 1 r ∧
      (∀ l' r', IsWindowLeft sampleLn [2, 4, 8, 16] (7 / 10) 1 l' →
        IsWindowRight sampleLn [2, 4, 8, 16] (7 / 10) 1 r' → l' = l ∧ r' = r) ∧
      (computeLogDerivative sampleLn [2, 4, 8, 16] [2, 5, 10, 18] (7 / 10))[1]? =
        some (if |sampleLn (([2, 4, 8, 16] : List ℚ).getD r 0)
            - sampleLn (([2, 4, 8, 16] : List ℚ).getD l 0)| > 1 / 1000000
          then ((([2, 5, 10, 18] : List ℚ).getD r 0) - (([2, 5, 10, 18] : List ℚ).getD l 0)) /
            (sampleLn (([2, 4, 8, 16] : List ℚ).getD r 0)
              - sampleLn (([2, 4, 8, 16] : List ℚ).getD l 0))
          else 0) :=
  computeLogDerivative_spec sampleLn [2, 4, 8, 16] [2, 5, 10, 18] (7 / 10) 1 (by decide)

/-- The inner smoothing loop as two conditional sums over the loop counter. -/
theorem smoothWindow_eq_sum (derData : List α) (half : Int) (i : Nat) :
    smoothWindow derData half i =
      (∑ k ∈ Finset.range (2 * half + 1).toNat,
          (if 0 ≤ (i : Int) - half + (k : Int) ∧
              (i : Int) - half + (k : Int) < (derData.length : Int)
            then derData.getD ((i : Int) - half + (k : Int)).toNat 0 else 0),
       ∑ k ∈ Finset.range (2 * half + 1).toNat,
          (if 0 ≤ (i : Int) - half + (k : Int) ∧
              (i : Int) - half + (k : Int) < (derData.length : Int)
            then 1 else 0)) := by
  unfold smoothWindow
  generalize (2 * half + 1).toNat = m
  induction m with
  | zero => simp
  | succ m ih =>
    rw [List.range_succ, List.foldl_append, ih]
    simp only [List.foldl_cons, List.foldl_nil, Finset.sum_range_succ]
    split_ifs <;> simp

/-- The loop counter `k` with `0 ≤ i - h + k < n` runs exactly over the indices
`max 0 (i - h) .. min (n - 1) (i + h)`. -/
theorem sum_window_reindex {β : Type} [AddCommMonoid β] (g : Nat → β) (n h i : Nat)
    (hi : i < n) :
    (∑ k ∈ Finset.range (2 * h + 1),
        (if 0 ≤ (i : Int) - (h : Int) + (k : Int) ∧ (i : Int) - (h : Int) + (k : Int) < (n : Int)
          then g ((i : Int) - (h : Int) + (k : Int)).toNat else 0)) =
      ∑ j ∈ Finset.Icc (i - h) (min (n - 1) (i + h)), g j := by
  rw [← Finset.sum_filter]
  refine Finset.sum_nbij' (fun k => i + k - h) (fun j => j + h - i) ?_ ?_ ?_ ?_ ?_
  · intro k hk
    simp only [Finset.mem_filter, Finset.mem_range] at hk
    simp only [Finset.mem_Icc]
    omega
  · intro j hj
    simp only [Finset.mem_Icc] at hj
    simp only [Finset.mem_filter, Finset.mem_range]
    omega
  · intro k hk
    simp only [Finset.mem_filter, Finset.mem_range] at hk
    show i + k - h + h - i = k
    omega
  · intro j hj
    simp only [Finset.mem_Icc] at hj
    show i + (j + h - i) - h = j
    omega
  · intro k hk
    simp only [Finset.mem_filter, Finset.mem_range] at hk
    show g _ = g (i + k - h)
    congr 1
    omega

/-- The cell `(sum, cnt)` computed for index `i` with a non-negative half-width. -/
theorem smoothWindow_eq_Icc (derData : List α) (h i : Nat) (hi : i < derData.length) :
    smoothWindow derData (h : Int) i =
      (∑ j ∈ Finset.Icc (i - h) (min (derData.length - 1) (i + h)), derData.getD j 0,
       ((Finset.Icc (i - h) (min (derData.length - 1) (i + h))).card : Int)) := by
  have hm : (2 * (h : Int) + 1).toNat = 2 * h + 1 := by omega
  rw [smoothWindow_eq_sum, hm,
    sum_window_reindex (fun j => derData.getD j 0) derData.length h i hi,
    sum_window_reindex (fun _ => (1 : Int)) derData.length h i hi]
  simp

/-- For a width above 1 the truncating division of line 451 is the natural-number division. -/
theorem tdiv_two_eq (smoothFactor : Int) (hw : 1 < smoothFactor) :
    Int.tdiv smoothFactor 2 = ((smoothFactor.toNat / 2 : Nat) : Int) := by
  rw [Int.tdiv_eq_ediv (by omega) (by omega)]
  omega

theorem smooth_getElem? (values : List α) (windowWidth : Int) (hw : 1 < windowWidth) (i : Nat)
    (hi : i < values.length) :
    (smooth true windowWidth values)[i]? =
      some ((smoothWindow values ((windowWidth.toNat / 2 : Nat) : Int) i).1 /
        ((smoothWindow values ((windowWidth.toNat / 2 : Nat) : Int) i).2 : α)) := by
  have hs : smooth true windowWidth values = smoothLoop values windowWidth := by
    simp [smooth, hw]
  rw [hs, smoothLoop_eq_map, List.getElem?_map, List.getElem?_range hi, tdiv_two_eq _ hw]
  rfl

/-- C8: for a width above 1 and an index `i < n`, the smoothed value at `i` is the arithmetic
mean of the values at the indices `max 0 (i - half) .. min (n - 1) (i + half)` with
`half = windowWidth / 2` (integer division); every index of that window is inside the
sequence, so no out-of-range or padding value enters the mean. -/
theorem smooth_mean (values : List α) (windowWidth : Int) (hw : 1 < windowWidth) (i : Nat)
    (hi : i < values.length) :
    (let half := windowWidth.toNat / 2
    let window := Finset.Icc (i - half) (min (values.length - 1) (i + half))
    (smooth true windowWidth values)[i]? =
        some ((∑ j ∈ window, values.getD j 0) / (window.card : α)) ∧
      (∀ j ∈ window, j < values.length) ∧ i ∈ window) := by
  intro half window
  refine ⟨?_, ?_, ?_⟩
  · rw [smooth_getElem? values windowWidth hw i hi, smoothWindow_eq_Icc values half i hi]
    simp only [Int.cast_natCast]
  · intro j hj
    simp only [window, Finset.mem_Icc] at hj
    omega
  · simp only [window, Finset.mem_Icc]
    omega

/-- Witness for `smooth_mean`: width 3 at the first index of a five-point sequence averages
the first two values. -/
theorem smooth_mean_witness :
    (smooth true 3 ([1, 2, 3, 4, 5] : List ℚ))[0]? = some (3 / 2) := by
  have h := (smooth_mean ([1, 2, 3, 4, 5] : List ℚ) 3 (by decide) 0 (by decide)).1
  rw [h]
  have hI : Finset.Icc (0 - (3 : Int).toNat / 2)
      (min (([1, 2, 3, 4, 5] : List ℚ).length - 1) (0 + (3 : Int).toNat / 2)) = {0, 1} := by
    decide
  rw [hI]
  norm_num

/-- The number of samples averaged at the first and at the last index, for a non-negative
half-width: `min n (half + 1)`. -/
theorem smoothWindow_boundary_count (values : List α) (h : Nat) :
    (smoothWindow values (h : Int) 0).2 = ((min values.length (h + 1) : Nat) : Int) ∧
      (smoothWindow values (h : Int) (values.length - 1)).2
        = ((min values.length (h + 1) : Nat) : Int) := by
  cases hv : values with
  | nil =>
    have hz : ∀ i : Nat, (smoothWindow ([] : List α) (h : Int) i).2 = 0 := by
      intro i
      rw [smoothWindow_eq_sum]
      show (∑ k ∈ Finset.range (2 * (h : Int) + 1).toNat, _) = (0 : Int)
      apply Finset.sum_eq_zero
      intro k _
      rw [if_neg]
      simp only [List.length_nil]
      omega
    simp [hz]
  | cons v vs =>
    have hn : 0 < (v :: vs).length := by simp
    have hl : (v :: vs).length - 1 < (v :: vs).length := by omega
    rw [smoothWindow_eq_Icc (v :: vs) h 0 hn, smoothWindow_eq_Icc (v :: vs) h _ hl]
    simp only [Nat.card_Icc]
    constructor
    · congr 1
      omega
    · congr 1
      omega

/-- C9 (as amended): for every sequence and every width above 2, the smoothing at index 0 and
at index `n - 1` averages `min n (windowWidth / 2 + 1)` samples, strictly fewer than
`windowWidth`. -/
theorem smooth_boundary_count (values : List α) (windowWidth : Int) (hw : 2 < windowWidth) :
    (let half := Int.tdiv windowWidth 2
    let first := (smoothWindow values half 0).2
    let last := (smoothWindow values half (values.length - 1)).2
    first = ((min values.length (windowWidth.toNat / 2 + 1) : Nat) : Int) ∧
      last = ((min values.length (windowWidth.toNat / 2 + 1) : Nat) : Int) ∧
      first < windowWidth ∧ last < windowWidth) := by
  intro half first last
  have hh : half = ((windowWidth.toNat / 2 : Nat) : Int) := tdiv_two_eq windowWidth (by omega)
  obtain ⟨h1, h2⟩ := smoothWindow_boundary_count values (windowWidth.toNat / 2)
  have hf : first = ((min values.length (windowWidth.toNat / 2 + 1) : Nat) : Int) := by
    show (smoothWindow values half 0).2 = _
    rw [hh, h1]
  have hl : last = ((min values.length (windowWidth.toNat / 2 + 1) : Nat) : Int) := by
    show (smoothWindow values half (values.length - 1)).2 = _
    rw [hh, h2]
  refine ⟨hf, hl, ?_, ?_⟩
  · rw [hf]
    omega
  · rw [hl]
    omega

/-- Witness for `smooth_boundary_count`: width 3 on a five-point sequence averages two samples
at either end. -/
theorem smooth_boundary_count_witness :
    (smoothWindow ([1, 2, 3, 4, 5] : List ℚ) (Int.tdiv 3 2) 0).2 < 3 ∧
      (smoothWindow ([1, 2, 3, 4, 5] : List ℚ) (Int.tdiv 3 2) 4).2 < 3 :=
  (smooth_boundary_count ([1, 2, 3, 4, 5] : List ℚ) 3 (by decide)).2.2

/-- C9 as stated fails at width 2: on the two-point sequence `[1, 2]` the smoothing at index 0
and at index `n - 1 = 1` each average 2 samples, which is not fewer than the width. -/
theorem smooth_boundary_counterexample :
    (1 : Int) < 2 ∧
      (smoothWindow ([1, 2] : List ℚ) (Int.tdiv 2 2) 0).2 = 2 ∧
      (smoothWindow ([1, 2] : List ℚ) (Int.tdiv 2 2) (([1, 2] : List ℚ).length - 1)).2 = 2 ∧
      ¬ ((smoothWindow ([1, 2] : List ℚ) (Int.tdiv 2 2) 0).2 < 2) ∧
      ¬ ((smoothWindow ([1, 2] : List ℚ) (Int.tdiv 2 2) (([1, 2] : List ℚ).length - 1)).2 < 2) ∧
      smooth true 2 ([1, 2] : List ℚ) = [3 / 2, 3 / 2] := by
  refine ⟨by decide, by decide, by decide, by decide, by decide, ?_⟩
  norm_num [smooth, smoothLoop, smoothWindow, List.range, List.range.loop]

/-! ## Theorems: characteristic lines -/

/-- C10: stretching an endpoint of a log-log characteristic line whose fixed endpoint
`(x₀, y₀)` has `x₀ > 0` and `y₀ ≠ 0` puts the dragged endpoint at `(xNew, yNew)` with `xNew` the
cursor x (or `1e-5` when the cursor x is not positive) and `yNew / y₀ = (xNew / x₀) ^ k`, `k`
the fixed slope; the fixed endpoint stays where it was. -/
theorem constrainLinePoint_logLog_slope (pw : α → α → α) (rangeX rangeY : α)
    (line : QCPItemLine α) (isMovingStart : Bool) (mouseX mouseY : α)
    (hll : line.isLogLog = true)
    (hx : 0 < (if isMovingStart = true then line.end_ else line.start).1)
    (hy : (if isMovingStart = true then line.end_ else line.start).2 ≠ 0) :
    (let fixed := if isMovingStart = true then line.end_ else line.start
    let out := constrainLinePoint pw rangeX rangeY line isMovingStart mouseX mouseY
    let moved := if isMovingStart = true then out.start else out.end_
    let xNew := if mouseX ≤ 0 then 1 / 100000 else mouseX
    moved.1 = xNew ∧ moved.2 / fixed.2 = pw (xNew / fixed.1) line.fixedSlope ∧
      (if isMovingStart = true then out.end_ else out.start) = fixed) := by
  cases isMovingStart with
  | true =>
    simp only [if_true] at hx hy
    simp only [constrainLinePoint, hll, if_true, not_le.mpr hx, if_false]
    exact ⟨trivial, mul_div_cancel_left₀ _ hy, trivial⟩
  | false =>
    simp only [Bool.false_eq_true, if_false] at hx hy
    simp only [constrainLinePoint, hll, if_true, Bool.false_eq_true, not_le.mpr hx, if_false]
    exact ⟨trivial, mul_div_cancel_left₀ _ hy, trivial⟩

/-- Witness for `constrainLinePoint_logLog_slope`: dragging the end of the slope-2 sample line
to cursor x = 3 gives `yNew / y₀ = 3 ^ 2`. -/
theorem constrainLinePoint_logLog_slope_witness :
    (constrainLinePoint samplePow 1 1 sampleLine false 3 0).end_.1 = 3 ∧
      (constrainLinePoint samplePow 1 1 sampleLine false 3 0).end_.2 / 2 = 9 := by
  have h := constrainLinePoint_logLog_slope samplePow 1 1 sampleLine false 3 0 rfl
    (by norm_num [sampleLine]) (by norm_num [sampleLine])
  norm_num [sampleLine, samplePow] at h
  exact ⟨h.1, h.2.1⟩

/-- C11: on a line whose `isLogLog` flag is false, stretching either endpoint puts the dragged
endpoint at `(xNew, yNew)` with `xNew` the cursor x and
`yNew = yFixed + fixedSlope * (yRange / xRange) * (xNew - xFixed)` and leaves the other endpoint
in place; hence `(yNew - yFixed) * xRange = fixedSlope * yRange * (xNew - xFixed)` for every
`xRange ≠ 0`, and `(yNew - yFixed) / yRange = fixedSlope * (xNew - xFixed) / xRange` as soon as
`yRange ≠ 0` too (the quotient by `yRange` needs it). -/
theorem constrainLinePoint_linear (pw : α → α → α) (rangeX rangeY : α)
    (line : QCPItemLine α) (isMovingStart : Bool) (mouseX mouseY : α)
    (hll : line.isLogLog = false) :
    (let fixed := if isMovingStart = true then line.end_ else line.start
     let out := constrainLinePoint pw rangeX rangeY line isMovingStart mouseX mouseY
     let moved := if isMovingStart = true then out.start else out.end_
     moved.1 = mouseX ∧
      moved.2 = fixed.2 + line.fixedSlope * (rangeY / rangeX) * (mouseX - fixed.1) ∧
      (if isMovingStart = true then out.end_ else out.start) = fixed ∧
      (rangeX ≠ 0 →
        (moved.2 - fixed.2) * rangeX = line.fixedSlope * rangeY * (mouseX - fixed.1) ∧
        (rangeY ≠ 0 →
          (moved.2 - fixed.2) / rangeY = line.fixedSlope * (mouseX - fixed.1) / rangeX))) := by
  cases isMovingStart with
  | true =>
    simp only [constrainLinePoint, hll, if_true, Bool.false_eq_true, if_false]
    refine ⟨trivial, trivial, trivial, ?_⟩
    intro hx
    refine ⟨by field_simp; ring, ?_⟩
    intro hy
    field_simp
    ring
  | false =>
    simp only [constrainLinePoint, hll, Bool.false_eq_true, if_false]
    refine ⟨trivial, trivial, trivial, ?_⟩
    intro hx
    refine ⟨by field_simp; ring, ?_⟩
    intro hy
    field_simp
    ring

/-- Witness for `constrainLinePoint_linear`: a slope-2 line from `(1, 2)` on axes of range
sizes 4 and 8, end dragged to cursor x = 3. -/
theorem constrainLinePoint_linear_witness :
    (constrainLinePoint samplePow 4 8 { sampleLine with isLogLog := false } false 3 0).end_
      = (3, 10) := by
  have h := constrainLinePoint_linear samplePow 4 8 { sampleLine with isLogLog := false }
    false 3 0 rfl
  norm_num [sampleLine] at h
  exact Prod.ext h.1 h.2.1

/-- The squared distance from `p` to the point of parameter `u` on the line through `s` and
`e`, as a quadratic in `u`. -/
theorem sqDist_param (p s e : α × α) (u : α) :
    (p.1 - (s.1 + u * (e.1 - s.1))) * (p.1 - (s.1 + u * (e.1 - s.1))) +
        (p.2 - (s.2 + u * (e.2 - s.2))) * (p.2 - (s.2 + u * (e.2 - s.2))) =
      ((p.1 - s.1) * (p.1 - s.1) + (p.2 - s.2) * (p.2 - s.2)) -
        2 * u * ((p.1 - s.1) * (e.1 - s.1) + (p.2 - s.2) * (e.2 - s.2)) +
        u * u * ((s.1 - e.1) * (s.1 - e.1) + (s.2 - e.2) * (s.2 - e.2)) := by
  ring

/-- The clamped projection parameter minimises the squared distance over `[0, 1]`. -/
theorem sqDist_clamp_le (p s e : α × α) (u : α) (hu0 : 0 ≤ u) (hu1 : u ≤ 1)
    (hl : (s.1 - e.1) * (s.1 - e.1) + (s.2 - e.2) * (s.2 - e.2) ≠ 0) :
    (let l2 := (s.1 - e.1) * (s.1 - e.1) + (s.2 - e.2) * (s.2 - e.2)
     let t := max 0 (min 1 (((p.1 - s.1) * (e.1 - s.1) + (p.2 - s.2) * (e.2 - s.2)) / l2))
     (p.1 - (s.1 + t * (e.1 - s.1))) * (p.1 - (s.1 + t * (e.1 - s.1))) +
        (p.2 - (s.2 + t * (e.2 - s.2))) * (p.2 - (s.2 + t * (e.2 - s.2))) ≤
      (p.1 - (s.1 + u * (e.1 - s.1))) * (p.1 - (s.1 + u * (e.1 - s.1))) +
        (p.2 - (s.2 + u * (e.2 - s.2))) * (p.2 - (s.2 + u * (e.2 - s.2)))) := by
  intro l2 t
  have hl2 : 0 < l2 := lt_of_le_of_ne
    (add_nonneg (mul_self_nonneg _) (mul_self_nonneg _)) (Ne.symm hl)
  rw [sqDist_param p s e t, sqDist_param p s e u]
  set d := (p.1 - s.1) * (e.1 - s.1) + (p.2 - s.2) * (e.2 - s.2) with hd
  have hdl : d = (d / l2) * l2 := by field_simp
  have key : ∀ v : α, -(2 * v * d) + v * v * l2 = l2 * ((v - d / l2) * (v - d / l2))
      - l2 * ((d / l2) * (d / l2)) := by
    intro v
    have h2 : 2 * v * d = 2 * v * ((d / l2) * l2) := by rw [← hdl]
    rw [h2]
    ring
  have hsq : (t - d / l2) * (t - d / l2) ≤ (u - d / l2) * (u - d / l2) := by
    rcases le_total (d / l2) 0 with h0 | h0
    · have ht : t = 0 := by
        show max 0 (min 1 (d / l2)) = 0
        rw [min_eq_right (le_trans h0 zero_le_one), max_eq_left h0]
      rw [ht]
      nlinarith
    · rcases le_total (d / l2) 1 with h1 | h1
      · have ht : t = d / l2 := by
          show max 0 (min 1 (d / l2)) = d / l2
          rw [min_eq_right h1, max_eq_right h0]
        rw [ht]
        nlinarith [mul_self_nonneg (u - d / l2)]
      · have ht : t = 1 := by
          show max 0 (min 1 (d / l2)) = 1
          rw [min_eq_left h1, max_eq_right zero_le_one]
        rw [ht]
        nlinarith
  have h1 := key t
  have h2 := key u
  have h3 := mul_le_mul_of_nonneg_left hsq hl2.le
  show _ - 2 * t * d + t * t * l2 ≤ _ - 2 * u * d + u * u * l2
  clear_value t d l2
  linarith

/-- The clamped parameter lies in `[0, 1]`. -/
theorem clamp_mem (x : α) : 0 ≤ max 0 (min 1 x) ∧ max 0 (min 1 x) ≤ 1 :=
  ⟨le_max_left _ _, max_le zero_le_one (min_le_left _ _)⟩

/-- C12: for all points `p`, `s`, `e` of the real plane, `distToSegment p s e` is the Euclidean
distance from `p` to the point `s + t (e - s)` for a parameter `t ∈ [0, 1]`, which for `s ≠ e` is
the projection parameter clamped to `[0, 1]`; it is at most the distance from `p` to every
point `s + u (e - s)`, `u ∈ [0, 1]`, of the segment, hence the minimum; and for `s = e` it is the
distance from `p` to `s`. -/
theorem distToSegment_is_min (p s e : ℝ × ℝ) :
    ∃ t : ℝ, 0 ≤ t ∧ t ≤ 1 ∧
      (s ≠ e → t = max 0 (min 1 (((p.1 - s.1) * (e.1 - s.1) + (p.2 - s.2) * (e.2 - s.2)) /
        ((s.1 - e.1) ^ 2 + (s.2 - e.2) ^ 2)))) ∧
      distToSegment Real.sqrt p s e =
        Real.sqrt ((p.1 - (s.1 + t * (e.1 - s.1))) ^ 2 + (p.2 - (s.2 + t * (e.2 - s.2))) ^ 2) ∧
      (∀ u : ℝ, 0 ≤ u → u ≤ 1 → distToSegment Real.sqrt p s e ≤
        Real.sqrt ((p.1 - (s.1 + u * (e.1 - s.1))) ^ 2 + (p.2 - (s.2 + u * (e.2 - s.2))) ^ 2)) ∧
      (s = e → distToSegment Real.sqrt p s e =
        Real.sqrt ((p.1 - s.1) ^ 2 + (p.2 - s.2) ^ 2)) := by
  by_cases hl : (s.1 - e.1) * (s.1 - e.1) + (s.2 - e.2) * (s.2 - e.2) = 0
  · have h1 : s.1 - e.1 = 0 := by nlinarith [mul_self_nonneg (s.1 - e.1), mul_self_nonneg (s.2 - e.2)]
    have h2 : s.2 - e.2 = 0 := by nlinarith [mul_self_nonneg (s.1 - e.1), mul_self_nonneg (s.2 - e.2)]
    have hse : s = e := Prod.ext (by linarith) (by linarith)
    have hd : distToSegment Real.sqrt p s e =
        Real.sqrt ((p.1 - s.1) ^ 2 + (p.2 - s.2) ^ 2) := by
      simp only [distToSegment, hl, if_true]
      congr 1
      ring
    have hpt : ∀ u : ℝ, (p.1 - (s.1 + u * (e.1 - s.1))) ^ 2 + (p.2 - (s.2 + u * (e.2 - s.2))) ^ 2
        = (p.1 - s.1) ^ 2 + (p.2 - s.2) ^ 2 := by
      intro u
      rw [← hse]
      ring
    refine ⟨0, le_refl _, zero_le_one, fun hne => absurd hse hne, ?_, ?_, fun _ => hd⟩
    · rw [hd, hpt]
    · intro u _ _
      rw [hd, hpt]
  · have hne : s ≠ e := by
      intro hse
      apply hl
      rw [hse]
      ring
    have hd : distToSegment Real.sqrt p s e = Real.sqrt
        ((p.1 - (s.1 + max 0 (min 1 (((p.1 - s.1) * (e.1 - s.1) + (p.2 - s.2) * (e.2 - s.2)) /
            ((s.1 - e.1) ^ 2 + (s.2 - e.2) ^ 2))) * (e.1 - s.1))) ^ 2 +
          (p.2 - (s.2 + max 0 (min 1 (((p.1 - s.1) * (e.1 - s.1) + (p.2 - s.2) * (e.2 - s.2)) /
            ((s.1 - e.1) ^ 2 + (s.2 - e.2) ^ 2))) * (e.2 - s.2))) ^ 2) := by
      simp only [distToSegment, hl, if_false]
      congr 1
      ring_nf
    refine ⟨_, (clamp_mem _).1, (clamp_mem _).2, fun _ => rfl, hd, ?_, fun hse => absurd hse hne⟩
    intro u hu0 hu1
    rw [hd]
    apply Real.sqrt_le_sqrt
    have h := sqDist_clamp_le p s e u hu0 hu1 hl
    simp only [← sq] at h ⊢
    exact h

/-- The centre computed for a logarithmic axis, `10 ^ ((log10 l + log10 u) / 2)`, is the
geometric mean of the two positive range ends. -/
theorem logCenter_eq_sqrt (l u : ℝ) (hl : 0 < l) (hu : 0 < u) :
    (10 : ℝ) ^ ((Real.logb 10 l + Real.logb 10 u) / 2) = Real.sqrt (l * u) := by
  have h10 : (0 : ℝ) < 10 := by norm_num
  have h1 : (10 : ℝ) ≠ 1 := by norm_num
  calc (10 : ℝ) ^ ((Real.logb 10 l + Real.logb 10 u) / 2)
      = (10 : ℝ) ^ ((Real.logb 10 l + Real.logb 10 u) * (1 / 2)) := by
        congr 1
        ring
    _ = ((10 : ℝ) ^ (Real.logb 10 l + Real.logb 10 u)) ^ (1 / 2 : ℝ) :=
        Real.rpow_mul h10.le _ _
    _ = (l * u) ^ (1 / 2 : ℝ) := by
        rw [Real.rpow_add h10, Real.rpow_logb h10 h1 hl, Real.rpow_logb h10 h1 hu]
    _ = Real.sqrt (l * u) := (Real.sqrt_eq_rpow _).symm

/-- C14: on an active axis pair with both axes logarithmic and positive visible ranges
`[lx, ux]`, `[ly, uy]`, `addCharacteristicLine slope` places the endpoints at `x1 = cx / 3`,
`x2 = 3 cx`, `y1 = cy (x1 / cx) ^ slope`, `y2 = cy (x2 / cx) ^ slope` with `cx = √(lx ux)` and
`cy = √(ly uy)`, and sets `isLogLog` and `fixedSlope = slope`.  Here `pow` is the real power
and `log10` the real logarithm to base 10. -/
theorem addCharacteristicLine_logLog (c : ChartLayout ℝ) (slope : ℝ)
    (hx : c.activeRect.bottom.scaleType = ScaleType.stLogarithmic)
    (hy : c.activeRect.left.scaleType = ScaleType.stLogarithmic)
    (hlx : 0 < c.activeRect.bottom.lower) (hux : 0 < c.activeRect.bottom.upper)
    (hly : 0 < c.activeRect.left.lower) (huy : 0 < c.activeRect.left.upper) :
    (let cx := Real.sqrt (c.activeRect.bottom.lower * c.activeRect.bottom.upper)
     let cy := Real.sqrt (c.activeRect.left.lower * c.activeRect.left.upper)
     let line := addCharacteristicLine (fun b k : ℝ => b ^ k) (Real.logb 10) c slope
     line.start = (cx / 3, cy * (cx / 3 / cx) ^ slope) ∧
      line.end_ = (3 * cx, cy * (3 * cx / cx) ^ slope) ∧
      line.isLogLog = true ∧ line.fixedSlope = slope) := by
  have hcx := logCenter_eq_sqrt _ _ hlx hux
  have hcy := logCenter_eq_sqrt _ _ hly huy
  simp only [addCharacteristicLine, calculateLinePoints, hx, hy, decide_True, if_true,
    and_self, Bool.and_self, hcx, hcy, mul_comm (Real.sqrt _) (3 : ℝ)]

/-- Witness for `addCharacteristicLine_logLog`: slope 0.5 on the visible ranges
x ∈ [1, 100], y ∈ [10, 1000] gives `cx = 10`, `cy = 100` and the line from
`(10 / 3, 100 (1/3) ^ 0.5)` to `(30, 100 · 3 ^ 0.5)`. -/
theorem addCharacteristicLine_logLog_witness :
    (addCharacteristicLine (fun b k : ℝ => b ^ k) (Real.logb 10)
        ⟨ChartMode.Mode_Single, none,
          ⟨⟨1, 100, ScaleType.stLogarithmic⟩, ⟨10, 1000, ScaleType.stLogarithmic⟩⟩⟩
        (1 / 2)).start = (10 / 3, 100 * (1 / 3 : ℝ) ^ (1 / 2 : ℝ)) ∧
      (addCharacteristicLine (fun b k : ℝ => b ^ k) (Real.logb 10)
        ⟨ChartMode.Mode_Single, none,
          ⟨⟨1, 100, ScaleType.stLogarithmic⟩, ⟨10, 1000, ScaleType.stLogarithmic⟩⟩⟩
        (1 / 2)).end_ = (30, 100 * (3 : ℝ) ^ (1 / 2 : ℝ)) := by
  have h := addCharacteristicLine_logLog
    ⟨ChartMode.Mode_Single, none,
      ⟨⟨1, 100, ScaleType.stLogarithmic⟩, ⟨10, 1000, ScaleType.stLogarithmic⟩⟩⟩ (1 / 2)
    rfl rfl (by norm_num [ChartLayout.activeRect]) (by norm_num [ChartLayout.activeRect])
    (by norm_num [ChartLayout.activeRect]) (by norm_num [ChartLayout.activeRect])
  have h100 : Real.sqrt (1 * 100) = 10 := by
    rw [show (1 * 100 : ℝ) = 10 ^ 2 by norm_num]
    exact Real.sqrt_sq (by norm_num)
  have h10000 : Real.sqrt (10 * 1000) = 100 := by
    rw [show (10 * 1000 : ℝ) = 100 ^ 2 by norm_num]
    exact Real.sqrt_sq (by norm_num)
  simp only [ChartLayout.activeRect, h100, h10000] at h
  refine ⟨?_, ?_⟩
  · rw [h.1]
    norm_num
  · rw [h.2.1]
    norm_num

/-- On positive range sizes the first estimate `dy` exceeds half the y-range exactly when
`|slope| > 10 / 3`. -/
theorem clamp_test_iff (slope rangeX rangeY : α) (hx : 0 < rangeX) (hy : 0 < rangeY) :
    |slope * (rangeX * (15 / 100)) * (rangeY / rangeX)| > rangeY * (5 / 10) ↔
      |slope| > 10 / 3 := by
  have h : slope * (rangeX * (15 / 100)) * (rangeY / rangeX) = slope * (rangeY * (15 / 100)) := by
    field_simp
    ring
  rw [h, abs_mul, abs_of_pos (by positivity : (0 : α) < rangeY * (15 / 100))]
  constructor
  · intro hgt
    by_contra hle
    have hle2 : |slope| ≤ 10 / 3 := le_of_not_gt hle
    have := mul_le_mul_of_nonneg_right hle2 (by positivity : (0 : α) ≤ rangeY * (15 / 100))
    have heq : (10 / 3 : α) * (rangeY * (15 / 100)) = rangeY * (5 / 10) := by ring
    linarith
  · intro hgt
    have := mul_lt_mul_of_pos_right hgt (by positivity : (0 : α) < rangeY * (15 / 100))
    have heq : (10 / 3 : α) * (rangeY * (15 / 100)) = rangeY * (5 / 10) := by ring
    linarith

/-- C15: on an active axis pair with both axes linear and positive range sizes `xRange`,
`yRange`, `calculateLinePoints` returns `(centerX - dx/2, centerY - dy/2)` and
`(centerX + dx/2, centerY + dy/2)` with `dx = 0.15 xRange`, `dy = slope dx (yRange / xRange)`,
unless `|dy| > 0.5 yRange`; then `slope ≠ 0`, `dy` is `0.2 yRange` with the sign of `slope` and
`dx = dy / (slope yRange / xRange)`.  `addCharacteristicLine` calls it with the arithmetic
midpoints of the visible ranges as centre. -/
theorem calculateLinePoints_linear (pw : α → α → α) (log10 : α → α) (c : ChartLayout α)
    (slope centerX centerY : α)
    (hx : 0 < c.activeRect.bottom.size) (hy : 0 < c.activeRect.left.size) :
    (let xRange := c.activeRect.bottom.size
     let yRange := c.activeRect.left.size
     let dx0 := 15 / 100 * xRange
     let dy0 := slope * dx0 * (yRange / xRange)
     let dy := if |dy0| > 5 / 10 * yRange
       then (if 0 < slope then 2 / 10 * yRange else -(2 / 10 * yRange)) else dy0
     let dx := if |dy0| > 5 / 10 * yRange then dy / (slope * yRange / xRange) else dx0
     (|dy0| > 5 / 10 * yRange → slope ≠ 0) ∧
      calculateLinePoints pw c slope centerX centerY false false =
        (centerX - dx / 2, centerY - dy / 2, centerX + dx / 2, centerY + dy / 2) ∧
      (c.activeRect.bottom.scaleType = ScaleType.stLinear →
        c.activeRect.left.scaleType = ScaleType.stLinear →
        let mx := (c.activeRect.bottom.lower + c.activeRect.bottom.upper) / 2
        let my := (c.activeRect.left.lower + c.activeRect.left.upper) / 2
        let line := addCharacteristicLine pw log10 c slope
        line.start = (mx - dx / 2, my - dy / 2) ∧ line.end_ = (mx + dx / 2, my + dy / 2) ∧
          line.isLogLog = false ∧ line.fixedSlope = slope)) := by
  intro xRange yRange dx0 dy0 dy dx
  have hdy0 : slope * (xRange * (15 / 100)) * (yRange / xRange) = dy0 := by
    show _ = slope * (15 / 100 * xRange) * (yRange / xRange)
    ring
  have hiff : |dy0| > 5 / 10 * yRange ↔ |slope| > 10 / 3 := by
    rw [← hdy0, mul_comm (5 / 10 : α) yRange]
    exact clamp_test_iff slope xRange yRange hx hy
  have hne : |dy0| > 5 / 10 * yRange → slope ≠ 0 := by
    intro h hs
    rw [hiff, hs, abs_zero] at h
    norm_num at h
  have hcalc : ∀ cx cy : α, calculateLinePoints pw c slope cx cy false false =
      (cx - dx / 2, cy - dy / 2, cx + dx / 2, cy + dy / 2) := by
    intro cx cy
    by_cases hc : |dy0| > 5 / 10 * yRange
    · have hs : slope ≠ 0 := hne hc
      have hbig : |slope| > 1 / 1000000000 := by
        have := hiff.mp hc
        have h3 : (1 / 1000000000 : α) < 10 / 3 := by norm_num
        exact lt_trans h3 this
      have hc2 : |slope * (xRange * (15 / 100)) * (yRange / xRange)| > yRange * (5 / 10) := by
        rw [hdy0, mul_comm yRange]
        exact hc
      have hdyv : dy = yRange * (2 / 10) * (if slope ≥ 0 then 1 else -1) := by
        show (if |dy0| > 5 / 10 * yRange
          then (if 0 < slope then 2 / 10 * yRange else -(2 / 10 * yRange)) else dy0) = _
        rw [if_pos hc]
        rcases lt_or_gt_of_ne hs with hneg | hpos
        · rw [if_neg (not_lt.mpr hneg.le), if_neg (not_le.mpr hneg)]
          ring
        · rw [if_pos hpos, if_pos hpos.le]
          ring
      have hdxv : dx = dy / (slope * (yRange / xRange)) := by
        show (if |dy0| > 5 / 10 * yRange then dy / (slope * yRange / xRange) else dx0) = _
        rw [if_pos hc, mul_div_assoc]
      simp only [calculateLinePoints, Bool.false_eq_true, false_and, if_false, and_self, if_true]
      rw [if_pos hc2, if_pos hbig, ← hdyv, ← hdxv]
    · have hc2 : ¬ |slope * (xRange * (15 / 100)) * (yRange / xRange)| > yRange * (5 / 10) := by
        rw [hdy0, mul_comm yRange]
        exact hc
      have hdyv : dy = slope * (xRange * (15 / 100)) * (yRange / xRange) := by
        show (if |dy0| > 5 / 10 * yRange
          then (if 0 < slope then 2 / 10 * yRange else -(2 / 10 * yRange)) else dy0) = _
        rw [if_neg hc, hdy0]
      have hdxv : dx = xRange * (15 / 100) := by
        show (if |dy0| > 5 / 10 * yRange then dy / (slope * yRange / xRange) else dx0) = _
        rw [if_neg hc]
        show 15 / 100 * xRange = _
        ring
      simp only [calculateLinePoints, Bool.false_eq_true, false_and, if_false, and_self, if_true]
      rw [if_neg hc2, ← hdyv, ← hdxv]
  refine ⟨hne, hcalc centerX centerY, ?_⟩
  intro hlx hly mx my line
  have hline : line = addCharacteristicLine pw log10 c slope := rfl
  simp only [addCharacteristicLine, hlx, hly, decide_False, Bool.false_eq_true, if_false,
    Bool.and_self, reduceCtorEq] at hline
  rw [hcalc] at hline
  rw [hline]
  exact ⟨rfl, rfl, rfl, rfl⟩

/-- A linear chart with visible ranges x ∈ [0, 10], y ∈ [0, 20]. -/
theorem calculateLinePoints_linear_witness :
    calculateLinePoints samplePow
        ⟨ChartMode.Mode_Single, none, ⟨⟨0, 10, ScaleType.stLinear⟩, ⟨0, 20, ScaleType.stLinear⟩⟩⟩
        1 5 10 false false = (5 - 3 / 2 / 2, 10 - 3 / 2, 5 + 3 / 2 / 2, 10 + 3 / 2) ∧
      calculateLinePoints samplePow
        ⟨ChartMode.Mode_Single, none, ⟨⟨0, 10, ScaleType.stLinear⟩, ⟨0, 20, ScaleType.stLinear⟩⟩⟩
        4 5 10 false false = (5 - 1 / 2 / 2, 10 - 4 / 2, 5 + 1 / 2 / 2, 10 + 4 / 2) := by
  have h1 := (calculateLinePoints_linear samplePow id
    ⟨ChartMode.Mode_Single, none, ⟨⟨0, 10, ScaleType.stLinear⟩, ⟨0, 20, ScaleType.stLinear⟩⟩⟩
    1 5 10 (by norm_num [ChartLayout.activeRect, QCPAxis.size])
    (by norm_num [ChartLayout.activeRect, QCPAxis.size])).2.1
  have h4 := (calculateLinePoints_linear samplePow id
    ⟨ChartMode.Mode_Single, none, ⟨⟨0, 10, ScaleType.stLinear⟩, ⟨0, 20, ScaleType.stLinear⟩⟩⟩
    4 5 10 (by norm_num [ChartLayout.activeRect, QCPAxis.size])
    (by norm_num [ChartLayout.activeRect, QCPAxis.size])).2.1
  rw [h1, h4]
  norm_num [ChartLayout.activeRect, QCPAxis.size, abs_of_pos]

/-- The scenario table evaluates to the four retained samples. -/
theorem computePressureDrop_scenario :
    computePressureDrop 0 (100 : α) 0 1 [[1, 100], [2, 98], [4, 95], [8, 90], [16, 82]]
      = ([2, 4, 8, 16], [2, 5, 10, 18]) := by
  norm_num [computePressureDrop_eq, keepRow, cell, pressureDrop, shutIn, List.filter]

/-- C17: for the samples `[(1,100),(2,98),(4,95),(8,90),(16,82)]`, drawdown, reference pressure
100 and half-width 0.7, the sample at `t = 1` is dropped, the retained pressure-drop series is
exactly `[(2,2),(4,5),(8,10),(16,18)]`, the handler does not end in the warning branch but
stores a record, and the record's derivative series has exactly 4 values (for every `ln`,
smoothing flag and smoothing width). -/
theorem scenario_drawdown (ln : α → α) (w : Widget α) (dlg : PlottingDialog3 α)
    (hm : w.m_dataModel = some [[1, 100], [2, 98], [4, 95], [8, 90], [16, 82]])
    (ha : dlg.accepted = true) (hxc : dlg.getTimeColumn = 0) (hyc : dlg.getPressureColumn = 1)
    (htt : dlg.getTestType = 0) (hip : dlg.getInitialPressure = 100)
    (hls : dlg.getLSpacing = 7 / 10) :
    computePressureDrop 0 (100 : α) 0 1 [[1, 100], [2, 98], [4, 95], [8, 90], [16, 82]]
        = ([2, 4, 8, 16], [2, 5, 10, 18]) ∧
      (1 : α) ∉ ([2, 4, 8, 16] : List α) ∧
      (on_btn_Derivative_clicked ln w dlg).2 ≠ Outcome.insufficientData ∧
      (on_btn_Derivative_clicked ln w dlg).2 = Outcome.created ∧
      ∃ info, mapFind (on_btn_Derivative_clicked ln w dlg).1.m_curves dlg.getCurveName
          = some info ∧
        info.xData = [2, 4, 8, 16] ∧ info.yData = [2, 5, 10, 18] ∧
        info.LSpacing = 7 / 10 ∧ info.derivData.length = 4 := by
  have hx : (buildInfo ln dlg [[1, 100], [2, 98], [4, 95], [8, 90], [16, 82]]).xData
      = [2, 4, 8, 16] := by
    show (computePressureDrop dlg.getTestType dlg.getInitialPressure dlg.getTimeColumn
      dlg.getPressureColumn _).1 = _
    rw [htt, hip, hxc, hyc, computePressureDrop_scenario]
  have hy : (buildInfo ln dlg [[1, 100], [2, 98], [4, 95], [8, 90], [16, 82]]).yData
      = [2, 5, 10, 18] := by
    show (computePressureDrop dlg.getTestType dlg.getInitialPressure dlg.getTimeColumn
      dlg.getPressureColumn _).2 = _
    rw [htt, hip, hxc, hyc, computePressureDrop_scenario]
  have h3 : ¬ (buildInfo ln dlg [[1, 100], [2, 98], [4, 95], [8, 90], [16, 82]]).xData.length
      < 3 := by
    rw [hx]
    simp
  obtain ⟨hc, hins⟩ := (on_btn_Derivative_clicked_accepted ln w dlg _ hm ha).2 h3
  refine ⟨computePressureDrop_scenario, by norm_num, ?_, hc, buildInfo ln dlg _, ?_, hx, hy, hls,
    ?_⟩
  · rw [hc]
    decide
  · rw [hins]
    exact mapFind_mapInsert _ _ _
  · show (smooth _ _ (computeLogDerivative ln _ _ _)).length = 4
    rw [smooth_length, computeLogDerivative_length]
    show (buildInfo ln dlg _).xData.length = 4
    rw [hx]
    rfl

/-- Witness for `scenario_drawdown`: the sample widget and dialog. -/
theorem scenario_drawdown_witness :
    (on_btn_Derivative_clicked sampleLn (sampleWidget longTable) sampleDialog).2
        ≠ Outcome.insufficientData ∧
      ∃ info, mapFind (on_btn_Derivative_clicked sampleLn (sampleWidget longTable)
          sampleDialog).1.m_curves "derivative" = some info ∧
        info.xData = [2, 4, 8, 16] ∧ info.yData = [2, 5, 10, 18] ∧
        info.LSpacing = 7 / 10 ∧ info.derivData.length = 4 :=
  have h := scenario_drawdown sampleLn (sampleWidget longTable) sampleDialog rfl rfl rfl rfl
    rfl rfl rfl
  ⟨h.2.2.1, h.2.2.2.2⟩

/-- A loop that appends a row for the indices passing a test builds the filtered and mapped
index list. -/
theorem foldl_append_filter {γ : Type} (skip : Nat → Prop) [DecidablePred skip]
    (row : Nat → γ) (l : List Nat) (init : List γ) :
    l.foldl (fun (rows : List γ) (i : Nat) => if skip i then rows else rows ++ [row i]) init =
      init ++ (l.filter (fun i => decide (¬ skip i))).map row := by
  induction l generalizing init with
  | nil => simp
  | cons x xs ih =>
    rw [List.foldl_cons, ih]
    by_cases h : skip x
    · simp [h, List.filter_cons]
    · simp [h, List.filter_cons]

theorem exportRowsSingle_partial (start end_ : α) (info : CurveInfo α) :
    exportRowsSingle false start end_ info =
      ((List.range info.xData.length).filter
        (fun i => decide (start ≤ info.xData.getD i 0 ∧ info.xData.getD i 0 ≤ end_))).map
        (fun i => [info.xData.getD i 0 - start, info.yData.getD i 0, info.xData.getD i 0]) := by
  have h := foldl_append_filter
    (fun i => info.xData.getD i 0 < start ∨ info.xData.getD i 0 > end_)
    (fun i => [info.xData.getD i 0 - start, info.yData.getD i 0, info.xData.getD i 0])
    (List.range info.xData.length) []
  simp only [exportRowsSingle, true_and, Bool.false_eq_true, if_false]
  rw [h, List.nil_append]
  congr 1
  apply List.filter_congr
  intro i _
  simp [not_or, not_lt]

theorem exportRowsStacked_partial (start end_ : α) (info : CurveInfo α) :
    exportRowsStacked false start end_ info =
      ((List.range info.xData.length).filter
        (fun i => decide (start ≤ info.xData.getD i 0 ∧ info.xData.getD i 0 ≤ end_))).map
        (fun i => [info.xData.getD i 0 - start, info.yData.getD i 0,
          getProductionValueAt (info.xData.getD i 0) info, info.xData.getD i 0]) := by
  have h := foldl_append_filter
    (fun i => info.xData.getD i 0 < start ∨ info.xData.getD i 0 > end_)
    (fun i => [info.xData.getD i 0 - start, info.yData.getD i 0,
      getProductionValueAt (info.xData.getD i 0) info, info.xData.getD i 0])
    (List.range info.xData.length) []
  simp only [exportRowsStacked, true_and, Bool.false_eq_true, if_false]
  rw [h, List.nil_append]
  congr 1
  apply List.filter_congr
  intro i _
  simp [not_or, not_lt]

theorem exportRowsSingle_full (start end_ : α) (info : CurveInfo α) :
    exportRowsSingle true start end_ info =
      (List.range info.xData.length).map
        (fun i => [info.xData.getD i 0, info.yData.getD i 0]) := by
  simp only [exportRowsSingle, Bool.true_eq_false, false_and, if_false, if_true]
  rw [foldl_append_singleton, List.nil_append]

theorem exportRowsStacked_full (start end_ : α) (info : CurveInfo α) :
    exportRowsStacked true start end_ info =
      (List.range info.xData.length).map
        (fun i => [info.xData.getD i 0, info.yData.getD i 0,
          getProductionValueAt (info.xData.getD i 0) info]) := by
  simp only [exportRowsStacked, Bool.true_eq_false, false_and, if_false, if_true]
  rw [foldl_append_singleton, List.nil_append]
/-- C18: when a file is chosen and opened and the displayed curve is stored, a partial export
over `[start, end]` writes exactly the samples with `start ≤ t ≤ end`, in series order, each
row carrying the offset time `t - start` (between 0 and `end - start`), the value(s) and the
original time `t`; a full-range export writes every sample once, in order, with its original
time first and no offset column. -/
theorem executeExport_rows (w : Widget α) (file : String) (mode : ChartMode) (start end_ : α)
    (info : CurveInfo α) (hf : file.isEmpty = false)
    (hc : mapFind w.m_curves w.m_currentDisplayedCurve = some info) :
    (∃ out, (executeExport w file true mode false start end_).2 = some out ∧
        out.rows = ((List.range info.xData.length).filter
            (fun i => decide (start ≤ info.xData.getD i 0 ∧ info.xData.getD i 0 ≤ end_))).map
          (fun i => if mode = ChartMode.Mode_Stacked
            then [info.xData.getD i 0 - start, info.yData.getD i 0,
              getProductionValueAt (info.xData.getD i 0) info, info.xData.getD i 0]
            else [info.xData.getD i 0 - start, info.yData.getD i 0, info.xData.getD i 0]) ∧
        (∀ row ∈ out.rows, 0 ≤ row.headD 0 ∧ row.headD 0 ≤ end_ - start)) ∧
      (∃ out, (executeExport w file true mode true start end_).2 = some out ∧
        out.rows = (List.range info.xData.length).map
          (fun i => if mode = ChartMode.Mode_Stacked
            then [info.xData.getD i 0, info.yData.getD i 0,
              getProductionValueAt (info.xData.getD i 0) info]
            else [info.xData.getD i 0, info.yData.getD i 0])) := by
  have hoff : ∀ (rows : List (List α)) (f : Nat → List α),
      (∀ i, (f i).headD 0 = info.xData.getD i 0 - start) →
      rows = ((List.range info.xData.length).filter
        (fun i => decide (start ≤ info.xData.getD i 0 ∧ info.xData.getD i 0 ≤ end_))).map f →
      ∀ row ∈ rows, 0 ≤ row.headD 0 ∧ row.headD 0 ≤ end_ - start := by
    intro rows f hfh hrows row hrow
    rw [hrows] at hrow
    obtain ⟨i, hi, rfl⟩ := List.mem_map.mp hrow
    have hk := (List.mem_filter.mp hi).2
    simp only [decide_eq_true_eq] at hk
    rw [hfh]
    exact ⟨by linarith [hk.1], by linarith [hk.2]⟩
  have hres : ∀ fr : Bool, ∃ out, (executeExport w file true mode fr start end_).2 = some out ∧
      out.rows = if mode = ChartMode.Mode_Stacked then exportRowsStacked fr start end_ info
        else exportRowsSingle fr start end_ info := by
    intro fr
    by_cases hmode : mode = ChartMode.Mode_Stacked
    · simp [executeExport, hf, hc, hmode]
    · simp [executeExport, hf, hc, hmode]
  obtain ⟨outP, hoP, hrP⟩ := hres false
  obtain ⟨outF, hoF, hrF⟩ := hres true
  have hP : outP.rows = ((List.range info.xData.length).filter
      (fun i => decide (start ≤ info.xData.getD i 0 ∧ info.xData.getD i 0 ≤ end_))).map
      (fun i => if mode = ChartMode.Mode_Stacked
        then [info.xData.getD i 0 - start, info.yData.getD i 0,
          getProductionValueAt (info.xData.getD i 0) info, info.xData.getD i 0]
        else [info.xData.getD i 0 - start, info.yData.getD i 0, info.xData.getD i 0]) := by
    rw [hrP]
    by_cases hmode : mode = ChartMode.Mode_Stacked
    · simp only [hmode, if_true, exportRowsStacked_partial]
    · simp only [hmode, if_false, exportRowsSingle_partial]
  have hF : outF.rows = (List.range info.xData.length).map
      (fun i => if mode = ChartMode.Mode_Stacked
        then [info.xData.getD i 0, info.yData.getD i 0,
          getProductionValueAt (info.xData.getD i 0) info]
        else [info.xData.getD i 0, info.yData.getD i 0]) := by
    rw [hrF]
    by_cases hmode : mode = ChartMode.Mode_Stacked
    · simp only [hmode, if_true, exportRowsStacked_full]
    · simp only [hmode, if_false, exportRowsSingle_full]
  refine ⟨⟨outP, hoP, hP, ?_⟩, ⟨outF, hoF, hF⟩⟩
  refine hoff _ _ ?_ hP
  intro i
  by_cases hmode : mode = ChartMode.Mode_Stacked
  · simp [hmode]
  · simp [hmode]

/-- Witness for `executeExport_rows`: a partial export of the sample curve over `[2, 8]`. -/
theorem executeExport_rows_witness :
    ∃ out, (executeExport exportWidget "export.csv" true ChartMode.Mode_Single false 2 8).2
        = some out ∧
      out.rows = [[0, 98, 2], [2, 95, 4], [6, 90, 8]] := by
  obtain ⟨out, h1, h2, _⟩ := (executeExport_rows exportWidget "export.csv" ChartMode.Mode_Single
    2 8 sampleCurve (by decide) (by decide)).1
  refine ⟨out, h1, ?_⟩
  rw [h2]
  norm_num [sampleCurve, CurveInfo.fresh, List.range, List.range.loop, List.filter]
  decide

theorem findTextHit_eq_none (env : PlotEnv α) (pos : α × α) (items : List (PlotItem α)) :
    findTextHit env pos items = none ↔ ∀ it ∈ items, isTextHit env pos it = false := by
  induction items with
  | nil => simp [findTextHit]
  | cons it rest ih =>
    cases hk : it.kind with
    | text t =>
      by_cases h : env.selectTest t pos < 8
      · simp [findTextHit, isTextHit, hk, h]
      · simp [findTextHit, isTextHit, hk, h, ih]
    | line l c => simp [findTextHit, isTextHit, hk, ih]
    | other => simp [findTextHit, isTextHit, hk, ih]

theorem findTextHit_some_mem (env : PlotEnv α) (pos : α × α) (items : List (PlotItem α))
    (id : Nat) (h : findTextHit env pos items = some id) :
    ∃ it ∈ items, it.id = id ∧ isTextHit env pos it = true := by
  induction items with
  | nil => simp [findTextHit] at h
  | cons it rest ih =>
    cases hk : it.kind with
    | text t =>
      by_cases hh : env.selectTest t pos < 8
      · simp only [findTextHit, hk, hh, if_true, Option.some.injEq] at h
        exact ⟨it, List.mem_cons_self _ _, h, by simp [isTextHit, hk, hh]⟩
      · simp only [findTextHit, hk, hh, if_false] at h
        obtain ⟨x, hx, hx2⟩ := ih h
        exact ⟨x, List.mem_cons_of_mem _ hx, hx2⟩
    | line l c =>
      simp only [findTextHit, hk] at h
      obtain ⟨x, hx, hx2⟩ := ih h
      exact ⟨x, List.mem_cons_of_mem _ hx, hx2⟩
    | other =>
      simp only [findTextHit, hk] at h
      obtain ⟨x, hx, hx2⟩ := ih h
      exact ⟨x, List.mem_cons_of_mem _ hx, hx2⟩

theorem findArrowHit_eq_none (env : PlotEnv α) (pos : α × α) (items : List (PlotItem α)) :
    findArrowHit env pos items = none ↔
      ∀ it ∈ items, isEndpointHit env pos false it = false := by
  induction items with
  | nil => simp [findArrowHit]
  | cons it rest ih =>
    cases hk : it.kind with
    | text t => simp [findArrowHit, isEndpointHit, hk, ih]
    | line l c =>
      cases c with
      | true => simp [findArrowHit, isEndpointHit, hk, ih]
      | false =>
        by_cases h1 : pixelDist env pos l.start < 8
        · simp [findArrowHit, isEndpointHit, hk, h1]
        · by_cases h2 : pixelDist env pos l.end_ < 8
          · simp [findArrowHit, isEndpointHit, hk, h1, h2]
          · simp [findArrowHit, isEndpointHit, hk, h1, h2, ih]
    | other => simp [findArrowHit, isEndpointHit, hk, ih]

theorem findArrowHit_some_mode (env : PlotEnv α) (pos : α × α) (items : List (PlotItem α))
    (mode : InteractionMode) (id : Nat) (h : findArrowHit env pos items = some (mode, id)) :
    mode = InteractionMode.Mode_Dragging_ArrowStart ∨
      mode = InteractionMode.Mode_Dragging_ArrowEnd := by
  induction items with
  | nil => simp [findArrowHit] at h
  | cons it rest ih =>
    cases hk : it.kind with
    | text t =>
      simp only [findArrowHit, hk] at h
      exact ih h
    | line l c =>
      cases c with
      | true =>
        simp only [findArrowHit, hk] at h
        exact ih h
      | false =>
        by_cases h1 : pixelDist env pos l.start < 8
        · simp only [findArrowHit, hk, h1, if_true, Option.some.injEq, Prod.mk.injEq] at h
          exact Or.inl h.1.symm
        · by_cases h2 : pixelDist env pos l.end_ < 8
          · simp only [findArrowHit, hk, h1, h2, if_true, if_false, Option.some.injEq,
              Prod.mk.injEq] at h
            exact Or.inr h.1.symm
          · simp only [findArrowHit, hk, h1, h2, if_false] at h
            exact ih h
    | other =>
      simp only [findArrowHit, hk] at h
      exact ih h

/-- Stage 3 of the press handler returns the first characteristic line, in item order, that
has an endpoint or its body within the tolerance, with the mode of that line. -/
theorem findLineHit_eq_find (env : PlotEnv α) (pos : α × α) (items : List (PlotItem α)) :
    findLineHit env pos items =
      (items.find? (fun it => isEndpointHit env pos true it || isBodyHit env pos it)).map
        (fun it => (lineMode env pos it, it.id)) := by
  induction items with
  | nil => simp [findLineHit]
  | cons it rest ih =>
    cases hk : it.kind with
    | text t => simp [findLineHit, isEndpointHit, isBodyHit, hk, ih, List.find?_cons]
    | line l c =>
      cases c with
      | false => simp [findLineHit, isEndpointHit, isBodyHit, hk, ih, List.find?_cons]
      | true =>
        by_cases h1 : pixelDist env pos l.start < 8
        · simp [findLineHit, isEndpointHit, isBodyHit, lineMode, hk, h1, List.find?_cons]
        · by_cases h2 : pixelDist env pos l.end_ < 8
          · simp [findLineHit, isEndpointHit, isBodyHit, lineMode, hk, h1, h2, List.find?_cons]
          · by_cases h3 : distToSegment env.sqrt pos (toPixel env l.start) (toPixel env l.end_) < 8
            · simp [findLineHit, isEndpointHit, isBodyHit, lineMode, hk, h1, h2, h3,
                List.find?_cons]
            · simp [findLineHit, isEndpointHit, isBodyHit, hk, h1, h2, h3, ih, List.find?_cons]
    | other => simp [findLineHit, isEndpointHit, isBodyHit, hk, ih, List.find?_cons]

/-- C13 (as amended): on a left-button press with tolerance 8 px the mode is `DraggingText` if
any text is within tolerance; otherwise `DraggingArrowStart` or `DraggingArrowEnd` if an
endpoint of any non-characteristic line is within tolerance; otherwise, if some characteristic
line has an endpoint or its body within tolerance, the mode is decided by the first such line
in item order alone (`DraggingLineStart` if its start is within tolerance, else
`DraggingLineEnd` if its end is, else `DraggingLine`); otherwise `None`. -/
theorem onPlotMousePress_mode (env : PlotEnv α) (w : ChartWidget α) (event : QMouseEvent α)
    (hl : event.button = MouseButton.LeftButton) :
    (let mode := (onPlotMousePress env w event).m_interMode
     let noText := ∀ it ∈ w.items, isTextHit env event.pos it = false
     let noArrow := ∀ it ∈ w.items, isEndpointHit env event.pos false it = false
     ((∃ it ∈ w.items, isTextHit env event.pos it = true) →
        mode = InteractionMode.Mode_Dragging_Text) ∧
      (noText → (∃ it ∈ w.items, isEndpointHit env event.pos false it = true) →
        mode = InteractionMode.Mode_Dragging_ArrowStart ∨
          mode = InteractionMode.Mode_Dragging_ArrowEnd) ∧
      (noText → noArrow → ∀ it,
        w.items.find? (fun it => isEndpointHit env event.pos true it ||
          isBodyHit env event.pos it) = some it →
        mode = lineMode env event.pos it) ∧
      (noText → noArrow →
        (∀ it ∈ w.items, isEndpointHit env event.pos true it = false ∧
          isBodyHit env event.pos it = false) →
        mode = InteractionMode.Mode_None)) := by
  intro mode noText noArrow
  have hb : ¬ event.button ≠ MouseButton.LeftButton := by simp [hl]
  refine ⟨?_, ?_, ?_, ?_⟩
  · rintro ⟨it, hit, hhit⟩
    cases hf : findTextHit env event.pos w.items with
    | none =>
      have := (findTextHit_eq_none env event.pos w.items).mp hf it hit
      rw [this] at hhit
      exact absurd hhit (by decide)
    | some id =>
      show (onPlotMousePress env w event).m_interMode = _
      simp only [onPlotMousePress, hb, if_false, hf]
  · intro hnt ⟨it, hit, hhit⟩
    have hf := (findTextHit_eq_none env event.pos w.items).mpr hnt
    cases ha : findArrowHit env event.pos w.items with
    | none =>
      have := (findArrowHit_eq_none env event.pos w.items).mp ha it hit
      rw [this] at hhit
      exact absurd hhit (by decide)
    | some r =>
      obtain ⟨m, id⟩ := r
      have hm := findArrowHit_some_mode env event.pos w.items m id ha
      show (onPlotMousePress env w event).m_interMode = _ ∨
        (onPlotMousePress env w event).m_interMode = _
      simp only [onPlotMousePress, hb, if_false, hf, ha]
      exact hm
  · intro hnt hna it hfind
    have hf := (findTextHit_eq_none env event.pos w.items).mpr hnt
    have ha := (findArrowHit_eq_none env event.pos w.items).mpr hna
    have hline := findLineHit_eq_find env event.pos w.items
    rw [hfind] at hline
    show (onPlotMousePress env w event).m_interMode = _
    simp only [onPlotMousePress, hb, if_false, hf, ha, hline, Option.map_some']
  · intro hnt hna hnl
    have hf := (findTextHit_eq_none env event.pos w.items).mpr hnt
    have ha := (findArrowHit_eq_none env event.pos w.items).mpr hna
    have hline := findLineHit_eq_find env event.pos w.items
    have hnone : w.items.find? (fun it => isEndpointHit env event.pos true it ||
        isBodyHit env event.pos it) = none := by
      rw [List.find?_eq_none]
      intro it hit
      simp [(hnl it hit).1, (hnl it hit).2]
    rw [hnone] at hline
    show (onPlotMousePress env w event).m_interMode = _
    simp only [onPlotMousePress, hb, if_false, hf, ha, hline, Option.map_none']
/-- The tolerance test on a real square root. -/
theorem real_sqrt_lt_eight (x : ℝ) : Real.sqrt x < 8 ↔ x < 64 := by
  rw [Real.sqrt_lt' (by norm_num : (0 : ℝ) < 8)]
  norm_num

/-- C13 as stated fails: with the real square root, pixel = plot coordinates, no text and no
arrow, the first characteristic line from `(0, 0)` to `(100, 0)` and the second from `(50, 3)`
to `(50, 100)`, a left press at `(50, 0)` is 3 px from the start of the second line, so an
endpoint of a characteristic line is within tolerance; the handler nevertheless ends in
`DraggingLine`, because the body of the first line is tested before the second line. -/
theorem onPlotMousePress_counterexample :
    (∀ it ∈ crossingLines ℝ,
        isTextHit ⟨Real.sqrt, id, id, fun _ _ => 0⟩ (50, 0) it = false ∧
        isEndpointHit ⟨Real.sqrt, id, id, fun _ _ => 0⟩ (50, 0) false it = false) ∧
      (∃ it ∈ crossingLines ℝ,
        isEndpointHit ⟨Real.sqrt, id, id, fun _ _ => 0⟩ (50, 0) true it = true) ∧
      (onPlotMousePress ⟨Real.sqrt, id, id, fun _ _ => 0⟩ (idleChart (crossingLines ℝ))
        ⟨MouseButton.LeftButton, (50, 0)⟩).m_interMode = InteractionMode.Mode_Dragging_Line := by
  refine ⟨?_, ?_, ?_⟩
  · intro it hit
    simp only [crossingLines, List.mem_cons, List.mem_singleton, List.not_mem_nil, or_false] at hit
    rcases hit with rfl | rfl <;> simp [isTextHit, isEndpointHit]
  · refine ⟨⟨2, false, ItemKind.line ⟨(50, 3), (50, 100), 1, true⟩ true⟩, by simp [crossingLines],
      ?_⟩
    simp only [isEndpointHit, pixelDist, real_sqrt_lt_eight, id]
    norm_num
  · simp only [onPlotMousePress, idleChart, crossingLines, findTextHit, findArrowHit,
      findLineHit, pixelDist, distToSegment, toPixel, real_sqrt_lt_eight, id]
    norm_num [real_sqrt_lt_eight]

/-- Witness for `onPlotMousePress_mode`: the same press evaluated over `ℚ`; the first line
that is hit is the first item, only its body is within tolerance. -/
theorem onPlotMousePress_mode_witness :
    (onPlotMousePress sampleEnv (idleChart (crossingLines ℚ))
      ⟨MouseButton.LeftButton, (50, 0)⟩).m_interMode = InteractionMode.Mode_Dragging_Line := by
  have h := (onPlotMousePress_mode sampleEnv (idleChart (crossingLines ℚ))
    ⟨MouseButton.LeftButton, (50, 0)⟩ rfl).2.2.1
  have h1 : ∀ it ∈ (idleChart (crossingLines ℚ)).items,
      isTextHit sampleEnv (50, 0) it = false := by
    intro it hit
    simp only [idleChart, crossingLines, List.mem_cons, List.mem_singleton, List.not_mem_nil,
      or_false] at hit
    rcases hit with rfl | rfl <;> simp [isTextHit]
  have h2 : ∀ it ∈ (idleChart (crossingLines ℚ)).items,
      isEndpointHit sampleEnv (50, 0) false it = false := by
    intro it hit
    simp only [idleChart, crossingLines, List.mem_cons, List.mem_singleton, List.not_mem_nil,
      or_false] at hit
    rcases hit with rfl | rfl <;> simp [isEndpointHit]
  have h3 := h h1 h2 ⟨1, false, ItemKind.line ⟨(0, 0), (100, 0), 1, true⟩ true⟩
    (by norm_num [idleChart, crossingLines, List.find?, isEndpointHit, isBodyHit, pixelDist,
      distToSegment, toPixel, sampleEnv, sampleSqrt])
  rw [h3]
  norm_num [lineMode, pixelDist, sampleEnv, sampleSqrt]

theorem hexVal_digitChar (n : Nat) (h : n < 16) : hexVal (Nat.digitChar n) = some n := by
  interval_cases n <;> decide

/-- A colour with 8-bit channels comes back from its name valid and opaque. -/
theorem fromString_name (c : QColor) (h : c.IsRgb) :
    QColor.fromString c.name = c.solid := by
  obtain ⟨hr, hg, hb⟩ := h
  simp only [QColor.fromString, QColor.name,
    hexVal_digitChar _ (Nat.div_lt_of_lt_mul (show c.red < 16 * 16 from hr)),
    hexVal_digitChar _ (Nat.mod_lt c.red (by decide : 16 > 0)),
    hexVal_digitChar _ (Nat.div_lt_of_lt_mul (show c.green < 16 * 16 from hg)),
    hexVal_digitChar _ (Nat.mod_lt c.green (by decide : 16 > 0)),
    hexVal_digitChar _ (Nat.div_lt_of_lt_mul (show c.blue < 16 * 16 from hb)),
    hexVal_digitChar _ (Nat.mod_lt c.blue (by decide : 16 > 0)),
    Nat.div_add_mod, QColor.solid]

theorem jsonToVector_vectorToJson (vec : List α) :
    jsonToVector (vectorToJson vec).toArray = vec := by
  simp [jsonToVector, vectorToJson, QJsonValue.toArray, foldl_append_singleton,
    QJsonScalar.toDouble, Function.comp_def]

/-- The right end of every window is an index of the series. -/
theorem windowRight_lt_length (ln : α → α) (t : List α) (halfWidth : α) (i : Nat)
    (hi : i < t.length) : windowRight ln t halfWidth i < t.length := by
  obtain ⟨h1, h2, _⟩ := windowRight_isWindowRight ln t halfWidth i
  rcases Nat.eq_or_lt_of_le h1 with heq | hlt
  · rw [← heq]
    exact hi
  · have := (h2 (windowRight ln t halfWidth i - 1) (by omega) (by omega)).1
    omega

/-- With more fuel than `xData.length` the right scan returns the same index: the loop of line
443 has terminated. -/
theorem scanRight_fuel_irrelevant (ln : α → α) (xData : List α) (hi : α) (fuel r : Nat)
    (hf : xData.length ≤ r + fuel + 1) :
    scanRight ln xData hi (fuel + 1) r = scanRight ln xData hi fuel r := by
  induction fuel generalizing r with
  | zero =>
    have hc : ¬ ((r : Int) < (xData.length : Int) - 1 ∧ ln (xData.getD r 0) < hi) := by
      intro h
      omega
    simp only [scanRight, hc, if_false]
  | succ fuel ih =>
    by_cases hc : (r : Int) < (xData.length : Int) - 1 ∧ ln (xData.getD r 0) < hi
    · have h1 : scanRight ln xData hi (fuel + 1 + 1) r
          = scanRight ln xData hi (fuel + 1) (r + 1) := by
        rw [scanRight, if_pos hc]
      have h2 : scanRight ln xData hi (fuel + 1) r = scanRight ln xData hi fuel (r + 1) := by
        rw [scanRight, if_pos hc]
      rw [h1, h2]
      exact ih (r + 1) (by omega)
    · have h1 : scanRight ln xData hi (fuel + 1 + 1) r = r := by
        rw [scanRight, if_neg hc]
      have h2 : scanRight ln xData hi (fuel + 1) r = r := by
        rw [scanRight, if_neg hc]
      rw [h1, h2]

/-- C26: for every series, every half-width and every index `i < n`, both window scans of the
derivative loop terminate (the left scan is a recursion on `l`; the right scan stops within
`n` iterations, its result does not change with more fuel and fails the loop test) with
`0 ≤ l ≤ i ≤ r ≤ n - 1`, so `t[l]`, `t[r]` are read within bounds, and so are `Δp[l]`, `Δp[r]`
for a pressure-drop series of the same length. -/
theorem window_in_bounds (ln : α → α) (t dp : List α) (halfWidth : α) (i : Nat)
    (hi : i < t.length) (hlen : dp.length = t.length) :
    (let l := windowLeft ln t halfWidth i
     let r := windowRight ln t halfWidth i
     0 ≤ l ∧ l ≤ i ∧ i ≤ r ∧ r ≤ t.length - 1 ∧
      l < t.length ∧ r < t.length ∧ l < dp.length ∧ r < dp.length ∧
      (∀ extra : Nat, scanRight ln t (ln (t.getD i 0) + halfWidth) (t.length + extra) i = r) ∧
      ¬ ((r : Int) < (t.length : Int) - 1 ∧ ln (t.getD r 0) < ln (t.getD i 0) + halfWidth) ∧
      ¬ (0 < l ∧ ln (t.getD l 0) > ln (t.getD i 0) - halfWidth)) := by
  intro l r
  have hl := windowLeft_isWindowLeft ln t halfWidth i
  have hr := windowRight_isWindowRight ln t halfWidth i
  have hrn := windowRight_lt_length ln t halfWidth i hi
  have hl1 : l ≤ i := hl.1
  have hr1 : i ≤ r := hr.1
  have hrn' : r < t.length := hrn
  refine ⟨Nat.zero_le _, hl1, hr1, by omega, by omega, hrn', by omega, by omega, ?_,
    scanRight_stops ln t halfWidth i, hl.2.2⟩
  intro extra
  induction extra with
  | zero => rfl
  | succ e ih =>
    rw [← ih]
    exact scanRight_fuel_irrelevant ln t _ (t.length + e) i (by omega)

/-- Witness for `window_in_bounds`: index 1 of the four retained sample points. -/
theorem window_in_bounds_witness :
    windowLeft sampleLn [2, 4, 8, 16] (7 / 10) 1 ≤ 1 ∧
      1 ≤ windowRight sampleLn [2, 4, 8, 16] (7 / 10) 1 ∧
      windowRight sampleLn [2, 4, 8, 16] (7 / 10) 1 ≤ 3 :=
  have h := window_in_bounds sampleLn [2, 4, 8, 16] [2, 5, 10, 18] (7 / 10) 1 (by decide) rfl
  ⟨h.2.1, h.2.2.1, h.2.2.2.1⟩

/-- In a strictly increasing series a later index holds a larger time. -/
theorem strictlyIncreasing_lt (t : List α) (h : StrictlyIncreasing t) (j k : Nat)
    (hjk : j < k) (hk : k < t.length) : t.getD j 0 < t.getD k 0 := by
  induction k with
  | zero => omega
  | succ k ih =>
    rcases Nat.eq_or_lt_of_le (Nat.lt_succ_iff.mp hjk) with heq | hlt
    · rw [heq]
      exact h k hk
    · exact lt_trans (ih hlt (by omega)) (h k hk)

/-- On a strictly increasing positive series the log-times are strictly increasing. -/
theorem ln_lt_of_lt (ln : α → α) (t : List α) (hln : LogMonotone ln)
    (hinc : StrictlyIncreasing t) (hpos : AllPositive t) (j k : Nat) (hjk : j < k)
    (hk : k < t.length) : ln (t.getD j 0) < ln (t.getD k 0) :=
  hln _ _ (hpos j (by omega)) (strictlyIncreasing_lt t hinc j k hjk hk)

theorem ln_le_of_le (ln : α → α) (t : List α) (hln : LogMonotone ln)
    (hinc : StrictlyIncreasing t) (hpos : AllPositive t) (j k : Nat) (hjk : j ≤ k)
    (hk : k < t.length) : ln (t.getD j 0) ≤ ln (t.getD k 0) := by
  rcases Nat.eq_or_lt_of_le hjk with heq | hlt
  · rw [heq]
  · exact (ln_lt_of_lt ln t hln hinc hpos j k hlt hk).le

/-- With a positive half-width the left scan leaves every index but the first. -/
theorem windowLeft_lt (ln : α → α) (t : List α) (halfWidth : α) (i : Nat)
    (hw : 0 < halfWidth) (hi : 0 < i) : windowLeft ln t halfWidth i < i := by
  obtain ⟨h1, _, h3⟩ := windowLeft_isWindowLeft ln t halfWidth i
  rcases Nat.eq_or_lt_of_le h1 with heq | hlt
  · exfalso
    apply h3
    rw [heq]
    exact ⟨hi, by linarith⟩
  · exact hlt

/-- With a positive half-width the right scan leaves every index but the last. -/
theorem windowRight_gt (ln : α → α) (t : List α) (halfWidth : α) (i : Nat)
    (hw : 0 < halfWidth) (hi : i + 1 < t.length) : i < windowRight ln t halfWidth i := by
  obtain ⟨h1, _, h3⟩ := windowRight_isWindowRight ln t halfWidth i
  rcases Nat.eq_or_lt_of_le h1 with heq | hlt
  · exfalso
    apply h3
    rw [← heq]
    exact ⟨hi, by linarith⟩
  · exact hlt

/-- C27: for a positive half-width and a series of `n ≥ 2` points, the window of every index
`i` has `l ≤ i - 1` whenever `i > 0` and `r ≥ i + 1` whenever `i < n - 1`, so `l < r`; when the
times are positive and strictly increasing (and `ln` is increasing, as the logarithm is) the
denominator `ln t[r] - ln t[l]` is strictly positive. -/
theorem window_spans_two (ln : α → α) (t : List α) (halfWidth : α) (i : Nat)
    (hw : 0 < halfWidth) (hn : 2 ≤ t.length) (hi : i < t.length) :
    (let l := windowLeft ln t halfWidth i
     let r := windowRight ln t halfWidth i
     (0 < i → l ≤ i - 1) ∧ (i < t.length - 1 → i + 1 ≤ r) ∧ l < r ∧
      (LogMonotone ln → StrictlyIncreasing t → AllPositive t →
        0 < ln (t.getD r 0) - ln (t.getD l 0))) := by
  intro l r
  have hl1 : l ≤ i := (windowLeft_isWindowLeft ln t halfWidth i).1
  have hr1 : i ≤ r := (windowRight_isWindowRight ln t halfWidth i).1
  have hL : 0 < i → l ≤ i - 1 := by
    intro h0
    have := windowLeft_lt ln t halfWidth i hw h0
    show windowLeft ln t halfWidth i ≤ i - 1
    omega
  have hR : i < t.length - 1 → i + 1 ≤ r := by
    intro h1
    exact windowRight_gt ln t halfWidth i hw (by omega)
  have hlr : l < r := by
    rcases Nat.eq_zero_or_pos i with h0 | h0
    · have := hR (by omega)
      omega
    · have := hL h0
      omega
  refine ⟨hL, hR, hlr, ?_⟩
  intro hln hinc hpos
  have := ln_lt_of_lt ln t hln hinc hpos l r hlr (windowRight_lt_length ln t halfWidth i hi)
  linarith

/-- Witness for `window_spans_two`: index 1 of the four retained sample points. -/
theorem window_spans_two_witness :
    windowLeft sampleLn [2, 4, 8, 16] (7 / 10) 1 < windowRight sampleLn [2, 4, 8, 16] (7 / 10) 1 :=
  (window_spans_two sampleLn [2, 4, 8, 16] (7 / 10) 1 (by norm_num) (by decide)
    (by decide)).2.2.1

/-- C28: for a half-width `≤ 0` the window of every index `i` is `l = r = i`, and the
derivative loop returns 0 at every index, whatever the pressure drops are (and whatever the
times are). -/
theorem nonpositive_halfWidth_zero (ln : α → α) (t dp : List α) (halfWidth : α)
    (hw : halfWidth ≤ 0) :
    (∀ i, windowLeft ln t halfWidth i = i ∧ windowRight ln t halfWidth i = i) ∧
      computeLogDerivative ln t dp halfWidth = List.replicate t.length 0 := by
  have hlr : ∀ i, windowLeft ln t halfWidth i = i ∧ windowRight ln t halfWidth i = i := by
    intro i
    obtain ⟨h1, h2, _⟩ := windowLeft_isWindowLeft ln t halfWidth i
    obtain ⟨g1, g2, _⟩ := windowRight_isWindowRight ln t halfWidth i
    constructor
    · rcases Nat.eq_or_lt_of_le h1 with heq | hlt
      · exact heq
      · have := h2 i hlt (le_refl _)
        exfalso
        linarith
    · rcases Nat.eq_or_lt_of_le g1 with heq | hlt
      · exact heq.symm
      · have := (g2 i (le_refl _) hlt).2
        exfalso
        linarith
  refine ⟨hlr, ?_⟩
  rw [computeLogDerivative_eq_map]
  apply List.ext_getElem
  · simp
  · intro i h1 h2
    simp only [List.getElem_map, List.getElem_range, List.getElem_replicate]
    simp only [derivAt, (hlr i).1, (hlr i).2, sub_self, abs_zero]
    norm_num

/-- Witness for `nonpositive_halfWidth_zero`: half-width 0 on the retained sample points. -/
theorem nonpositive_halfWidth_zero_witness :
    computeLogDerivative sampleLn [2, 4, 8, 16] [2, 5, 10, 18] 0 = [0, 0, 0, 0] :=
  (nonpositive_halfWidth_zero sampleLn [2, 4, 8, 16] [2, 5, 10, 18] 0 (le_refl _)).2

/-- C21 (as amended): for a series with strictly increasing positive times and a positive
half-width, the window of an interior index `0 < i < n - 1` has `l < i < r` and its
denominator is at least `ln t[i+1] - ln t[i-1] > 0`; hence the zero fallback does not occur at
an interior index whose two neighbours are more than `1e-6` apart in log-time, where the
derivative is the quotient. -/
theorem interior_no_fallback (ln : α → α) (t dp : List α) (halfWidth : α) (i : Nat)
    (hln : LogMonotone ln) (hinc : StrictlyIncreasing t) (hpos : AllPositive t)
    (hw : 0 < halfWidth) (hi0 : 0 < i) (hi1 : i + 1 < t.length) :
    (let l := windowLeft ln t halfWidth i
     let r := windowRight ln t halfWidth i
     l < i ∧ i < r ∧
      0 < ln (t.getD (i + 1) 0) - ln (t.getD (i - 1) 0) ∧
      ln (t.getD (i + 1) 0) - ln (t.getD (i - 1) 0) ≤ ln (t.getD r 0) - ln (t.getD l 0) ∧
      (ln (t.getD (i + 1) 0) - ln (t.getD (i - 1) 0) > 1 / 1000000 →
        |ln (t.getD r 0) - ln (t.getD l 0)| > 1 / 1000000 ∧
        derivAt ln t dp halfWidth i =
          (dp.getD r 0 - dp.getD l 0) / (ln (t.getD r 0) - ln (t.getD l 0)))) := by
  intro l r
  have hl : l < i := windowLeft_lt ln t halfWidth i hw hi0
  have hr : i < r := windowRight_gt ln t halfWidth i hw hi1
  have hrn : r < t.length := windowRight_lt_length ln t halfWidth i (by omega)
  have hgap : 0 < ln (t.getD (i + 1) 0) - ln (t.getD (i - 1) 0) := by
    have := ln_lt_of_lt ln t hln hinc hpos (i - 1) (i + 1) (by omega) hi1
    linarith
  have hlo : ln (t.getD l 0) ≤ ln (t.getD (i - 1) 0) :=
    ln_le_of_le ln t hln hinc hpos l (i - 1) (by omega) (by omega)
  have hhi : ln (t.getD (i + 1) 0) ≤ ln (t.getD r 0) :=
    ln_le_of_le ln t hln hinc hpos (i + 1) r (by omega) hrn
  refine ⟨hl, hr, hgap, by linarith, ?_⟩
  intro hbig
  have hden : |ln (t.getD r 0) - ln (t.getD l 0)| > 1 / 1000000 := by
    rw [abs_of_pos (by linarith)]
    linarith
  refine ⟨hden, ?_⟩
  show (if |ln (t.getD r 0) - ln (t.getD l 0)| > 1 / 1000000 then _ else _) = _
  rw [if_pos hden]

/-- Witness for `interior_no_fallback`: the times 1, 2, 4 with the identity in the place of
`ln` (an increasing function) and half-width 1/2. -/
theorem interior_no_fallback_witness :
    derivAt (fun x : ℚ => x) [1, 2, 4] [2, 5, 10] (1 / 2) 1 =
      ((([2, 5, 10] : List ℚ).getD (windowRight (fun x : ℚ => x) [1, 2, 4] (1 / 2) 1) 0) -
        (([2, 5, 10] : List ℚ).getD (windowLeft (fun x : ℚ => x) [1, 2, 4] (1 / 2) 1) 0)) /
      ((([1, 2, 4] : List ℚ).getD (windowRight (fun x : ℚ => x) [1, 2, 4] (1 / 2) 1) 0) -
        (([1, 2, 4] : List ℚ).getD (windowLeft (fun x : ℚ => x) [1, 2, 4] (1 / 2) 1) 0)) :=
  ((interior_no_fallback (fun x : ℚ => x) [1, 2, 4] [2, 5, 10] (1 / 2) 1
    (fun _ _ _ h => h)
    (by
      intro j hj
      have h2 : j < 2 := by
        have h := hj
        simp only [List.length_cons, List.length_nil] at h
        omega
      interval_cases j <;> norm_num)
    (by
      intro j hj
      have h3 : j < 3 := by
        have h := hj
        simp only [List.length_cons, List.length_nil] at h
        omega
      interval_cases j <;> norm_num)
    (by norm_num) (by decide) (by decide)).2.2.2.2 (by norm_num)).2

/-- C21 as stated fails: with the real logarithm, the strictly increasing positive times
`e^0 < e^(1e-7) < e^(2e-7)` and half-width `1e-8 > 0`, the window of the interior index 1 is
`l = 0`, `r = 2` with denominator `2e-7 ≤ 1e-6`, so the derivative there is the fallback 0
although the pressure drops differ. -/
theorem interior_fallback_counterexample :
    Real.exp 0 < Real.exp (1 / 10000000) ∧
      Real.exp (1 / 10000000) < Real.exp (2 / 10000000) ∧ 0 < Real.exp 0 ∧
      windowLeft Real.log [Real.exp 0, Real.exp (1 / 10000000), Real.exp (2 / 10000000)]
        (1 / 100000000) 1 = 0 ∧
      windowRight Real.log [Real.exp 0, Real.exp (1 / 10000000), Real.exp (2 / 10000000)]
        (1 / 100000000) 1 = 2 ∧
      |Real.log (Real.exp (2 / 10000000)) - Real.log (Real.exp 0)| ≤ 1 / 1000000 ∧
      derivAt Real.log [Real.exp 0, Real.exp (1 / 10000000), Real.exp (2 / 10000000)]
        [2, 5, 10] (1 / 100000000) 1 = 0 := by
  have hl : windowLeft Real.log
      [Real.exp 0, Real.exp (1 / 10000000), Real.exp (2 / 10000000)] (1 / 100000000) 1 = 0 := by
    simp only [windowLeft, scanLeft, List.getD_cons_succ, List.getD_cons_zero, Real.log_exp]
    norm_num
  have hr : windowRight Real.log
      [Real.exp 0, Real.exp (1 / 10000000), Real.exp (2 / 10000000)] (1 / 100000000) 1 = 2 := by
    simp only [windowRight, scanRight, List.getD_cons_succ, List.getD_cons_zero, Real.log_exp,
      List.length_cons, List.length_nil]
    norm_num
  refine ⟨Real.exp_lt_exp.mpr (by norm_num), Real.exp_lt_exp.mpr (by norm_num),
    Real.exp_pos 0, hl, hr, ?_, ?_⟩
  · rw [Real.log_exp, Real.log_exp]
    norm_num [abs_of_pos]
  · simp only [derivAt, hl, hr, List.getD_cons_succ, List.getD_cons_zero, Real.log_exp]
    norm_num [abs_of_pos]

/-- C22 (as amended): for an even width `w > 1`, the smoothing window at an index at least
`w / 2` away from both ends is the symmetric span `i - w/2 .. i + w/2` and covers exactly
`w + 1` samples (not `w`). -/
theorem smooth_even_window (values : List α) (w : Int) (hw : 1 < w) (heven : w % 2 = 0)
    (i : Nat) (hlo : w.toNat / 2 ≤ i) (hhi : i + w.toNat / 2 < values.length) :
    smoothWindow values (Int.tdiv w 2) i =
        (∑ j ∈ Finset.Icc (i - w.toNat / 2) (i + w.toNat / 2), values.getD j 0, w + 1) ∧
      (Finset.Icc (i - w.toNat / 2) (i + w.toNat / 2)).card = w.toNat + 1 := by
  have hmin : min (values.length - 1) (i + w.toNat / 2) = i + w.toNat / 2 := by omega
  have hcard : (Finset.Icc (i - w.toNat / 2) (i + w.toNat / 2)).card = w.toNat + 1 := by
    rw [Nat.card_Icc]
    omega
  refine ⟨?_, hcard⟩
  rw [tdiv_two_eq w hw, smoothWindow_eq_Icc values (w.toNat / 2) i (by omega), hmin, hcard]
  congr 1
  omega

/-- Witness for `smooth_even_window`: width 2 at the middle of three values. -/
theorem smooth_even_window_witness :
    (smoothWindow ([1, 2, 3] : List ℚ) (Int.tdiv 2 2) 1).2 = 2 + 1 :=
  congrArg Prod.snd
    (smooth_even_window ([1, 2, 3] : List ℚ) 2 (by decide) (by decide) 1 (by decide)
      (by decide)).1

/-- C22 as stated fails: for the even width 2 and the three values `[1, 2, 3]`, the index 1 is
`w / 2 = 1` away from both ends and its window covers 3 samples, not 2; the smoothed value is
the mean of all three. -/
theorem smooth_even_window_counterexample :
    (2 : Int) % 2 = 0 ∧ Int.tdiv 2 2 = 1 ∧
      (smoothWindow ([1, 2, 3] : List ℚ) (Int.tdiv 2 2) 1).2 = 3 ∧
      (smoothWindow ([1, 2, 3] : List ℚ) (Int.tdiv 2 2) 1).2 ≠ 2 ∧
      (smooth true 2 ([1, 2, 3] : List ℚ))[1]? = some 2 := by
  refine ⟨by decide, by decide, by decide, by decide, ?_⟩
  norm_num [smooth, smoothLoop, smoothWindow, List.range, List.range.loop,
    (by decide : Int.toNat 2 = 2)]

/-- An even width and the next odd width have the same half. -/
theorem tdiv_even_succ (w : Int) (hw : 2 ≤ w) (heven : w % 2 = 0) :
    Int.tdiv (w + 1) 2 = Int.tdiv w 2 := by
  rw [Int.tdiv_eq_ediv (by omega) (by omega), Int.tdiv_eq_ediv (by omega) (by omega)]
  omega

/-- C29: for every sequence and every even width `w ≥ 2`, smoothing with width `w` gives
exactly the output of smoothing with width `w + 1` (with the flag on or off); at every index
the value is the mean over the symmetric span `i - w/2 .. i + w/2` cut to the sequence, which
has at most `w + 1` samples. -/
theorem smooth_even_eq_succ (isSmooth : Bool) (values : List α) (w : Int) (hw : 2 ≤ w)
    (heven : w % 2 = 0) :
    smooth isSmooth w values = smooth isSmooth (w + 1) values ∧
      (∀ i, i < values.length →
        (smooth true w values)[i]? =
          some ((∑ j ∈ Finset.Icc (i - w.toNat / 2) (min (values.length - 1) (i + w.toNat / 2)),
            values.getD j 0) /
            ((Finset.Icc (i - w.toNat / 2)
              (min (values.length - 1) (i + w.toNat / 2))).card : α)) ∧
        (Finset.Icc (i - w.toNat / 2) (min (values.length - 1) (i + w.toNat / 2))).card
          ≤ w.toNat + 1) := by
  constructor
  · have h1 : w > 1 := by omega
    have h2 : w + 1 > 1 := by omega
    unfold smooth
    by_cases hs : isSmooth = true
    · rw [if_pos ⟨hs, h1⟩, if_pos ⟨hs, h2⟩]
      simp only [smoothLoop, tdiv_even_succ w hw heven]
    · rw [if_neg (fun h => hs h.1), if_neg (fun h => hs h.1)]
  · intro i hi
    refine ⟨?_, ?_⟩
    · rw [smooth_getElem? values w (by omega) i hi,
        smoothWindow_eq_Icc values (w.toNat / 2) i hi]
      simp only [Int.cast_natCast]
    · rw [Nat.card_Icc]
      omega

/-- Witness for `smooth_even_eq_succ`: widths 2 and 3 on five values. -/
theorem smooth_even_eq_succ_witness :
    smooth true 2 ([1, 2, 3, 4, 5] : List ℚ) = smooth true (2 + 1) [1, 2, 3, 4, 5] :=
  (smooth_even_eq_succ true ([1, 2, 3, 4, 5] : List ℚ) 2 (by decide) (by decide)).1

/-- The two branches of `calculateLinePoints` on linear axes with positive range sizes: the
first estimate for `|slope| ≤ 10/3`, the clamped one (with the guard `|slope| > 1e-9` passed)
for `|slope| > 10/3`. -/
theorem calculateLinePoints_branches (pw : α → α → α) (c : ChartLayout α)
    (slope centerX centerY : α)
    (hx : 0 < c.activeRect.bottom.size) (hy : 0 < c.activeRect.left.size) :
    (|slope| ≤ 10 / 3 →
        calculateLinePoints pw c slope centerX centerY false false =
          (centerX - c.activeRect.bottom.size * (15 / 100) / 2,
           centerY - slope * (c.activeRect.bottom.size * (15 / 100)) *
             (c.activeRect.left.size / c.activeRect.bottom.size) / 2,
           centerX + c.activeRect.bottom.size * (15 / 100) / 2,
           centerY + slope * (c.activeRect.bottom.size * (15 / 100)) *
             (c.activeRect.left.size / c.activeRect.bottom.size) / 2)) ∧
      (|slope| > 10 / 3 →
        calculateLinePoints pw c slope centerX centerY false false =
          (centerX - c.activeRect.left.size * (2 / 10) * (if slope ≥ 0 then 1 else -1) /
             (slope * (c.activeRect.left.size / c.activeRect.bottom.size)) / 2,
           centerY - c.activeRect.left.size * (2 / 10) * (if slope ≥ 0 then 1 else -1) / 2,
           centerX + c.activeRect.left.size * (2 / 10) * (if slope ≥ 0 then 1 else -1) /
             (slope * (c.activeRect.left.size / c.activeRect.bottom.size)) / 2,
           centerY + c.activeRect.left.size * (2 / 10) * (if slope ≥ 0 then 1 else -1) / 2)) := by
  have hiff := clamp_test_iff slope _ _ hx hy
  constructor
  · intro hs
    have hc : ¬ |slope * (c.activeRect.bottom.size * (15 / 100)) *
        (c.activeRect.left.size / c.activeRect.bottom.size)| >
        c.activeRect.left.size * (5 / 10) := fun h => absurd (hiff.mp h) (not_lt.mpr hs)
    simp only [calculateLinePoints, Bool.false_eq_true, false_and, if_false, and_self, if_true]
    rw [if_neg hc]
  · intro hs
    have hc := hiff.mpr hs
    have hbig : |slope| > 1 / 1000000000 :=
      lt_trans (by norm_num : (1 / 1000000000 : α) < 10 / 3) hs
    simp only [calculateLinePoints, Bool.false_eq_true, false_and, if_false, and_self, if_true]
    rw [if_pos hc, if_pos hbig]

/-- C25: on linear axes with positive range sizes and any slope, the endpoints placed by
`calculateLinePoints` satisfy `x1 < x2` and `y2 - y1 = slope (yRange / xRange) (x2 - x1)` in
both branches, and `|y2 - y1| ≤ 0.5 yRange`. -/
theorem calculateLinePoints_slope_invariant (pw : α → α → α) (c : ChartLayout α)
    (slope centerX centerY : α)
    (hx : 0 < c.activeRect.bottom.size) (hy : 0 < c.activeRect.left.size) :
    (let xRange := c.activeRect.bottom.size
     let yRange := c.activeRect.left.size
     let p := calculateLinePoints pw c slope centerX centerY false false
     p.1 < p.2.2.1 ∧
      p.2.2.2 - p.2.1 = slope * (yRange / xRange) * (p.2.2.1 - p.1) ∧
      |p.2.2.2 - p.2.1| ≤ 5 / 10 * yRange) := by
  intro xRange yRange p
  obtain ⟨hsmall, hbig⟩ := calculateLinePoints_branches pw c slope centerX centerY hx hy
  rcases le_or_lt |slope| (10 / 3) with hs | hs
  · have hp : p = _ := hsmall hs
    have hdx : p.2.2.1 - p.1 = xRange * (15 / 100) := by
      rw [hp]
      show centerX + xRange * (15 / 100) / 2 - (centerX - xRange * (15 / 100) / 2) = _
      ring
    have hdy : p.2.2.2 - p.2.1 = slope * (xRange * (15 / 100)) * (yRange / xRange) := by
      rw [hp]
      show centerY + slope * (xRange * (15 / 100)) * (yRange / xRange) / 2 -
        (centerY - slope * (xRange * (15 / 100)) * (yRange / xRange) / 2) = _
      ring
    refine ⟨?_, ?_, ?_⟩
    · have : 0 < p.2.2.1 - p.1 := by
        rw [hdx]
        positivity
      linarith
    · rw [hdy, hdx]
      ring
    · rw [hdy]
      have := (clamp_test_iff slope xRange yRange hx hy).not.mpr (not_lt.mpr hs)
      have h2 := not_lt.mp this
      calc |slope * (xRange * (15 / 100)) * (yRange / xRange)| ≤ yRange * (5 / 10) := h2
        _ = 5 / 10 * yRange := by ring
  · have hp : p = _ := hbig hs
    have hs0 : slope ≠ 0 := by
      intro h0
      rw [h0, abs_zero] at hs
      norm_num at hs
    have hdy : p.2.2.2 - p.2.1 = yRange * (2 / 10) * (if slope ≥ 0 then 1 else -1) := by
      rw [hp]
      show centerY + yRange * (2 / 10) * (if slope ≥ 0 then 1 else -1) / 2 -
        (centerY - yRange * (2 / 10) * (if slope ≥ 0 then 1 else -1) / 2) = _
      ring
    have hdx : p.2.2.1 - p.1 = yRange * (2 / 10) * (if slope ≥ 0 then 1 else -1) /
        (slope * (yRange / xRange)) := by
      rw [hp]
      show centerX + yRange * (2 / 10) * (if slope ≥ 0 then 1 else -1) /
          (slope * (yRange / xRange)) / 2 -
        (centerX - yRange * (2 / 10) * (if slope ≥ 0 then 1 else -1) /
          (slope * (yRange / xRange)) / 2) = _
      ring
    have hsf : 0 < yRange / xRange := div_pos hy hx
    refine ⟨?_, ?_, ?_⟩
    · have : 0 < p.2.2.1 - p.1 := by
        rw [hdx]
        rcases lt_or_gt_of_ne hs0 with hneg | hpos
        · rw [if_neg (not_le.mpr hneg)]
          apply div_pos_of_neg_of_neg
          · have : 0 < yRange * (2 / 10) := by positivity
            linarith
          · exact mul_neg_of_neg_of_pos hneg hsf
        · rw [if_pos hpos.le]
          apply div_pos
          · have : 0 < yRange * (2 / 10) := by positivity
            linarith
          · exact mul_pos hpos hsf
      linarith
    · rw [hdy, hdx]
      have hne : slope * (yRange / xRange) ≠ 0 := mul_ne_zero hs0 hsf.ne'
      rw [mul_div_cancel₀ _ hne]
    · rw [hdy, abs_mul, abs_mul, abs_of_pos hy, abs_of_pos (by norm_num : (0 : α) < 2 / 10)]
      have habs : |(if slope ≥ 0 then (1 : α) else -1)| = 1 := by
        split <;> simp
      rw [habs]
      linarith

/-- Witness for `calculateLinePoints_slope_invariant`: slope 4 (clamped) on the ranges
x ∈ [0, 10], y ∈ [0, 20]. -/
theorem calculateLinePoints_slope_invariant_witness :
    (calculateLinePoints samplePow
        ⟨ChartMode.Mode_Single, none, ⟨⟨0, 10, ScaleType.stLinear⟩, ⟨0, 20, ScaleType.stLinear⟩⟩⟩
        4 5 10 false false).1 <
      (calculateLinePoints samplePow
        ⟨ChartMode.Mode_Single, none, ⟨⟨0, 10, ScaleType.stLinear⟩, ⟨0, 20, ScaleType.stLinear⟩⟩⟩
        4 5 10 false false).2.2.1 :=
  (calculateLinePoints_slope_invariant samplePow
    ⟨ChartMode.Mode_Single, none, ⟨⟨0, 10, ScaleType.stLinear⟩, ⟨0, 20, ScaleType.stLinear⟩⟩⟩
    4 5 10 (by norm_num [ChartLayout.activeRect, QCPAxis.size])
    (by norm_num [ChartLayout.activeRect, QCPAxis.size])).1

/-- C30: `getProductionValueAt` ignores its time argument: for all times it returns the same
value, the last element of `y2Data`, or 0 when `y2Data` is empty; so in every row written by
the stacked branch of `executeExport`, partial or full, the `q` cell (the third one) is that
one value. -/
theorem getProductionValueAt_constant (info : CurveInfo α) (t1 t2 : α) :
    getProductionValueAt t1 info = getProductionValueAt t2 info ∧
      (info.y2Data = [] → getProductionValueAt t1 info = 0) ∧
      (∀ (front : List α) (x : α), info.y2Data = front ++ [x] →
        getProductionValueAt t1 info = x) ∧
      (∀ (fullRange : Bool) (start end_ : α),
        ∀ row ∈ exportRowsStacked fullRange start end_ info,
          row.length = (if fullRange = true then 3 else 4) ∧
          row.getD 2 0 = getProductionValueAt t1 info) ∧
      (∀ (w : Widget α) (file : String) (opened fullRange : Bool) (start end_ : α)
          (out : ExportFile α),
        mapFind w.m_curves w.m_currentDisplayedCurve = some info →
        (executeExport w file opened ChartMode.Mode_Stacked fullRange start end_).2 = some out →
        ∀ row ∈ out.rows, row.getD 2 0 = getProductionValueAt t1 info) := by
  have hrows : ∀ (fullRange : Bool) (start end_ : α),
      ∀ row ∈ exportRowsStacked fullRange start end_ info,
        row.length = (if fullRange = true then 3 else 4) ∧
        row.getD 2 0 = getProductionValueAt t1 info := by
    intro fullRange start end_ row hrow
    cases fullRange with
    | true =>
      rw [exportRowsStacked_full] at hrow
      obtain ⟨i, _, rfl⟩ := List.mem_map.mp hrow
      exact ⟨rfl, rfl⟩
    | false =>
      rw [ exportRowsStacked_partial] at hrow
      obtain ⟨i, _, rfl⟩ := List.mem_map.mp hrow
      exact ⟨rfl, rfl⟩
  refine ⟨rfl, ?_, ?_, hrows, ?_⟩
  · intro h
    simp [getProductionValueAt, h]
  · intro front x h
    simp [getProductionValueAt, h]
  · intro w file opened fullRange start end_ out hc hout
    unfold executeExport at hout
    by_cases hf : file.isEmpty = true
    · simp [hf] at hout
    · by_cases ho : opened = false
      · simp [hf, ho] at hout
      · simp only [hf, ho, if_false, hc, Option.getD_some, if_true] at hout
        have := Option.some.inj hout
        subst this
        intro row hrow
        exact (hrows fullRange start end_ row hrow).2

end EngineTheorems

/-! ## Theorems: deleting plot items -/

section PlotTheorems
variable {α : Type}

theorem mem_removeItem (id : Nat) (items : List (PlotItem α)) (it : PlotItem α) :
    it ∈ removeItem id items ↔ it ∈ items ∧ it.id ≠ id := by
  simp [removeItem]

theorem mem_removeItemOpt (ptr : Option Nat) (items : List (PlotItem α)) (it : PlotItem α) :
    it ∈ removeItemOpt ptr items ↔ it ∈ items ∧ some it.id ≠ ptr := by
  cases ptr with
  | none => simp [removeItemOpt]
  | some id => simp [removeItemOpt, mem_removeItem]

theorem annFind_eq_none (m : List (Nat × ChartAnnotation)) (key : Nat) :
    annFind m key = none ↔ ∀ e ∈ m, e.1 ≠ key := by
  simp [annFind, List.find?_eq_none]

theorem mem_annErase (m : List (Nat × ChartAnnotation)) (key : Nat)
    (e : Nat × ChartAnnotation) : e ∈ annErase m key ↔ e ∈ m ∧ e.1 ≠ key := by
  simp [annErase]

theorem annFind_annErase_ne (m : List (Nat × ChartAnnotation)) (key other : Nat)
    (h : other ≠ key) : annFind (annErase m other) key = annFind m key := by
  induction m with
  | nil => rfl
  | cons e rest ih =>
    by_cases h1 : e.1 = other
    · have h2 : e.1 ≠ key := by
        rw [h1]
        exact h
      have ih2 : annFind (List.filter (fun e => e.1 != other) rest) key = annFind rest key := ih
      simp only [annErase, annFind, List.filter_cons, List.find?_cons] at ih2 ⊢
      simp only [h1, bne_self_eq_false, Bool.false_eq_true, if_false]
      have hb : (other == key) = false := by simpa using h
      simp only [hb]
      exact ih2
    · have ih2 : annFind (List.filter (fun e => e.1 != other) rest) key = annFind rest key := ih
      have hb : (e.1 != other) = true := by simpa using h1
      simp only [annErase, annFind, List.filter_cons, hb, if_true, List.find?_cons] at ih2 ⊢
      cases hk : (e.1 == key) with
      | true => rfl
      | false => exact ih2

theorem annErase_nodup (m : List (Nat × ChartAnnotation)) (key : Nat)
    (h : (m.map Prod.fst).Nodup) : ((annErase m key).map Prod.fst).Nodup :=
  List.Nodup.sublist (List.Sublist.map _ (List.filter_sublist m)) h

/-- In a map with unique keys every entry is the one found under its key. -/
theorem annFind_of_mem (m : List (Nat × ChartAnnotation)) (h : (m.map Prod.fst).Nodup)
    (e : Nat × ChartAnnotation) (he : e ∈ m) : annFind m e.1 = some e.2 := by
  induction m with
  | nil => simp at he
  | cons x rest ih =>
    simp only [List.map_cons, List.nodup_cons] at h
    rcases List.mem_cons.mp he with rfl | hr
    · simp [annFind, List.find?_cons]
    · have hne : x.1 ≠ e.1 := by
        intro heq
        apply h.1
        rw [heq]
        exact List.mem_map_of_mem _ hr
      have hb : (x.1 == e.1) = false := by simpa using hne
      have := ih h.2 hr
      simp only [annFind, List.find?_cons, hb] at this ⊢
      exact this

/-- After `deselectAll` and `setSelected id` only items of address `id` are selected. -/
theorem selected_setSelected_deselectAll (id : Nat) (items : List (PlotItem α))
    (hid : (items.map (fun it => it.id)).Nodup) :
    ((setSelected id (deselectAll items)).filter (fun it => it.selected)).length ≤ 1 := by
  have hnone : ∀ xs : List (PlotItem α), id ∉ xs.map (fun it => it.id) →
      (setSelected id (deselectAll xs)).filter (fun it => it.selected) = [] := by
    intro xs
    induction xs with
    | nil => intro _; rfl
    | cons x xs ih =>
      intro hx
      simp only [List.map_cons, List.mem_cons, not_or] at hx
      have hne : ¬ x.id = id := fun h => hx.1 h.symm
      have ih2 := ih hx.2
      simp only [setSelected, deselectAll, List.map_cons, List.map_map] at ih2 ⊢
      simp only [hne, if_false, List.filter_cons, Bool.false_eq_true]
      exact ih2
  induction items with
  | nil => simp [setSelected, deselectAll]
  | cons x xs ih =>
    simp only [List.map_cons, List.nodup_cons] at hid
    by_cases hx : x.id = id
    · have h0 := hnone xs (hx ▸ hid.1)
      simp only [setSelected, deselectAll, List.map_cons, List.map_map] at h0 ⊢
      simp only [hx, if_true, List.filter_cons, h0, List.length_cons, List.length_nil]
      omega
    · have ih2 := ih hid.2
      simp only [setSelected, deselectAll, List.map_cons, List.map_map] at ih2 ⊢
      simp only [hx, if_false, List.filter_cons, Bool.false_eq_true]
      exact ih2

/-- The press handler, the only code that selects an item, keeps the selection at one item at
most (the addresses of the items being distinct). -/
theorem onPlotMousePress_selected_le_one [LinearOrderedField α] (env : PlotEnv α)
    (w : ChartWidget α)
    (event : QMouseEvent α) (hid : (w.items.map (fun it => it.id)).Nodup)
    (hsel : (w.items.filter (fun it => it.selected)).length ≤ 1) :
    ((onPlotMousePress env w event).items.filter (fun it => it.selected)).length ≤ 1 := by
  have hdes : ((deselectAll w.items).filter (fun it => it.selected)).length ≤ 1 := by
    have : (deselectAll w.items).filter (fun it => it.selected) = [] := by
      simp [deselectAll, List.filter_eq_nil_iff]
    rw [this]
    exact Nat.zero_le 1
  unfold onPlotMousePress
  by_cases hb : event.button ≠ MouseButton.LeftButton
  · rw [if_pos hb]
    exact hsel
  · rw [if_neg hb]
    dsimp only
    cases findTextHit env event.pos w.items with
    | some id => exact selected_setSelected_deselectAll id w.items hid
    | none =>
      cases findArrowHit env event.pos w.items with
      | some r => exact hsel
      | none =>
        cases findLineHit env event.pos w.items with
        | some r => exact selected_setSelected_deselectAll r.2 w.items hid
        | none => exact hdes

/-- The iteration of the loop for a line that is an item of the plot and has an entry in the
map: the annotation's text and arrow, the entry and the line are removed. -/
theorem deleteStep_line (items : List (PlotItem α)) (m : List (Nat × ChartAnnotation))
    (line : PlotItem α) (l : QCPItemLine α) (c : Bool) (note : ChartAnnotation)
    (hmem : line ∈ items) (hkind : line.kind = ItemKind.line l c)
    (hnote : annFind m line.id = some note) :
    deleteStep (items, m) line =
      some (removeItem line.id
        (removeItemOpt note.arrowItem (removeItemOpt note.textItem items)),
        annErase m line.id) := by
  have hany : items.any (fun it => it.id == line.id) = true :=
    List.any_eq_true.mpr ⟨line, hmem, by simp⟩
  simp only [deleteStep, hany, if_true, hkind, hnote]

/-- C19: when `deleteSelectedItems` runs with a selected line that has an entry in the
annotation map (the line being the selected item, as the widget keeps at most one item
selected), it returns, and afterwards the line, the annotation's text item and the
annotation's arrow item are no longer items of the plot, every other item still is, the map
has no entry for the line, and the entry of every other line is unchanged. -/
theorem deleteSelectedItems_line (w : ChartWidget α) (line : PlotItem α) (l : QCPItemLine α)
    (c : Bool) (note : ChartAnnotation)
    (hsel : w.items.filter (fun it => it.selected) = [line])
    (hkind : line.kind = ItemKind.line l c)
    (hnote : annFind w.m_annotations line.id = some note) :
    ∃ w1, deleteSelectedItems w = some w1 ∧
      (∀ it ∈ w1.items,
        it.id ≠ line.id ∧ some it.id ≠ note.textItem ∧ some it.id ≠ note.arrowItem) ∧
      (∀ it ∈ w.items, it.id ≠ line.id → some it.id ≠ note.textItem →
        some it.id ≠ note.arrowItem → it ∈ w1.items) ∧
      annFind w1.m_annotations line.id = none ∧
      (∀ key, key ≠ line.id →
        annFind w1.m_annotations key = annFind w.m_annotations key) := by
  have hmem : line ∈ w.items := by
    have h : line ∈ w.items.filter (fun it => it.selected) := by
      rw [hsel]
      exact List.mem_singleton.mpr rfl
    exact (List.mem_filter.mp h).1
  have hstep := deleteStep_line w.items w.m_annotations line l c note hmem hkind hnote
  have hrun : deleteSelectedItems w =
      some { w with
        items := removeItem line.id
          (removeItemOpt note.arrowItem (removeItemOpt note.textItem w.items))
        m_annotations := annErase w.m_annotations line.id } := by
    simp only [deleteSelectedItems, hsel, deleteLoop, hstep]
  refine ⟨_, hrun, ?_, ?_, ?_, ?_⟩
  · intro it hit
    have h1 := (mem_removeItem _ _ _).mp hit
    have h2 := (mem_removeItemOpt _ _ _).mp h1.1
    have h3 := (mem_removeItemOpt _ _ _).mp h2.1
    exact ⟨h1.2, h3.2, h2.2⟩
  · intro it hit h1 h2 h3
    exact (mem_removeItem _ _ _).mpr
      ⟨(mem_removeItemOpt _ _ _).mpr ⟨(mem_removeItemOpt _ _ _).mpr ⟨hit, h2⟩, h3⟩, h1⟩
  · apply (annFind_eq_none _ _).mpr
    intro e he
    exact ((mem_annErase _ _ _).mp he).2
  · intro key hkey
    exact annFind_annErase_ne _ _ _ (fun h => hkey h.symm)

/-- Witness for `deleteSelectedItems_line`: deleting the selected line 1 of the sample chart
removes it with its text 11 and arrow 12, keeps line 2 with its text 21 and arrow 22, leaves
no entry for line 1 and keeps the entry of line 2. -/
theorem deleteSelectedItems_line_witness :
    ∃ w1, deleteSelectedItems annotatedChart = some w1 ∧
      (∀ it ∈ w1.items, it.id ≠ 1 ∧ some it.id ≠ some 11 ∧ some it.id ≠ some 12) ∧
      annFind w1.m_annotations 1 = none ∧
      annFind w1.m_annotations 2 = annFind annotatedChart.m_annotations 2 :=
  have h := deleteSelectedItems_line annotatedChart
    ⟨1, true, ItemKind.line ⟨(0, 0), (100, 0), 1, true⟩ true⟩ ⟨(0, 0), (100, 0), 1, true⟩ true
    ⟨some 11, some 12⟩ (by simp [annotatedChart]) rfl (by decide)
  h.elim fun w1 hw => ⟨w1, hw.1, hw.2.1, hw.2.2.2.1, hw.2.2.2.2 2 (by decide)⟩

/-- The sample chart after the deletion of its selected line 1: the items 2, 21 and 22 remain
and the map has the entry of line 2 only. -/
theorem deleteSelectedItems_sample :
    (deleteSelectedItems annotatedChart).map (fun w1 => w1.items.map (fun it => it.id)) =
        some [2, 21, 22] ∧
      (deleteSelectedItems annotatedChart).map (fun w1 => w1.m_annotations) =
        some [(2, ⟨some 21, some 22⟩)] := by
  decide

/-- The loop has no result when a line and the text of its own annotation are both in the
captured list: the iteration of the line deletes the text, which the next iteration reads. -/
theorem deleteLoop_deleted_item :
    (deleteLoop
      [⟨1, true, ItemKind.line ⟨(0, 0), (100, 0), 1, true⟩ true⟩,
       ⟨11, true, ItemKind.text ⟨(50, 5), "k=1"⟩⟩]
      (annotatedChart.items, annotatedChart.m_annotations)).isNone = true := by
  decide

/-- C23: for every interaction state, `onPlotMouseRelease` leaves the interaction mode at
`Mode_None` and changes no item (so no line, text or arrow coordinate), no annotation and no
active target; the interactions become the default pan/zoom/select flags when no line, text
or arrow is the active target, and are left as they were otherwise. -/
theorem onPlotMouseRelease_spec (w : ChartWidget α) (event : QMouseEvent α) :
    (onPlotMouseRelease w event).m_interMode = InteractionMode.Mode_None ∧
      (onPlotMouseRelease w event).items = w.items ∧
      (onPlotMouseRelease w event).m_annotations = w.m_annotations ∧
      (onPlotMouseRelease w event).m_activeLine = w.m_activeLine ∧
      (onPlotMouseRelease w event).m_activeText = w.m_activeText ∧
      (onPlotMouseRelease w event).m_activeArrow = w.m_activeArrow ∧
      (onPlotMouseRelease w event).m_lastMousePos = w.m_lastMousePos ∧
      ((w.m_activeLine = none ∧ w.m_activeText = none ∧ w.m_activeArrow = none) →
        (onPlotMouseRelease w event).interactions = defaultInteractions) ∧
      (¬ (w.m_activeLine = none ∧ w.m_activeText = none ∧ w.m_activeArrow = none) →
        (onPlotMouseRelease w event).interactions = w.interactions) := by
  unfold onPlotMouseRelease
  by_cases h : w.m_activeLine = none ∧ w.m_activeText = none ∧ w.m_activeArrow = none
  · rw [if_pos h]
    exact ⟨rfl, rfl, rfl, rfl, rfl, rfl, rfl, fun _ => rfl, fun hn => absurd h hn⟩
  · rw [if_neg h]
    exact ⟨rfl, rfl, rfl, rfl, rfl, rfl, rfl, fun hp => absurd hp h, fun _ => rfl⟩

end PlotTheorems

/-! ## Theorems: the fit-parameter dialog -/

section DialogTheorems
variable {α : Type}

/-- The row invariant of the dialog: a checked "fit" box comes with a checked and disabled
"visible" box. -/
theorem initRow_inv (p : FitParameter α) :
    (initRow p).chkFitChecked = true →
      (initRow p).chkVisChecked = true ∧ (initRow p).chkVisEnabled = false := by
  intro h
  have hp : p.isFit = true := h
  simp [initRow, hp]

theorem clickFitRow_inv (r : ParamRow α) :
    (clickFitRow r).chkFitChecked = true →
      (clickFitRow r).chkVisChecked = true ∧ (clickFitRow r).chkVisEnabled = false := by
  unfold clickFitRow
  split
  · intro _
    exact ⟨rfl, rfl⟩
  · intro h
    simp at h

theorem clickVisRow_inv (r : ParamRow α)
    (hr : r.chkFitChecked = true → r.chkVisChecked = true ∧ r.chkVisEnabled = false) :
    (clickVisRow r).chkFitChecked = true →
      (clickVisRow r).chkVisChecked = true ∧ (clickVisRow r).chkVisEnabled = false := by
  unfold clickVisRow
  split
  · rename_i he
    intro h
    have := (hr h).2
    rw [he] at this
    exact absurd this (by decide)
  · exact hr

theorem updateRow_forall (P : ParamRow α → Prop) (f : ParamRow α → ParamRow α)
    (hf : ∀ r, P r → P (f r)) (i : Nat) (rows : List (ParamRow α)) (h : ∀ r ∈ rows, P r) :
    ∀ r ∈ updateRow f i rows, P r := by
  induction rows generalizing i with
  | nil => simp [updateRow]
  | cons r rs ih =>
    cases i with
    | zero =>
      intro x hx
      simp only [updateRow, List.mem_cons] at hx
      rcases hx with rfl | hx
      · exact hf r (h r (List.mem_cons_self _ _))
      · exact h x (List.mem_cons_of_mem _ hx)
    | succ i =>
      intro x hx
      simp only [updateRow, List.mem_cons] at hx
      rcases hx with rfl | hx
      · exact h _ (List.mem_cons_self _ _)
      · exact ih i (fun y hy => h y (List.mem_cons_of_mem _ hy)) x hx

theorem updateRow_length (f : ParamRow α → ParamRow α) (i : Nat) (rows : List (ParamRow α)) :
    (updateRow f i rows).length = rows.length := by
  induction rows generalizing i with
  | nil => simp [updateRow]
  | cons r rs ih =>
    cases i with
    | zero => simp [updateRow]
    | succ i => simp [updateRow, ih]

/-- Every action keeps the row invariant, the number of rows and `m_params`. -/
theorem step_inv (d : ParamSelectDialog α) (a : DialogAction α)
    (h : ∀ r ∈ d.rows, r.chkFitChecked = true →
      r.chkVisChecked = true ∧ r.chkVisEnabled = false) :
    (∀ r ∈ (d.step a).rows, r.chkFitChecked = true →
        r.chkVisChecked = true ∧ r.chkVisEnabled = false) ∧
      (d.step a).rows.length = d.rows.length ∧ (d.step a).m_params = d.m_params := by
  cases a with
  | clickFit i =>
    exact ⟨updateRow_forall _ _ (fun r _ => clickFitRow_inv r) i d.rows h,
      updateRow_length _ _ _, rfl⟩
  | clickVis i =>
    exact ⟨updateRow_forall _ _ (fun r hr => clickVisRow_inv r hr) i d.rows h,
      updateRow_length _ _ _, rfl⟩
  | editValue i v =>
    exact ⟨updateRow_forall _ (fun r => { r with spinVal := v }) (fun r hr => hr) i d.rows h,
      updateRow_length _ _ _, rfl⟩
  | editMin i v =>
    exact ⟨updateRow_forall _ (fun r => { r with spinMin := v }) (fun r hr => hr) i d.rows h,
      updateRow_length _ _ _, rfl⟩
  | editMax i v =>
    exact ⟨updateRow_forall _ (fun r => { r with spinMax := v }) (fun r hr => hr) i d.rows h,
      updateRow_length _ _ _, rfl⟩

theorem run_inv (params : List (FitParameter α)) (actions : List (DialogAction α)) :
    (∀ r ∈ (actions.foldl ParamSelectDialog.step (ParamSelectDialog.init params)).rows,
        r.chkFitChecked = true → r.chkVisChecked = true ∧ r.chkVisEnabled = false) ∧
      (actions.foldl ParamSelectDialog.step (ParamSelectDialog.init params)).rows.length
        = params.length ∧
      (actions.foldl ParamSelectDialog.step (ParamSelectDialog.init params)).m_params
        = params := by
  induction actions using List.reverseRecOn with
  | nil =>
    refine ⟨?_, by simp [ParamSelectDialog.init], rfl⟩
    intro r hr
    simp only [List.foldl_nil, ParamSelectDialog.init, List.mem_map] at hr
    obtain ⟨p, _, rfl⟩ := hr
    exact initRow_inv p
  | append_singleton as a ih =>
    rw [List.foldl_append, List.foldl_cons, List.foldl_nil]
    obtain ⟨h1, h2, h3⟩ := ih
    obtain ⟨g1, g2, g3⟩ := step_inv _ a h1
    exact ⟨g1, g2.trans h2, g3.trans h3⟩

theorem collectLoop_fit_visible (ps : List (FitParameter α)) (rs : List (ParamRow α))
    (hlen : rs.length = ps.length)
    (h : ∀ r ∈ rs, r.chkFitChecked = true → r.chkVisChecked = true) :
    ∀ p ∈ collectLoop ps rs, p.isFit = true → p.isVisible = true := by
  induction ps generalizing rs with
  | nil => simp [collectLoop]
  | cons p ps ih =>
    cases rs with
    | nil => simp at hlen
    | cons r rs =>
      intro q hq hfit
      simp only [collectLoop, List.mem_cons] at hq
      rcases hq with rfl | hq
      · exact h r (List.mem_cons_self _ _) hfit
      · exact ih rs (by simpa using hlen) (fun x hx => h x (List.mem_cons_of_mem _ hx)) q hq hfit

/-- C20: in every state of the fit-parameter dialog reached from any initial parameter list by
any sequence of clicks on the "fit" and "visible" boxes (a click on a disabled box does
nothing) and spin-box edits, every row with a checked "fit" box has a checked "visible" box;
so after `onConfirm` every parameter returned by `getUpdatedParams` with `isFit` has
`isVisible`. -/
theorem fit_implies_visible (params : List (FitParameter α))
    (actions : List (DialogAction α)) :
    (∀ r ∈ (actions.foldl ParamSelectDialog.step (ParamSelectDialog.init params)).rows,
        r.chkFitChecked = true → r.chkVisChecked = true) ∧
      (∀ p ∈ (actions.foldl ParamSelectDialog.step
          (ParamSelectDialog.init params)).onConfirm.getUpdatedParams,
        p.isFit = true → p.isVisible = true) := by
  obtain ⟨h1, h2, h3⟩ := run_inv params actions
  have hv : ∀ r ∈ (actions.foldl ParamSelectDialog.step (ParamSelectDialog.init params)).rows,
      r.chkFitChecked = true → r.chkVisChecked = true := fun r hr hf => (h1 r hr hf).1
  refine ⟨hv, ?_⟩
  show ∀ p ∈ collectLoop _ _, _
  rw [h3]
  exact collectLoop_fit_visible params _ h2 hv

end DialogTheorems

/-! ## Theorems: persistence of curve records -/

section PersistenceTheorems
variable {α : Type} [LinearOrderedField α] [FloorRing α]

/-- The members common to all kinds after a round trip. -/
theorem fromJson_toJson_common (info : CurveInfo α) :
    (CurveInfo.fromJson info.toJson).name = info.name ∧
      (CurveInfo.fromJson info.toJson).legendName = info.legendName ∧
      (CurveInfo.fromJson info.toJson).type = info.type ∧
      (CurveInfo.fromJson info.toJson).xCol = info.xCol ∧
      (CurveInfo.fromJson info.toJson).yCol = info.yCol ∧
      (CurveInfo.fromJson info.toJson).xData = info.xData ∧
      (CurveInfo.fromJson info.toJson).yData = info.yData ∧
      (CurveInfo.fromJson info.toJson).pointShape = info.pointShape ∧
      (CurveInfo.fromJson info.toJson).pointColor = QColor.fromString info.pointColor.name ∧
      (CurveInfo.fromJson info.toJson).lineStyle = info.lineStyle ∧
      (CurveInfo.fromJson info.toJson).lineColor = QColor.fromString info.lineColor.name := by
  by_cases h1 : info.type = 1
  · simp [CurveInfo.fromJson, CurveInfo.toJson, jsonAt, mapFind, List.find?, h1,
      QJsonValue.toString, QJsonValue.toInt, jsonToVector_vectorToJson]
  · by_cases h2 : info.type = 2
    · simp [CurveInfo.fromJson, CurveInfo.toJson, jsonAt, mapFind, List.find?, h2,
        QJsonValue.toString, QJsonValue.toInt, jsonToVector_vectorToJson]
    · simp [CurveInfo.fromJson, CurveInfo.toJson, jsonAt, mapFind, List.find?, h1, h2,
        QJsonValue.toString, QJsonValue.toInt, jsonToVector_vectorToJson]

/-- The members of a stacked record (type 1) after a round trip. -/
theorem fromJson_toJson_stacked (info : CurveInfo α) (h1 : info.type = 1) :
    (CurveInfo.fromJson info.toJson).x2Col = info.x2Col ∧
      (CurveInfo.fromJson info.toJson).y2Col = info.y2Col ∧
      (CurveInfo.fromJson info.toJson).x2Data = info.x2Data ∧
      (CurveInfo.fromJson info.toJson).y2Data = info.y2Data ∧
      (CurveInfo.fromJson info.toJson).prodLegendName = info.prodLegendName ∧
      (CurveInfo.fromJson info.toJson).prodGraphType = info.prodGraphType ∧
      (CurveInfo.fromJson info.toJson).prodColor = QColor.fromString info.prodColor.name := by
  simp [CurveInfo.fromJson, CurveInfo.toJson, jsonAt, mapFind, List.find?, h1,
    QJsonValue.toString, QJsonValue.toInt, jsonToVector_vectorToJson]

/-- The members of a derivative record (type 2) after a round trip. -/
theorem fromJson_toJson_derivative (info : CurveInfo α) (h2 : info.type = 2) :
    (CurveInfo.fromJson info.toJson).testType = info.testType ∧
      (CurveInfo.fromJson info.toJson).initialPressure = info.initialPressure ∧
      (CurveInfo.fromJson info.toJson).LSpacing = info.LSpacing ∧
      (CurveInfo.fromJson info.toJson).isSmooth = info.isSmooth ∧
      (CurveInfo.fromJson info.toJson).smoothFactor = info.smoothFactor ∧
      (CurveInfo.fromJson info.toJson).derivData = info.derivData ∧
      (CurveInfo.fromJson info.toJson).derivShape = info.derivShape ∧
      (CurveInfo.fromJson info.toJson).derivPointColor
        = QColor.fromString info.derivPointColor.name ∧
      (CurveInfo.fromJson info.toJson).derivLineStyle = info.derivLineStyle ∧
      (CurveInfo.fromJson info.toJson).derivLineColor
        = QColor.fromString info.derivLineColor.name ∧
      (CurveInfo.fromJson info.toJson).prodLegendName = info.prodLegendName := by
  simp [CurveInfo.fromJson, CurveInfo.toJson, jsonAt, mapFind, List.find?, h2,
    QJsonValue.toString, QJsonValue.toInt, QJsonValue.toDouble, QJsonScalar.toDouble,
    QJsonValue.toBool, jsonToVector_vectorToJson]

/-- C16 (as amended): `fromJson (toJson record)` reproduces every member that `toJson` writes
for the record's kind: name, legend name, type, columns, `xData`, `yData`, point shape and
line style for every kind; the second series and production members for a stacked record
(type 1); `testType`, `initialPressure`, `LSpacing`, `isSmooth`, `smoothFactor`, `derivData`
and the derivative styles for a derivative record (type 2).  Every colour that is written
comes back as the valid, opaque colour with the same 8-bit RGB channels, hence unchanged
exactly when it was valid and opaque.  Members outside the record's kind are not written. -/
theorem fromJson_toJson (info : CurveInfo α) :
    (CurveInfo.fromJson info.toJson).name = info.name ∧
      (CurveInfo.fromJson info.toJson).legendName = info.legendName ∧
      (CurveInfo.fromJson info.toJson).type = info.type ∧
      (CurveInfo.fromJson info.toJson).xCol = info.xCol ∧
      (CurveInfo.fromJson info.toJson).yCol = info.yCol ∧
      (CurveInfo.fromJson info.toJson).xData = info.xData ∧
      (CurveInfo.fromJson info.toJson).yData = info.yData ∧
      (CurveInfo.fromJson info.toJson).pointShape = info.pointShape ∧
      (CurveInfo.fromJson info.toJson).lineStyle = info.lineStyle ∧
      (info.pointColor.IsRgb →
        (CurveInfo.fromJson info.toJson).pointColor = info.pointColor.solid) ∧
      (info.lineColor.IsRgb →
        (CurveInfo.fromJson info.toJson).lineColor = info.lineColor.solid) ∧
      (info.type = 1 →
        (CurveInfo.fromJson info.toJson).x2Col = info.x2Col ∧
        (CurveInfo.fromJson info.toJson).y2Col = info.y2Col ∧
        (CurveInfo.fromJson info.toJson).x2Data = info.x2Data ∧
        (CurveInfo.fromJson info.toJson).y2Data = info.y2Data ∧
        (CurveInfo.fromJson info.toJson).prodLegendName = info.prodLegendName ∧
        (CurveInfo.fromJson info.toJson).prodGraphType = info.prodGraphType ∧
        (info.prodColor.IsRgb →
          (CurveInfo.fromJson info.toJson).prodColor = info.prodColor.solid)) ∧
      (info.type = 2 →
        (CurveInfo.fromJson info.toJson).testType = info.testType ∧
        (CurveInfo.fromJson info.toJson).initialPressure = info.initialPressure ∧
        (CurveInfo.fromJson info.toJson).LSpacing = info.LSpacing ∧
        (CurveInfo.fromJson info.toJson).isSmooth = info.isSmooth ∧
        (CurveInfo.fromJson info.toJson).smoothFactor = info.smoothFactor ∧
        (CurveInfo.fromJson info.toJson).derivData = info.derivData ∧
        (CurveInfo.fromJson info.toJson).derivShape = info.derivShape ∧
        (CurveInfo.fromJson info.toJson).derivLineStyle = info.derivLineStyle ∧
        (CurveInfo.fromJson info.toJson).prodLegendName = info.prodLegendName ∧
        (info.derivPointColor.IsRgb →
          (CurveInfo.fromJson info.toJson).derivPointColor = info.derivPointColor.solid) ∧
        (info.derivLineColor.IsRgb →
          (CurveInfo.fromJson info.toJson).derivLineColor = info.derivLineColor.solid)) ∧
      (∀ c : QColor, c.solid = c ↔ c.valid = true ∧ c.alpha = 255) := by
  obtain ⟨c1, c2, c3, c4, c5, c6, c7, c8, c9, c10, c11⟩ := fromJson_toJson_common info
  refine ⟨c1, c2, c3, c4, c5, c6, c7, c8, c10, ?_, ?_, ?_, ?_, ?_⟩
  · intro h
    rw [c9, fromString_name _ h]
  · intro h
    rw [c11, fromString_name _ h]
  · intro h1
    obtain ⟨s1, s2, s3, s4, s5, s6, s7⟩ := fromJson_toJson_stacked info h1
    refine ⟨s1, s2, s3, s4, s5, s6, ?_⟩
    intro h
    rw [s7, fromString_name _ h]
  · intro h2
    obtain ⟨d1, d2, d3, d4, d5, d6, d7, d8, d9, d10, d11⟩ := fromJson_toJson_derivative info h2
    refine ⟨d1, d2, d3, d4, d5, d6, d7, d9, d11, ?_, ?_⟩
    · intro h
      rw [d8, fromString_name _ h]
    · intro h
      rw [d10, fromString_name _ h]
  · intro c
    constructor
    · intro h
      have hv := congrArg QColor.valid h
      have ha := congrArg QColor.alpha h
      exact ⟨hv.symm, ha.symm⟩
    · intro h
      cases c
      simp only [QColor.solid] at h ⊢
      simp only [QColor.mk.injEq, true_and, and_true]
      exact ⟨h.1.symm, h.2.symm⟩

/-- Witness for `fromJson_toJson`: the sample curve keeps its samples, and its half-transparent
point colour comes back opaque. -/
theorem fromJson_toJson_witness :
    (CurveInfo.fromJson translucentCurve.toJson).xData = [1, 2] ∧
      (CurveInfo.fromJson translucentCurve.toJson).pointColor = ⟨true, 255, 0, 0, 255⟩ :=
  have h := fromJson_toJson translucentCurve
  ⟨h.2.2.2.2.2.1, h.2.2.2.2.2.2.2.2.2.1 ⟨by decide, by decide, by decide⟩⟩

/-- C16 as stated fails: a simple record (type 0) whose point colour is a valid red with
alpha 128 comes back with alpha 255, so the round trip does not reproduce the record. -/
theorem fromJson_toJson_counterexample :
    translucentCurve.type = 0 ∧ translucentCurve.pointColor = ⟨true, 255, 0, 0, 128⟩ ∧
      (CurveInfo.fromJson translucentCurve.toJson).pointColor = ⟨true, 255, 0, 0, 255⟩ ∧
      CurveInfo.fromJson translucentCurve.toJson ≠ translucentCurve := by
  refine ⟨rfl, rfl, by decide, ?_⟩
  intro h
  have h2 := congrArg (fun r => r.pointColor.alpha) h
  revert h2
  decide

end PersistenceTheorems

end WT
